import Mathlib

/-!
# Rope simulation: a shallow embedding of `acheronti_programming_project_3.cpp`

The simulation core of the program (the `Vec3`, `Particle`, `Spring` and
`RopeSimulator` classes) is embedded as pure functions.

* `double` is an arbitrary linearly ordered field `α` (exact arithmetic);
  `sqrt` of `<math.h>` is a parameter of every function that calls it, and the
  theorems that need its defining property assume `IsSqrt sqrt`. Rounding,
  overflow and values that are not numbers are not modelled: a division by zero
  returns 0 in a field, and `Vec3.NormalizedChecked`, `Spring.SolveChecked` make
  the zero divisor of `Spring::Solve` (a spring vector of magnitude zero)
  explicit.
* The `#define` settings and the globals read by the core are the fields of
  `Settings`; `Settings.program` holds the values written in the source.
* `std::vector` is `List`; the `Particle*` of a `Spring` is the index of the
  particle in `RopeSimulator::Particles`, and dereferencing an index that is not
  in the vector makes `Spring.Solve` return `none`.
-/

set_option linter.unusedVariables false
set_option autoImplicit false
set_option linter.unusedSectionVars false

namespace Rope

/-! ## Definitions -/

/-- Simulation, rope, ball and particle settings of the source file (its
`#define`s and the global `TIME_STEPSIZE`). -/
structure Settings (α : Type) where
  NUM_PARTICLES : Nat
  SPRING_K : α
  SPRING_D : α
  GRAVITY : α
  TIME_STEPSIZE : α
  ROPE_WORLDSPACE_LENGTH : α
  ROPE_HEIGHT : α
  BALL_RADIUS : α
  BALL_X : α
  BALL_Y : α
  BALL_Z : α
  PARTICLE_MASS : α

/-- The values the source file gives to its settings. -/
def Settings.program (α : Type) [LinearOrderedField α] : Settings α where
  NUM_PARTICLES := 50
  SPRING_K := 650
  SPRING_D := 0.045
  GRAVITY := -9.81
  TIME_STEPSIZE := 0.05
  ROPE_WORLDSPACE_LENGTH := 15
  ROPE_HEIGHT := 4.0
  BALL_RADIUS := 1.0
  BALL_X := -2.0
  BALL_Y := 0.0
  BALL_Z := 0.0
  PARTICLE_MASS := 1.0

/-- The end-to-end scenario of the specification: three particles over a length
of 2 at height 0; the other settings are the program's. -/
def Settings.scenario (α : Type) [LinearOrderedField α] : Settings α :=
  { Settings.program α with NUM_PARTICLES := 3, ROPE_WORLDSPACE_LENGTH := 2, ROPE_HEIGHT := 0 }

/-- A light rope above the ball: five particles of mass 0.01 over a length of 8 at
height 3, so that the second particle starts 3 straight above the centre of the
ball; the other settings are the program's. -/
def Settings.lightRope (α : Type) [LinearOrderedField α] : Settings α :=
  { Settings.program α with
    NUM_PARTICLES := 5, ROPE_WORLDSPACE_LENGTH := 8, ROPE_HEIGHT := 3, PARTICLE_MASS := 0.01 }

/-- Class `Vec3`: three `double` members. -/
@[ext]
structure Vec3 (α : Type) where
  x : α
  y : α
  z : α

/-- A particle of the rope (class `Particle`). -/
structure Particle (α : Type) where
  Position : Vec3 α
  OldPosition : Vec3 α
  Velocity : Vec3 α
  Forces : Vec3 α
  Mass : α
  Anchored : Bool

/-- A spring (class `Spring`); `P0` and `P1` are the positions in
`RopeSimulator.Particles` of the particles the two pointers refer to. -/
structure Spring (α : Type) where
  P0 : Nat
  P1 : Nat
  K : α
  D : α
  RestLength : α

/-- Class `RopeSimulator`. -/
structure RopeSimulator (α : Type) where
  Particles : List (Particle α)
  Springs : List (Spring α)

section Defs

variable {α : Type} [LinearOrderedField α]

/-- Constructor `Vec3::Vec3()`: the zero vector. -/
instance Vec3.instZero : Zero (Vec3 α) where
  zero := ⟨0.0, 0.0, 0.0⟩

/-- `Vec3::operator+`. -/
instance Vec3.instAdd : Add (Vec3 α) where
  add v other := ⟨v.x + other.x, v.y + other.y, v.z + other.z⟩

/-- `Vec3::operator-` (binary). -/
instance Vec3.instSub : Sub (Vec3 α) where
  sub v other := ⟨v.x - other.x, v.y - other.y, v.z - other.z⟩

/-- `Vec3::operator-` (unary). -/
instance Vec3.instNeg : Neg (Vec3 α) where
  neg v := ⟨0.0 - v.x, 0.0 - v.y, 0.0 - v.z⟩

/-- `Vec3::operator*(double)`. -/
instance Vec3.instHMul : HMul (Vec3 α) α (Vec3 α) where
  hMul v scalar := ⟨v.x * scalar, v.y * scalar, v.z * scalar⟩

/-- `Vec3::operator/(double)`. -/
instance Vec3.instHDiv : HDiv (Vec3 α) α (Vec3 α) where
  hDiv v divisor := ⟨v.x / divisor, v.y / divisor, v.z / divisor⟩

/-- `Vec3::Magnitude`. -/
def Vec3.Magnitude (sqrt : α → α) (v : Vec3 α) : α :=
  let sum := (v.x * v.x) + (v.y * v.y) + (v.z * v.z)
  sqrt sum

/-- `Vec3::Normalized`. The division is the one of the field `α`, which returns 0
for a zero divisor; the source then divides `0.0` by `0.0`, which is not a number
in `double`. The two agree whenever the magnitude is not zero, and
`Vec3.NormalizedChecked` keeps the two cases apart. -/
def Vec3.Normalized (sqrt : α → α) (v : Vec3 α) : Vec3 α :=
  let magnitude := v.Magnitude sqrt
  let unit_vector : Vec3 α := ⟨v.x / magnitude, v.y / magnitude, v.z / magnitude⟩
  unit_vector

/-- `Vec3::Normalize`, the in-place normalisation: the vector as the call leaves
it. -/
def Vec3.Normalize (sqrt : α → α) (v : Vec3 α) : Vec3 α :=
  let magnitude := v.Magnitude sqrt
  let v := { v with x := v.x / magnitude }
  let v := { v with y := v.y / magnitude }
  let v := { v with z := v.z / magnitude }
  v

/-- `Vec3::Distance`. -/
def Vec3.Distance (sqrt : α → α) (v pos : Vec3 α) : α :=
  Vec3.Magnitude sqrt ⟨pos.x - v.x, pos.y - v.y, pos.z - v.z⟩

/-- Global `Ball_Position`. -/
def Ball_Position (c : Settings α) : Vec3 α := ⟨c.BALL_X, c.BALL_Y, c.BALL_Z⟩

/-- Global `FORCE_GRAVITY`. -/
def FORCE_GRAVITY (c : Settings α) : Vec3 α := ⟨0.0, c.GRAVITY, 0.0⟩

/-- Constructor `Particle::Particle(Vec3 pos, double mass, bool anchored)`. -/
def Particle.ctor (pos : Vec3 α) (mass : α) (anchored : Bool) : Particle α where
  Velocity := ⟨0.0, 0.0, 0.0⟩
  Forces := ⟨0.0, 0.0, 0.0⟩
  Position := pos
  OldPosition := pos
  Mass := mass
  Anchored := false

/-- `Particle::Solve`: Verlet integration of one particle with the sphere
collision test. -/
def Particle.Solve (sqrt : α → α) (c : Settings α) (p : Particle α) : Particle α :=
  if !p.Anchored then
    let temp := p.Position
    let Forces := p.Forces + FORCE_GRAVITY c
    let acceleration := Forces / p.Mass
    let Velocity := (p.Position - p.OldPosition) * (1 - c.SPRING_D)
      + acceleration * c.TIME_STEPSIZE * c.TIME_STEPSIZE
    let NewPosition := p.Position + Velocity
    if NewPosition.Distance sqrt (Ball_Position c) ≤ c.BALL_RADIUS * 1.05 then
      let intersection_amount := c.BALL_RADIUS - NewPosition.Distance sqrt (Ball_Position c)
      let NewPosition := { NewPosition with y := NewPosition.y + intersection_amount }
      let Velocity := { Velocity with y := 0.0 }
      { p with Forces := Forces, Velocity := Velocity, Position := NewPosition,
               OldPosition := temp }
    else
      { p with Forces := Forces, Velocity := Velocity, Position := NewPosition,
               OldPosition := temp }
  else p

/-- `Spring::Solve`, acting on the particle vector the spring points into. -/
def Spring.Solve (sqrt : α → α) (s : Spring α) (ps : List (Particle α)) :
    Option (List (Particle α)) :=
  match ps[s.P0]?, ps[s.P1]? with
  | some p0, some p1 =>
    let delta_velocity := p1.Velocity - p0.Velocity
    let spring_vector := p1.Position - p0.Position
    let X := spring_vector.Magnitude sqrt - s.RestLength
    let force_spring := spring_vector.Normalized sqrt * s.K * X
    let ps := ps.modify (fun p => { p with Forces := p.Forces + force_spring * (0.5 : α) }) s.P0
    let ps := ps.modify (fun p => { p with Forces := p.Forces - force_spring * (0.5 : α) }) s.P1
    some ps
  | _, _ => none

/-- `Vec3::Normalized` with its division checked: `none` when the magnitude is
zero. In exact arithmetic the magnitude is zero only for the zero vector, so
this is the case in which the source evaluates `0.0 / 0.0` in each component,
which is not a number in `double`, while the division of a field returns 0. -/
def Vec3.NormalizedChecked (sqrt : α → α) (v : Vec3 α) : Option (Vec3 α) :=
  let magnitude := v.Magnitude sqrt
  if magnitude = 0 then none
  else
    let unit_vector : Vec3 α := ⟨v.x / magnitude, v.y / magnitude, v.z / magnitude⟩
    some unit_vector

/-- `Spring::Solve` with the division of `Normalized` checked: `none` on a
dangling pointer, and `none` when the spring vector has magnitude zero, where
`force_spring` and the two force accumulators are not numbers in the source. -/
def Spring.SolveChecked (sqrt : α → α) (s : Spring α) (ps : List (Particle α)) :
    Option (List (Particle α)) :=
  match ps[s.P0]?, ps[s.P1]? with
  | some p0, some p1 =>
    let delta_velocity := p1.Velocity - p0.Velocity
    let spring_vector := p1.Position - p0.Position
    let X := spring_vector.Magnitude sqrt - s.RestLength
    match spring_vector.NormalizedChecked sqrt with
    | some unit_vector =>
      let force_spring := unit_vector * s.K * X
      let ps := ps.modify (fun p => { p with Forces := p.Forces + force_spring * (0.5 : α) }) s.P0
      let ps := ps.modify (fun p => { p with Forces := p.Forces - force_spring * (0.5 : α) }) s.P1
      some ps
    | none => none
  | _, _ => none

/-- `RopeSimulator::ResetRope`. The two loops push one element per index onto the
cleared vectors. `NUM_PARTICLES - 1` is a subtraction of naturals, which differs from
the source only for `NUM_PARTICLES = 0`, where the source indexes an empty vector.
`rope_increment`, the positions `i * rope_increment - rope_half` and
`spring_length` are exact values of the field here; in the source they are
rounded to `double`, and are the same numbers only where they are representable
(as for `NUM_PARTICLES = 3`, `ROPE_WORLDSPACE_LENGTH = 2`, but not for
`NUM_PARTICLES = 50`, `ROPE_WORLDSPACE_LENGTH = 15`, whose spacing is `15 / 49`). -/
def RopeSimulator.ResetRope (c : Settings α) (r : RopeSimulator α) : RopeSimulator α :=
  let rope_increment := c.ROPE_WORLDSPACE_LENGTH / ((c.NUM_PARTICLES : α) - 1.0)
  let rope_half := c.ROPE_WORLDSPACE_LENGTH / 2.0
  let spring_length := rope_increment
  let Particles : List (Particle α) := []
  let Springs : List (Spring α) := []
  let Particles := (List.range c.NUM_PARTICLES).foldl
    (fun Particles (i : Nat) =>
      let pos : Vec3 α := ⟨((i : α) * rope_increment) - rope_half, c.ROPE_HEIGHT, 0.0⟩
      let new_particle := Particle.ctor pos c.PARTICLE_MASS false
      Particles ++ [new_particle])
    Particles
  let Particles := Particles.modify (fun p => { p with Anchored := true }) 0
  let Particles := Particles.modify (fun p => { p with Anchored := true }) (c.NUM_PARTICLES - 1)
  let Springs := (List.range (c.NUM_PARTICLES - 1)).foldl
    (fun Springs (i : Nat) =>
      let new_spring : Spring α :=
        { P0 := i, P1 := i + 1, RestLength := spring_length, K := c.SPRING_K, D := c.SPRING_D }
      Springs ++ [new_spring])
    Springs
  { Particles := Particles, Springs := Springs }

/-- `RopeSimulator::ResetForces`. -/
def RopeSimulator.ResetForces (r : RopeSimulator α) : RopeSimulator α :=
  { r with Particles := r.Particles.map fun p => { p with Forces := ⟨0.0, 0.0, 0.0⟩ } }

/-- `RopeSimulator::Solve`: every spring, then every particle. -/
def RopeSimulator.Solve (sqrt : α → α) (c : Settings α) (r : RopeSimulator α) :
    Option (RopeSimulator α) :=
  (r.Springs.foldlM (fun ps s => Spring.Solve sqrt s ps) r.Particles).map fun ps =>
    { r with Particles := ps.map (Particle.Solve sqrt c) }

/-- `RopeSimulator::Solve` with its two loops run in a chosen order: `Spring::Solve`
on the springs in the order of the list `ss`, then `Particle::Solve` in place on
the particles at the indices of `order`, one after the other.
`RopeSimulator.Solve` is the case `ss = r.Springs`, `order = 0, 1, ..., size - 1`. -/
def RopeSimulator.SolveInOrder (sqrt : α → α) (c : Settings α) (ss : List (Spring α))
    (order : List Nat) (r : RopeSimulator α) : Option (RopeSimulator α) :=
  (ss.foldlM (fun ps s => Spring.Solve sqrt s ps) r.Particles).map fun ps =>
    { r with Particles := order.foldl (fun ps i => ps.modify (Particle.Solve sqrt c) i) ps }

/-- `RopeSimulator::Integrate`. -/
def RopeSimulator.Integrate (sqrt : α → α) (c : Settings α) (r : RopeSimulator α) :
    Option (RopeSimulator α) :=
  RopeSimulator.Solve sqrt c r.ResetForces

/-- The constructor `RopeSimulator::RopeSimulator`: `ResetRope` on empty vectors. -/
def RopeSimulator.ctor (c : Settings α) : RopeSimulator α :=
  RopeSimulator.ResetRope c ⟨[], []⟩

/-- `n` calls of `Integrate` in a row (the display loop while not paused). -/
def RopeSimulator.IntegrateN (sqrt : α → α) (c : Settings α) :
    Nat → RopeSimulator α → Option (RopeSimulator α)
  | 0, r => some r
  | n + 1, r => (RopeSimulator.Integrate sqrt c r).bind (RopeSimulator.IntegrateN sqrt c n)

/-- What the theorems assume of `sqrt`: on a non-negative argument it returns
the non-negative square root. -/
def IsSqrt (sqrt : α → α) : Prop :=
  ∀ a : α, 0 ≤ a → 0 ≤ sqrt a ∧ sqrt a * sqrt a = a

/-- The vector `force_spring` that `Spring::Solve` computes when its pointers
refer to the particles `p0` and `p1`. -/
def Spring.force_spring (sqrt : α → α) (s : Spring α) (p0 p1 : Particle α) : Vec3 α :=
  (p1.Position - p0.Position).Normalized sqrt * s.K
    * ((p1.Position - p0.Position).Magnitude sqrt - s.RestLength)

/-- The value `Particle::Solve` assigns to `Velocity` before its collision test. -/
def Particle.tentativeVelocity (c : Settings α) (p : Particle α) : Vec3 α :=
  (p.Position - p.OldPosition) * (1 - c.SPRING_D)
    + (p.Forces + FORCE_GRAVITY c) / p.Mass * c.TIME_STEPSIZE * c.TIME_STEPSIZE

/-- The local `NewPosition` of `Particle::Solve` before its collision test. -/
def Particle.tentativePosition (c : Settings α) (p : Particle α) : Vec3 α :=
  p.Position + p.tentativeVelocity c

/-- A particle on the surface of the ball of `Settings.program`, level with its
centre on the `+x` side, whose last displacement `Position - OldPosition` points
into the ball. -/
def Particle.onSurfaceMovingIn (α : Type) [LinearOrderedField α] : Particle α where
  Position := ⟨-1, 0, 0⟩
  OldPosition := ⟨-1 + 20 / 191, -(981 / 38200), 0⟩
  Velocity := ⟨0, 0, 0⟩
  Forces := ⟨0, 0, 0⟩
  Mass := 1
  Anchored := false

/-- A particle at rest above the ball of `Settings.program`, which one step of
gravity takes to 1.02 straight above the centre of the ball. -/
def Particle.aboveBall (α : Type) [LinearOrderedField α] : Particle α where
  Position := ⟨-2, 1.044525, 0⟩
  OldPosition := ⟨-2, 1.044525, 0⟩
  Velocity := ⟨0, 0, 0⟩
  Forces := ⟨0, 0, 0⟩
  Mass := 1
  Anchored := false

/-- The vector one call of `Spring::Solve` adds to `Forces` of the particle at
index `i` of the vector `ps`: `force_spring * 0.5` if `P0` points to it, minus
`force_spring * 0.5` if `P1` points to it. -/
def Spring.contribution (sqrt : α → α) (s : Spring α) (ps : List (Particle α)) (i : Nat) :
    Vec3 α :=
  match ps[s.P0]?, ps[s.P1]? with
  | some p0, some p1 =>
    (if s.P0 = i then s.force_spring sqrt p0 p1 * (0.5 : α) else 0)
      - (if s.P1 = i then s.force_spring sqrt p0 p1 * (0.5 : α) else 0)
  | _, _ => 0

/-- The force `f_j` of link `j` of a chain, on the positions held by `r`: the
`force_spring` of spring `j` between particles `j` and `j + 1`; the zero vector
when there is no such spring. -/
def RopeSimulator.linkForce (sqrt : α → α) (r : RopeSimulator α) (j : Nat) : Vec3 α :=
  match r.Springs[j]?, r.Particles[j]?, r.Particles[j + 1]? with
  | some s, some p0, some p1 => s.force_spring sqrt p0 p1
  | _, _, _ => 0

/-- The sum `S_i = 0.5 * f_i - 0.5 * f_(i-1)` of the spring forces on particle `i`
of a chain, the term of a spring that does not exist being left out. -/
def RopeSimulator.chainForce (sqrt : α → α) (r : RopeSimulator α) (i : Nat) : Vec3 α :=
  (if i < r.Springs.length then r.linkForce sqrt i * (0.5 : α) else 0)
    - (if 0 < i ∧ i ≤ r.Springs.length then r.linkForce sqrt (i - 1) * (0.5 : α) else 0)

/-- A chain of three free particles of mass 1 at (0, 4, 0), (3, 8, 0) and
(6, 12, 0), joined by two springs of stiffness 650 that are both stretched: each
is 5 long, with rest lengths 2 and 3. The middle particle was at (3, 9, 0) one
step earlier and still holds a force (100, 100, 100) from an earlier step. -/
def RopeSimulator.threeParticles (α : Type) [LinearOrderedField α] : RopeSimulator α where
  Particles := [Particle.ctor ⟨0, 4, 0⟩ 1 false,
    { Position := ⟨3, 8, 0⟩, OldPosition := ⟨3, 9, 0⟩, Velocity := ⟨0, -1, 0⟩,
      Forces := ⟨100, 100, 100⟩, Mass := 1, Anchored := false },
    Particle.ctor ⟨6, 12, 0⟩ 1 false]
  Springs := [⟨0, 1, 650, 0.045, 2⟩, ⟨1, 2, 650, 0.045, 3⟩]

/-- Everything of a particle but its force accumulator. -/
def Particle.frame (p : Particle α) : Vec3 α × Vec3 α × Vec3 α × α × Bool :=
  (p.Position, p.OldPosition, p.Velocity, p.Mass, p.Anchored)

/-- Every spring's two pointers refer to particles of the vector. -/
def RopeSimulator.PointersValid (r : RopeSimulator α) : Prop :=
  ∀ s ∈ r.Springs, s.P0 < r.Particles.length ∧ s.P1 < r.Particles.length

/-- In exact arithmetic the vectors form a commutative group under `operator+`,
`operator-` and the zero vector, so that sums of vectors over lists can be
written. -/
instance Vec3.instAddCommGroup : AddCommGroup (Vec3 α) where
  add := (· + ·)
  zero := 0
  neg := Neg.neg
  sub := (· - ·)
  nsmul := nsmulRec
  zsmul := zsmulRec
  add_assoc a b c := Vec3.ext (add_assoc _ _ _) (add_assoc _ _ _) (add_assoc _ _ _)
  add_comm a b := Vec3.ext (add_comm _ _) (add_comm _ _) (add_comm _ _)
  zero_add a := by
    apply Vec3.ext
    · show (0.0 : α) + a.x = a.x
      norm_num
    · show (0.0 : α) + a.y = a.y
      norm_num
    · show (0.0 : α) + a.z = a.z
      norm_num
  add_zero a := by
    apply Vec3.ext
    · show a.x + (0.0 : α) = a.x
      norm_num
    · show a.y + (0.0 : α) = a.y
      norm_num
    · show a.z + (0.0 : α) = a.z
      norm_num
  sub_eq_add_neg a b := by
    apply Vec3.ext
    · show a.x - b.x = a.x + ((0.0 : α) - b.x)
      norm_num
      ring
    · show a.y - b.y = a.y + ((0.0 : α) - b.y)
      norm_num
      ring
    · show a.z - b.z = a.z + ((0.0 : α) - b.z)
      norm_num
      ring
  neg_add_cancel a := by
    apply Vec3.ext
    · show ((0.0 : α) - a.x) + a.x = (0.0 : α)
      norm_num
    · show ((0.0 : α) - a.y) + a.y = (0.0 : α)
      norm_num
    · show ((0.0 : α) - a.z) + a.z = (0.0 : α)
      norm_num

/-- `PointersValid` can be checked by running over the springs. -/
instance RopeSimulator.instDecidablePointersValid (r : RopeSimulator α) :
    Decidable r.PointersValid :=
  inferInstanceAs
    (Decidable (∀ s ∈ r.Springs, s.P0 < r.Particles.length ∧ s.P1 < r.Particles.length))

end Defs

/-! ## Theorems -/

section Thms

variable {α : Type} [LinearOrderedField α]

@[simp] theorem lit_zero : (0.0 : α) = 0 := by norm_num

@[simp] theorem lit_one : (1.0 : α) = 1 := by norm_num

@[simp] theorem lit_two : (2.0 : α) = 2 := by norm_num

@[simp] theorem lit_half : (0.5 : α) = 1 / 2 := by norm_num

@[simp] theorem Vec3.add_def (a b : Vec3 α) : a + b = ⟨a.x + b.x, a.y + b.y, a.z + b.z⟩ := rfl

@[simp] theorem Vec3.sub_def (a b : Vec3 α) : a - b = ⟨a.x - b.x, a.y - b.y, a.z - b.z⟩ := rfl

@[simp] theorem Vec3.neg_def (a : Vec3 α) : -a = ⟨0 - a.x, 0 - a.y, 0 - a.z⟩ := by
  show (⟨0.0 - a.x, 0.0 - a.y, 0.0 - a.z⟩ : Vec3 α) = _
  simp

@[simp] theorem Vec3.mul_def (a : Vec3 α) (k : α) : a * k = ⟨a.x * k, a.y * k, a.z * k⟩ := rfl

@[simp] theorem Vec3.div_def (a : Vec3 α) (k : α) : a / k = ⟨a.x / k, a.y / k, a.z / k⟩ := rfl

/-! ### Lists -/

theorem map_modify_of_comp {β γ : Type} (g : β → γ) (f : β → β) (h : ∀ b, g (f b) = g b)
    (n : Nat) (l : List β) : (l.modify f n).map g = l.map g := by
  apply List.ext_getElem?
  intro m
  simp only [List.getElem?_map, List.getElem?_modify]
  cases l[m]? with
  | none => rfl
  | some b =>
    by_cases hnm : n = m
    · simp [hnm, h]
    · simp [hnm]

theorem foldl_push_eq_map {β : Type} (f : Nat → β) (n : Nat) :
    (List.range n).foldl (fun (acc : List β) i => acc ++ [f i]) [] = (List.range n).map f := by
  induction n with
  | zero => rfl
  | succ n ih => simp [List.range_succ, ih]

/-! ### `Spring::Solve` -/

theorem Spring.Solve_eq_some (sqrt : α → α) (s : Spring α) (ps : List (Particle α))
    (p0 p1 : Particle α) (h0 : ps[s.P0]? = some p0) (h1 : ps[s.P1]? = some p1) :
    Spring.Solve sqrt s ps = some
      ((ps.modify (fun p => { p with Forces := p.Forces + s.force_spring sqrt p0 p1 * (0.5 : α) })
          s.P0).modify
        (fun p => { p with Forces := p.Forces - s.force_spring sqrt p0 p1 * (0.5 : α) }) s.P1) := by
  unfold Spring.Solve
  rw [h0, h1]
  rfl

theorem Spring.Solve_some_inv (sqrt : α → α) (s : Spring α) (ps ps1 : List (Particle α))
    (h : Spring.Solve sqrt s ps = some ps1) :
    ∃ p0 p1, ps[s.P0]? = some p0 ∧ ps[s.P1]? = some p1 ∧
      ps1 = (ps.modify
          (fun p => { p with Forces := p.Forces + s.force_spring sqrt p0 p1 * (0.5 : α) })
          s.P0).modify
        (fun p => { p with Forces := p.Forces - s.force_spring sqrt p0 p1 * (0.5 : α) }) s.P1 := by
  rcases h0 : ps[s.P0]? with _ | p0
  · simp [Spring.Solve, h0] at h
  rcases h1 : ps[s.P1]? with _ | p1
  · simp [Spring.Solve, h0, h1] at h
  refine ⟨p0, p1, rfl, rfl, ?_⟩
  rw [Spring.Solve_eq_some sqrt s ps p0 p1 h0 h1] at h
  exact (Option.some.inj h).symm

theorem Spring.Solve_frame (sqrt : α → α) (s : Spring α) (ps ps1 : List (Particle α))
    (h : Spring.Solve sqrt s ps = some ps1) :
    ps1.map Particle.frame = ps.map Particle.frame := by
  obtain ⟨p0, p1, -, -, rfl⟩ := Spring.Solve_some_inv sqrt s ps ps1 h
  exact (map_modify_of_comp Particle.frame _ (by intro b; rfl) _ _).trans
    (map_modify_of_comp Particle.frame _ (by intro b; rfl) _ _)

theorem Spring.Solve_isSome (sqrt : α → α) (s : Spring α) (ps : List (Particle α))
    (h0 : s.P0 < ps.length) (h1 : s.P1 < ps.length) :
    ∃ ps1, Spring.Solve sqrt s ps = some ps1 :=
  ⟨_, Spring.Solve_eq_some sqrt s ps _ _ (List.getElem?_eq_getElem h0)
    (List.getElem?_eq_getElem h1)⟩

/-! ### The spring loop of `RopeSimulator::Solve` -/

theorem springs_frame (sqrt : α → α) (ss : List (Spring α)) :
    ∀ ps ps1 : List (Particle α),
      ss.foldlM (fun ps s => Spring.Solve sqrt s ps) ps = some ps1 →
      ps1.map Particle.frame = ps.map Particle.frame := by
  induction ss with
  | nil =>
    intro ps ps1 h
    simp only [List.foldlM_nil] at h
    cases h
    rfl
  | cons s ss ih =>
    intro ps ps1 h
    rw [List.foldlM_cons] at h
    rcases hs : Spring.Solve sqrt s ps with _ | ps2
    · rw [hs] at h
      cases h
    · rw [hs] at h
      exact (ih ps2 ps1 h).trans (Spring.Solve_frame sqrt s ps ps2 hs)

theorem springs_isSome (sqrt : α → α) (ss : List (Spring α)) :
    ∀ ps : List (Particle α), (∀ s ∈ ss, s.P0 < ps.length ∧ s.P1 < ps.length) →
      ∃ ps1, ss.foldlM (fun ps s => Spring.Solve sqrt s ps) ps = some ps1 := by
  induction ss with
  | nil => exact fun ps _ => ⟨ps, rfl⟩
  | cons s ss ih =>
    intro ps hv
    obtain ⟨ps2, hs⟩ := Spring.Solve_isSome sqrt s ps (hv s (List.mem_cons_self _ _)).1
      (hv s (List.mem_cons_self _ _)).2
    have hlen : ps2.length = ps.length := by
      simpa using congrArg List.length (Spring.Solve_frame sqrt s ps ps2 hs)
    obtain ⟨ps1, h1⟩ := ih ps2 (fun t ht => by
      rw [hlen]
      exact hv t (List.mem_cons_of_mem _ ht))
    exact ⟨ps1, by rw [List.foldlM_cons, hs]; exact h1⟩

/-! ### `Particle::Solve` -/

theorem Particle.Solve_of_anchored (sqrt : α → α) (c : Settings α) (p : Particle α)
    (h : p.Anchored = true) : Particle.Solve sqrt c p = p := by
  simp [Particle.Solve, h]

theorem Particle.Solve_Mass (sqrt : α → α) (c : Settings α) (p : Particle α) :
    (Particle.Solve sqrt c p).Mass = p.Mass := by
  unfold Particle.Solve
  dsimp only
  split_ifs <;> rfl

theorem Particle.Solve_Anchored (sqrt : α → α) (c : Settings α) (p : Particle α) :
    (Particle.Solve sqrt c p).Anchored = p.Anchored := by
  unfold Particle.Solve
  dsimp only
  split_ifs <;> rfl

theorem Particle.frame_eq_iff (p q : Particle α) :
    p.frame = q.frame ↔ p.Position = q.Position ∧ p.OldPosition = q.OldPosition ∧
      p.Velocity = q.Velocity ∧ p.Mass = q.Mass ∧ p.Anchored = q.Anchored := by
  simp [Particle.frame]

theorem getElem?_of_map_frame_eq (ps ps1 : List (Particle α))
    (h : ps1.map Particle.frame = ps.map Particle.frame) (i : Nat) (p : Particle α)
    (hp : ps[i]? = some p) : ∃ q, ps1[i]? = some q ∧ q.frame = p.frame := by
  have h1 := congrArg (fun l => l[i]?) h
  simp only [List.getElem?_map, hp, Option.map_some'] at h1
  rcases hq : ps1[i]? with _ | q
  · simp [hq] at h1
  · refine ⟨q, rfl, ?_⟩
    simpa [hq] using h1

/-! ### `RopeSimulator::Integrate` -/

theorem RopeSimulator.ResetForces_frame (r : RopeSimulator α) :
    r.ResetForces.Particles.map Particle.frame = r.Particles.map Particle.frame := by
  simp only [RopeSimulator.ResetForces, List.map_map]
  rfl

theorem RopeSimulator.Integrate_eq (sqrt : α → α) (c : Settings α) (r : RopeSimulator α)
    (hv : r.PointersValid) :
    ∃ ps1, r.Springs.foldlM (fun ps s => Spring.Solve sqrt s ps) r.ResetForces.Particles
        = some ps1 ∧
      ps1.map Particle.frame = r.Particles.map Particle.frame ∧
      RopeSimulator.Integrate sqrt c r
        = some { Particles := ps1.map (Particle.Solve sqrt c), Springs := r.Springs } := by
  have hlen : r.ResetForces.Particles.length = r.Particles.length := by
    simp [RopeSimulator.ResetForces]
  obtain ⟨ps1, h1⟩ := springs_isSome sqrt r.Springs r.ResetForces.Particles (by
    intro s hs
    rw [hlen]
    exact hv s hs)
  refine ⟨ps1, h1, (springs_frame sqrt _ _ _ h1).trans r.ResetForces_frame, ?_⟩
  have h2 : r.ResetForces.Springs = r.Springs := rfl
  unfold RopeSimulator.Integrate RopeSimulator.Solve
  rw [h2, h1]
  rfl

theorem RopeSimulator.Integrate_spec (sqrt : α → α) (c : Settings α) (r : RopeSimulator α)
    (hv : r.PointersValid) :
    ∃ r1, RopeSimulator.Integrate sqrt c r = some r1 ∧ r1.Springs = r.Springs ∧
      r1.Particles.length = r.Particles.length ∧
      ∀ (i : Nat) (p : Particle α), r.Particles[i]? = some p →
        ∃ q, q.frame = p.frame ∧ r1.Particles[i]? = some (Particle.Solve sqrt c q) := by
  obtain ⟨ps1, -, hf, hI⟩ := RopeSimulator.Integrate_eq sqrt c r hv
  refine ⟨_, hI, rfl, ?_, ?_⟩
  · simpa using congrArg List.length hf
  · intro i p hp
    obtain ⟨q, hq, hqf⟩ := getElem?_of_map_frame_eq r.Particles ps1 hf i p hp
    exact ⟨q, hqf, by simp [hq]⟩

/-! ### `RopeSimulator::ResetRope` -/

theorem RopeSimulator.ResetRope_Springs (c : Settings α) (r : RopeSimulator α) :
    (RopeSimulator.ResetRope c r).Springs = (List.range (c.NUM_PARTICLES - 1)).map fun i =>
      { P0 := i, P1 := i + 1, K := c.SPRING_K, D := c.SPRING_D,
        RestLength := c.ROPE_WORLDSPACE_LENGTH / ((c.NUM_PARTICLES : α) - 1) } := by
  unfold RopeSimulator.ResetRope
  simp only [foldl_push_eq_map, lit_one]

theorem RopeSimulator.ResetRope_length (c : Settings α) (r : RopeSimulator α) :
    (RopeSimulator.ResetRope c r).Particles.length = c.NUM_PARTICLES := by
  unfold RopeSimulator.ResetRope
  simp only [foldl_push_eq_map, List.length_modify, List.length_map, List.length_range]

theorem RopeSimulator.ResetRope_getElem? (c : Settings α) (r : RopeSimulator α) (i : Nat)
    (hi : i < c.NUM_PARTICLES) :
    (RopeSimulator.ResetRope c r).Particles[i]? = some
      { Position := ⟨(i : α) * (c.ROPE_WORLDSPACE_LENGTH / ((c.NUM_PARTICLES : α) - 1))
          - c.ROPE_WORLDSPACE_LENGTH / 2, c.ROPE_HEIGHT, 0⟩
        OldPosition := ⟨(i : α) * (c.ROPE_WORLDSPACE_LENGTH / ((c.NUM_PARTICLES : α) - 1))
          - c.ROPE_WORLDSPACE_LENGTH / 2, c.ROPE_HEIGHT, 0⟩
        Velocity := ⟨0, 0, 0⟩
        Forces := ⟨0, 0, 0⟩
        Mass := c.PARTICLE_MASS
        Anchored := decide (i = 0 ∨ i = c.NUM_PARTICLES - 1) } := by
  unfold RopeSimulator.ResetRope
  simp only [foldl_push_eq_map, List.getElem?_modify, List.getElem?_map,
    List.getElem?_range hi, Particle.ctor, lit_one, lit_zero, lit_two, Option.map_some',
    Option.map_eq_map]
  by_cases h0 : 0 = i <;> by_cases h1 : c.NUM_PARTICLES - 1 = i <;>
    simp [h0, h1, eq_comm (a := i)]

theorem RopeSimulator.ResetRope_PointersValid (c : Settings α) (r : RopeSimulator α) :
    (RopeSimulator.ResetRope c r).PointersValid := by
  intro s hs
  rw [RopeSimulator.ResetRope_Springs, List.mem_map] at hs
  obtain ⟨i, hi, rfl⟩ := hs
  rw [List.mem_range] at hi
  rw [RopeSimulator.ResetRope_length]
  exact ⟨by show i < c.NUM_PARTICLES; omega, by show i + 1 < c.NUM_PARTICLES; omega⟩

/-! ### What one step and `n` steps keep -/

theorem RopeSimulator.Integrate_keeps (sqrt : α → α) (c : Settings α) (r : RopeSimulator α)
    (hv : r.PointersValid) :
    ∃ r1, RopeSimulator.Integrate sqrt c r = some r1 ∧ r1.PointersValid ∧
      r1.Springs = r.Springs ∧ r1.Particles.length = r.Particles.length ∧
      ∀ (i : Nat) (p : Particle α), r.Particles[i]? = some p →
        ∃ p1, r1.Particles[i]? = some p1 ∧ p1.Mass = p.Mass ∧ p1.Anchored = p.Anchored ∧
          (p.Anchored = true → p1.Position = p.Position ∧ p1.OldPosition = p.OldPosition) := by
  obtain ⟨r1, hI, hS, hL, hP⟩ := RopeSimulator.Integrate_spec sqrt c r hv
  refine ⟨r1, hI, ?_, hS, hL, ?_⟩
  · intro s hs
    rw [hS] at hs
    rw [hL]
    exact hv s hs
  · intro i p hp
    obtain ⟨q, hq, hq1⟩ := hP i p hp
    rw [Particle.frame_eq_iff] at hq
    obtain ⟨hpos, hold, -, hm, ha⟩ := hq
    refine ⟨_, hq1, ?_, ?_, ?_⟩
    · rw [Particle.Solve_Mass, hm]
    · rw [Particle.Solve_Anchored, ha]
    · intro hanch
      rw [Particle.Solve_of_anchored sqrt c q (ha.trans hanch)]
      exact ⟨hpos, hold⟩

theorem RopeSimulator.IntegrateN_keeps (sqrt : α → α) (c : Settings α) (n : Nat) :
    ∀ r : RopeSimulator α, r.PointersValid →
      ∃ rn, RopeSimulator.IntegrateN sqrt c n r = some rn ∧ rn.PointersValid ∧
        rn.Springs = r.Springs ∧ rn.Particles.length = r.Particles.length ∧
        ∀ (i : Nat) (p : Particle α), r.Particles[i]? = some p →
          ∃ pn, rn.Particles[i]? = some pn ∧ pn.Mass = p.Mass ∧ pn.Anchored = p.Anchored ∧
            (p.Anchored = true → pn.Position = p.Position ∧ pn.OldPosition = p.OldPosition) := by
  induction n with
  | zero =>
    intro r hv
    exact ⟨r, rfl, hv, rfl, rfl, fun i p hp => ⟨p, hp, rfl, rfl, fun _ => ⟨rfl, rfl⟩⟩⟩
  | succ n ih =>
    intro r hv
    obtain ⟨r1, hI, hv1, hS1, hL1, hP1⟩ := RopeSimulator.Integrate_keeps sqrt c r hv
    obtain ⟨rn, hIn, hvn, hSn, hLn, hPn⟩ := ih r1 hv1
    refine ⟨rn, ?_, hvn, hSn.trans hS1, hLn.trans hL1, ?_⟩
    · simp only [RopeSimulator.IntegrateN, hI, Option.some_bind]
      exact hIn
    · intro i p hp
      obtain ⟨p1, hp1, hm1, ha1, hpos1⟩ := hP1 i p hp
      obtain ⟨pn, hpn, hmn, han, hposn⟩ := hPn i p1 hp1
      refine ⟨pn, hpn, hmn.trans hm1, han.trans ha1, fun hanch => ?_⟩
      obtain ⟨h1, h2⟩ := hpos1 hanch
      obtain ⟨h3, h4⟩ := hposn (ha1.trans hanch)
      exact ⟨h3.trans h1, h4.trans h2⟩

/-! ### The square root -/

theorem Real_isSqrt : IsSqrt Real.sqrt :=
  fun a ha => ⟨Real.sqrt_nonneg a, Real.mul_self_sqrt ha⟩

theorem IsSqrt.nonneg {sqrt : α → α} (hs : IsSqrt sqrt) {a : α} (ha : 0 ≤ a) : 0 ≤ sqrt a :=
  (hs a ha).1

theorem IsSqrt.mul_self {sqrt : α → α} (hs : IsSqrt sqrt) {a : α} (ha : 0 ≤ a) :
    sqrt a * sqrt a = a :=
  (hs a ha).2

theorem IsSqrt.le_sqrt_iff {sqrt : α → α} (hs : IsSqrt sqrt) {a b : α} (ha : 0 ≤ a)
    (hb : 0 ≤ b) : b ≤ sqrt a ↔ b * b ≤ a := by
  have h1 := hs.nonneg ha
  have h2 := hs.mul_self ha
  constructor
  · intro h
    nlinarith
  · intro h
    by_contra hlt
    push_neg at hlt
    nlinarith

theorem IsSqrt.sqrt_le_iff {sqrt : α → α} (hs : IsSqrt sqrt) {a b : α} (ha : 0 ≤ a)
    (hb : 0 ≤ b) : sqrt a ≤ b ↔ a ≤ b * b := by
  have h1 := hs.nonneg ha
  have h2 := hs.mul_self ha
  constructor
  · intro h
    nlinarith
  · intro h
    by_contra hlt
    push_neg at hlt
    nlinarith

theorem IsSqrt.sqrt_mul_self {sqrt : α → α} (hs : IsSqrt sqrt) {a : α} (ha : 0 ≤ a) :
    sqrt (a * a) = a := by
  have h0 : 0 ≤ a * a := mul_nonneg ha ha
  have h1 := hs.nonneg h0
  have h2 := hs.mul_self h0
  nlinarith

theorem sumsq_nonneg (a b c : α) : 0 ≤ a * a + b * b + c * c := by
  nlinarith [mul_self_nonneg a, mul_self_nonneg b, mul_self_nonneg c]

theorem Vec3.Magnitude_nonneg {sqrt : α → α} (hs : IsSqrt sqrt) (v : Vec3 α) :
    0 ≤ v.Magnitude sqrt :=
  hs.nonneg (sumsq_nonneg _ _ _)

theorem Vec3.Magnitude_mul_self {sqrt : α → α} (hs : IsSqrt sqrt) (v : Vec3 α) :
    v.Magnitude sqrt * v.Magnitude sqrt = v.x * v.x + v.y * v.y + v.z * v.z :=
  hs.mul_self (sumsq_nonneg _ _ _)

/-! ### `Particle::Solve`, branch by branch -/

theorem Particle.Solve_collide (sqrt : α → α) (c : Settings α) (p : Particle α)
    (ha : p.Anchored = false)
    (hd : (p.tentativePosition c).Distance sqrt (Ball_Position c) ≤ c.BALL_RADIUS * 1.05) :
    Particle.Solve sqrt c p =
      { p with
        Forces := p.Forces + FORCE_GRAVITY c
        Velocity := ⟨(p.tentativeVelocity c).x, 0, (p.tentativeVelocity c).z⟩
        Position := ⟨(p.tentativePosition c).x,
          (p.tentativePosition c).y
            + (c.BALL_RADIUS - (p.tentativePosition c).Distance sqrt (Ball_Position c)),
          (p.tentativePosition c).z⟩
        OldPosition := p.Position } := by
  unfold Particle.Solve
  simp only [ha, Bool.not_false, if_true]
  split_ifs with h
  · simp only [lit_zero]
    rfl
  · exact absurd hd h

theorem Particle.Solve_free (sqrt : α → α) (c : Settings α) (p : Particle α)
    (ha : p.Anchored = false)
    (hd : ¬ (p.tentativePosition c).Distance sqrt (Ball_Position c) ≤ c.BALL_RADIUS * 1.05) :
    Particle.Solve sqrt c p =
      { p with
        Forces := p.Forces + FORCE_GRAVITY c
        Velocity := p.tentativeVelocity c
        Position := p.tentativePosition c
        OldPosition := p.Position } := by
  unfold Particle.Solve
  simp only [ha, Bool.not_false, if_true]
  split_ifs with h
  · exact absurd h hd
  · rfl

/-! ## The claims -/

/-- C1. `RopeSimulator::Integrate` returns on every simulator whose springs point
into its particle vector, and leaves `Position` and `OldPosition` of every
anchored particle as they were; hence after `ResetRope` and any number `n` of
`Integrate` calls the first and the last particle are still anchored at their
reset positions. -/
theorem anchored_particles_do_not_move (sqrt : α → α) (c : Settings α)
    (r : RopeSimulator α) (hv : r.PointersValid) (r0 : RopeSimulator α) (n : Nat)
    (hN : 1 ≤ c.NUM_PARTICLES) :
    (∃ r1, RopeSimulator.Integrate sqrt c r = some r1 ∧
      ∀ (i : Nat) (p : Particle α), r.Particles[i]? = some p → p.Anchored = true →
        ∃ p1, r1.Particles[i]? = some p1 ∧ p1.Position = p.Position ∧
          p1.OldPosition = p.OldPosition) ∧
    (∃ rn, RopeSimulator.IntegrateN sqrt c n (RopeSimulator.ResetRope c r0) = some rn ∧
      ∀ i, i = 0 ∨ i = c.NUM_PARTICLES - 1 →
        ∃ p pn, (RopeSimulator.ResetRope c r0).Particles[i]? = some p ∧
          rn.Particles[i]? = some pn ∧ p.Anchored = true ∧ pn.Anchored = true ∧
          pn.Position = p.Position ∧ pn.OldPosition = p.OldPosition) := by
  constructor
  · obtain ⟨r1, hI, -, -, -, hP⟩ := RopeSimulator.Integrate_keeps sqrt c r hv
    refine ⟨r1, hI, fun i p hp ha => ?_⟩
    obtain ⟨p1, hp1, -, -, hpos⟩ := hP i p hp
    exact ⟨p1, hp1, hpos ha⟩
  · obtain ⟨rn, hI, -, -, -, hP⟩ := RopeSimulator.IntegrateN_keeps sqrt c n
      (RopeSimulator.ResetRope c r0) (RopeSimulator.ResetRope_PointersValid c r0)
    refine ⟨rn, hI, fun i hi => ?_⟩
    have hlt : i < c.NUM_PARTICLES := by omega
    have hp := RopeSimulator.ResetRope_getElem? c r0 i hlt
    obtain ⟨pn, hpn, -, ha, hpos⟩ := hP i _ hp
    have hanch : decide (i = 0 ∨ i = c.NUM_PARTICLES - 1) = true := decide_eq_true hi
    exact ⟨_, pn, hp, hpn, hanch, ha.trans hanch, hpos hanch⟩

/-- C1, at the program's settings over the reals: the simulator built by the
constructor, and five steps after a reset. -/
theorem anchored_particles_do_not_move_witness :
    (∃ r1, RopeSimulator.Integrate Real.sqrt (Settings.program ℝ)
        (RopeSimulator.ctor (Settings.program ℝ)) = some r1 ∧
      ∀ (i : Nat) (p : Particle ℝ),
        (RopeSimulator.ctor (Settings.program ℝ)).Particles[i]? = some p → p.Anchored = true →
        ∃ p1, r1.Particles[i]? = some p1 ∧ p1.Position = p.Position ∧
          p1.OldPosition = p.OldPosition) ∧
    (∃ rn, RopeSimulator.IntegrateN Real.sqrt (Settings.program ℝ) 5
        (RopeSimulator.ResetRope (Settings.program ℝ) ⟨[], []⟩) = some rn ∧
      ∀ i, i = 0 ∨ i = (Settings.program ℝ).NUM_PARTICLES - 1 →
        ∃ p pn, (RopeSimulator.ResetRope (Settings.program ℝ) ⟨[], []⟩).Particles[i]? = some p ∧
          rn.Particles[i]? = some pn ∧ p.Anchored = true ∧ pn.Anchored = true ∧
          pn.Position = p.Position ∧ pn.OldPosition = p.OldPosition) :=
  anchored_particles_do_not_move Real.sqrt (Settings.program ℝ)
    (RopeSimulator.ctor (Settings.program ℝ))
    (RopeSimulator.ResetRope_PointersValid (Settings.program ℝ) ⟨[], []⟩) ⟨[], []⟩ 5
    (by decide)

theorem add_nonneg_of_sumsq (a b e d : α) (hd0 : 0 ≤ d)
    (hd : d * d = a * a + b * b + e * e) : 0 ≤ d + b := by
  by_contra hneg
  push_neg at hneg
  have h1 : 0 < -b - d := by linarith
  have h2 : 0 < (-b - d) * (-b + d) := mul_pos h1 (by linarith)
  nlinarith [mul_self_nonneg a, mul_self_nonneg e]

theorem floor_key (a b e d R : α) (hd : d * d = a * a + b * b + e * e) :
    a * a + (b - (R - d)) * (b - (R - d)) + e * e - R * R = 2 * (d - R) * (d + b) := by
  linear_combination -hd

theorem floor_algebra (a b e d R : α) (hd0 : 0 ≤ d) (hd : d * d = a * a + b * b + e * e) :
    R * R ≤ a * a + (b - (R - d)) * (b - (R - d)) + e * e ↔
      (R ≤ d ∨ (a = 0 ∧ e = 0 ∧ b ≤ 0)) := by
  have hdb : 0 ≤ d + b := add_nonneg_of_sumsq a b e d hd0 hd
  have key := floor_key a b e d R hd
  rw [← sub_nonneg, key]
  constructor
  · intro h
    by_cases hR : R ≤ d
    · exact Or.inl hR
    · right
      push_neg at hR
      have h1 : d + b = 0 := by
        by_contra hne
        have hpos : 0 < d + b := lt_of_le_of_ne hdb (Ne.symm hne)
        have := mul_pos (sub_pos.mpr hR) hpos
        linarith
      have hb : b = -d := by linarith
      have hae : a * a + e * e = 0 := by
        rw [hb] at hd
        linarith [hd]
      have ha : a * a = 0 := by
        linarith [mul_self_nonneg a, mul_self_nonneg e]
      have he : e * e = 0 := by
        linarith [mul_self_nonneg a, mul_self_nonneg e]
      exact ⟨mul_self_eq_zero.mp ha, mul_self_eq_zero.mp he, by linarith⟩
  · rintro (hR | ⟨ha, he, hb⟩)
    · exact mul_nonneg (mul_nonneg (by norm_num) (sub_nonneg.mpr hR)) hdb
    · rw [ha, he] at hd
      have h1 : (d + b) * (d - b) = 0 := by linear_combination hd
      have h2 : d + b = 0 := by
        rcases mul_eq_zero.mp h1 with h | h
        · exact h
        · linarith
      rw [h2]
      simp

theorem Vec3.Distance_nonneg {sqrt : α → α} (hs : IsSqrt sqrt) (v pos : Vec3 α) :
    0 ≤ v.Distance sqrt pos :=
  hs.nonneg (sumsq_nonneg _ _ _)

theorem Vec3.Distance_mul_self {sqrt : α → α} (hs : IsSqrt sqrt) (v pos : Vec3 α) :
    v.Distance sqrt pos * v.Distance sqrt pos
      = (pos.x - v.x) * (pos.x - v.x) + (pos.y - v.y) * (pos.y - v.y)
        + (pos.z - v.z) * (pos.z - v.z) :=
  hs.mul_self (sumsq_nonneg _ _ _)

theorem Vec3.pushed_up_floor {sqrt : α → α} (hs : IsSqrt sqrt) (T B : Vec3 α) (R : α) :
    R ≤ Vec3.Distance sqrt ⟨T.x, T.y + (R - T.Distance sqrt B), T.z⟩ B ↔
      (R ≤ T.Distance sqrt B ∨ (T.x = B.x ∧ T.z = B.z ∧ B.y ≤ T.y)) := by
  have hd0 := Vec3.Distance_nonneg hs T B
  have hdd := Vec3.Distance_mul_self hs T B
  have h1 := Vec3.Distance_nonneg hs ⟨T.x, T.y + (R - T.Distance sqrt B), T.z⟩ B
  by_cases hR : 0 ≤ R
  · have hfl := floor_algebra _ _ _ _ R hd0 hdd
    have h2 : R ≤ Vec3.Distance sqrt ⟨T.x, T.y + (R - T.Distance sqrt B), T.z⟩ B ↔
        R * R ≤ (B.x - T.x) * (B.x - T.x)
          + (B.y - T.y - (R - T.Distance sqrt B)) * (B.y - T.y - (R - T.Distance sqrt B))
          + (B.z - T.z) * (B.z - T.z) := by
      rw [show (B.y - T.y - (R - T.Distance sqrt B)) = B.y - (T.y + (R - T.Distance sqrt B))
        by ring]
      exact hs.le_sqrt_iff (sumsq_nonneg _ _ _) hR
    rw [h2, hfl, sub_eq_zero, sub_eq_zero, sub_nonpos]
    constructor
    · rintro (h | ⟨h3, h4, h5⟩)
      · exact Or.inl h
      · exact Or.inr ⟨h3.symm, h4.symm, h5⟩
    · rintro (h | ⟨h3, h4, h5⟩)
      · exact Or.inl h
      · exact Or.inr ⟨h3.symm, h4.symm, h5⟩
  · push_neg at hR
    constructor
    · intro _
      exact Or.inl (by linarith)
    · intro _
      exact le_trans hR.le h1

theorem Vec3.Distance_eq_of_sq {sqrt : α → α} (hs : IsSqrt sqrt) (v pos : Vec3 α) (d : α)
    (hd : 0 ≤ d)
    (h : (pos.x - v.x) * (pos.x - v.x) + (pos.y - v.y) * (pos.y - v.y)
      + (pos.z - v.z) * (pos.z - v.z) = d * d) : v.Distance sqrt pos = d := by
  unfold Vec3.Distance Vec3.Magnitude
  dsimp only
  rw [h]
  exact hs.sqrt_mul_self hd

theorem Vec3.Distance_lt_of_sq {sqrt : α → α} (hs : IsSqrt sqrt) (v pos : Vec3 α) (d : α)
    (hd : 0 ≤ d)
    (h : (pos.x - v.x) * (pos.x - v.x) + (pos.y - v.y) * (pos.y - v.y)
      + (pos.z - v.z) * (pos.z - v.z) < d * d) : v.Distance sqrt pos < d := by
  have h0 := Vec3.Distance_nonneg hs v pos
  have h1 := Vec3.Distance_mul_self hs v pos
  by_contra hge
  push_neg at hge
  nlinarith

theorem Vec3.lt_Distance_of_sq {sqrt : α → α} (hs : IsSqrt sqrt) (v pos : Vec3 α) (d : α)
    (hd : 0 ≤ d)
    (h : d * d < (pos.x - v.x) * (pos.x - v.x) + (pos.y - v.y) * (pos.y - v.y)
      + (pos.z - v.z) * (pos.z - v.z)) : d < v.Distance sqrt pos := by
  have h0 := Vec3.Distance_nonneg hs v pos
  have h1 := Vec3.Distance_mul_self hs v pos
  by_contra hge
  push_neg at hge
  nlinarith

theorem Particle.onSurfaceMovingIn_tentativePosition :
    (Particle.onSurfaceMovingIn α).tentativePosition (Settings.program α)
      = ⟨-(11 / 10), 0, 0⟩ := by
  simp only [Particle.tentativePosition, Particle.tentativeVelocity, Particle.onSurfaceMovingIn,
    Settings.program, FORCE_GRAVITY, Vec3.add_def, Vec3.sub_def, Vec3.mul_def, Vec3.div_def,
    lit_zero]
  ext <;> norm_num

theorem Particle.aboveBall_tentativePosition :
    (Particle.aboveBall α).tentativePosition (Settings.program α) = ⟨-2, 51 / 50, 0⟩ := by
  simp only [Particle.tentativePosition, Particle.tentativeVelocity, Particle.aboveBall,
    Settings.program, FORCE_GRAVITY, Vec3.add_def, Vec3.sub_def, Vec3.mul_def, Vec3.div_def,
    lit_zero]
  ext <;> norm_num

/-- C2 (amended), in exact arithmetic (the scalars form an ordered field and
`sqrt` is an exact square root). For a non-anchored particle of positive mass
whose tentative position `T` is at distance `d ≤ 1.05 * BALL_RADIUS` from
`Ball_Position`, the position `Particle::Solve` commits is
`(T.x, T.y + (BALL_RADIUS - d), T.z)`, and it is at distance at least
`BALL_RADIUS` from `Ball_Position` exactly when the tentative position already
was, or lies on the vertical line through the centre of the ball, at or above
the centre. -/
theorem collision_floor_iff (sqrt : α → α) (hs : IsSqrt sqrt) (c : Settings α)
    (p : Particle α) (ha : p.Anchored = false) (hm : 0 < p.Mass)
    (hd : (p.tentativePosition c).Distance sqrt (Ball_Position c) ≤ 1.05 * c.BALL_RADIUS) :
    (Particle.Solve sqrt c p).Position =
        ⟨(p.tentativePosition c).x,
          (p.tentativePosition c).y
            + (c.BALL_RADIUS - (p.tentativePosition c).Distance sqrt (Ball_Position c)),
          (p.tentativePosition c).z⟩ ∧
      (c.BALL_RADIUS ≤ (Particle.Solve sqrt c p).Position.Distance sqrt (Ball_Position c) ↔
        (c.BALL_RADIUS ≤ (p.tentativePosition c).Distance sqrt (Ball_Position c) ∨
          ((p.tentativePosition c).x = c.BALL_X ∧ (p.tentativePosition c).z = c.BALL_Z ∧
            c.BALL_Y ≤ (p.tentativePosition c).y))) := by
  rw [Particle.Solve_collide sqrt c p ha (by rw [mul_comm]; exact hd)]
  exact ⟨rfl,
    Vec3.pushed_up_floor hs (p.tentativePosition c) (Ball_Position c) c.BALL_RADIUS⟩

/-- C2, the claim as stated fails: at the program's settings over the reals, the
non-anchored particle `Particle.onSurfaceMovingIn` of mass 1 starts on the surface
of the ball, is displaced inwards, has its tentative position within
`1.05 * BALL_RADIUS` of the centre, and `Particle::Solve` commits a position
strictly inside the ball. -/
theorem collision_floor_counterexample :
    (Particle.onSurfaceMovingIn ℝ).Anchored = false ∧
    0 < (Particle.onSurfaceMovingIn ℝ).Mass ∧
    (Particle.onSurfaceMovingIn ℝ).Position.Distance Real.sqrt
        (Ball_Position (Settings.program ℝ)) = (Settings.program ℝ).BALL_RADIUS ∧
    ((Particle.onSurfaceMovingIn ℝ).Position + ((Particle.onSurfaceMovingIn ℝ).Position
        - (Particle.onSurfaceMovingIn ℝ).OldPosition)).Distance Real.sqrt
        (Ball_Position (Settings.program ℝ)) < (Settings.program ℝ).BALL_RADIUS ∧
    ((Particle.onSurfaceMovingIn ℝ).tentativePosition (Settings.program ℝ)).Distance Real.sqrt
        (Ball_Position (Settings.program ℝ)) ≤ 1.05 * (Settings.program ℝ).BALL_RADIUS ∧
    ¬ (Settings.program ℝ).BALL_RADIUS ≤
      (Particle.Solve Real.sqrt (Settings.program ℝ) (Particle.onSurfaceMovingIn ℝ)).Position.Distance
        Real.sqrt (Ball_Position (Settings.program ℝ)) := by
  have hT := Particle.onSurfaceMovingIn_tentativePosition (α := ℝ)
  have hdT : ((Particle.onSurfaceMovingIn ℝ).tentativePosition (Settings.program ℝ)).Distance
      Real.sqrt (Ball_Position (Settings.program ℝ)) = 9 / 10 := by
    rw [hT]
    apply Vec3.Distance_eq_of_sq Real_isSqrt
    · norm_num
    · simp only [Ball_Position, Settings.program]
      norm_num
  have hR : (Settings.program ℝ).BALL_RADIUS = 1 := by simp [Settings.program]
  refine ⟨rfl, ?_, ?_, ?_, ?_, ?_⟩
  · simp [Particle.onSurfaceMovingIn]
  · rw [hR]
    apply Vec3.Distance_eq_of_sq Real_isSqrt
    · norm_num
    · simp only [Ball_Position, Settings.program, Particle.onSurfaceMovingIn]
      norm_num
  · rw [hR]
    apply Vec3.Distance_lt_of_sq Real_isSqrt
    · norm_num
    · simp only [Ball_Position, Settings.program, Particle.onSurfaceMovingIn, Vec3.add_def,
        Vec3.sub_def]
      norm_num
  · rw [hdT, hR]
    norm_num
  · rw [Particle.Solve_collide Real.sqrt _ _ rfl (by rw [hdT, hR]; norm_num), hdT, hT, hR,
      not_le]
    apply Vec3.Distance_lt_of_sq Real_isSqrt
    · norm_num
    · simp only [Ball_Position, Settings.program]
      norm_num

/-- C2 (amended), at the program's settings over the reals: the particle
`Particle.aboveBall` is not anchored, has mass 1, and its tentative position
`(-2, 1.02, 0)` is within `1.05 * BALL_RADIUS` of the centre of the ball, so the
committed position and the criterion are the ones of the theorem. -/
theorem collision_floor_iff_witness :
    (Particle.aboveBall ℝ).Anchored = false ∧
    0 < (Particle.aboveBall ℝ).Mass ∧
    ((Particle.aboveBall ℝ).tentativePosition (Settings.program ℝ)).Distance Real.sqrt
        (Ball_Position (Settings.program ℝ)) ≤ 1.05 * (Settings.program ℝ).BALL_RADIUS ∧
    (Particle.Solve Real.sqrt (Settings.program ℝ) (Particle.aboveBall ℝ)).Position =
        ⟨((Particle.aboveBall ℝ).tentativePosition (Settings.program ℝ)).x,
          ((Particle.aboveBall ℝ).tentativePosition (Settings.program ℝ)).y
            + ((Settings.program ℝ).BALL_RADIUS
              - ((Particle.aboveBall ℝ).tentativePosition (Settings.program ℝ)).Distance
                  Real.sqrt (Ball_Position (Settings.program ℝ))),
          ((Particle.aboveBall ℝ).tentativePosition (Settings.program ℝ)).z⟩ ∧
      ((Settings.program ℝ).BALL_RADIUS ≤
          (Particle.Solve Real.sqrt (Settings.program ℝ)
            (Particle.aboveBall ℝ)).Position.Distance Real.sqrt
            (Ball_Position (Settings.program ℝ)) ↔
        ((Settings.program ℝ).BALL_RADIUS ≤
            ((Particle.aboveBall ℝ).tentativePosition (Settings.program ℝ)).Distance Real.sqrt
              (Ball_Position (Settings.program ℝ)) ∨
          (((Particle.aboveBall ℝ).tentativePosition (Settings.program ℝ)).x
              = (Settings.program ℝ).BALL_X ∧
            ((Particle.aboveBall ℝ).tentativePosition (Settings.program ℝ)).z
              = (Settings.program ℝ).BALL_Z ∧
            (Settings.program ℝ).BALL_Y
              ≤ ((Particle.aboveBall ℝ).tentativePosition (Settings.program ℝ)).y))) := by
  have hd : ((Particle.aboveBall ℝ).tentativePosition (Settings.program ℝ)).Distance Real.sqrt
      (Ball_Position (Settings.program ℝ)) ≤ 1.05 * (Settings.program ℝ).BALL_RADIUS := by
    rw [Particle.aboveBall_tentativePosition]
    have hR : (Settings.program ℝ).BALL_RADIUS = 1 := by simp [Settings.program]
    rw [hR, Vec3.Distance_eq_of_sq Real_isSqrt _ _ (51 / 50) (by norm_num) (by
      simp only [Ball_Position, Settings.program]
      norm_num)]
    norm_num
  have hm : 0 < (Particle.aboveBall ℝ).Mass := by simp [Particle.aboveBall]
  exact ⟨rfl, hm, hd,
    collision_floor_iff Real.sqrt Real_isSqrt (Settings.program ℝ) (Particle.aboveBall ℝ) rfl
      hm hd⟩

theorem modify_eq_self_of_fix {β : Type} (f : β → β) (h : ∀ b, f b = b) (n : Nat)
    (l : List β) : l.modify f n = l := by
  apply List.ext_getElem?
  intro m
  rw [List.getElem?_modify]
  cases l[m]? with
  | none => rfl
  | some b =>
    by_cases hnm : n = m
    · simp [hnm, h]
    · simp [hnm]

theorem Spring.force_spring_at_rest (sqrt : α → α) (s : Spring α) (p0 p1 : Particle α)
    (hrest : (p1.Position - p0.Position).Magnitude sqrt = s.RestLength) :
    s.force_spring sqrt p0 p1 = ⟨0, 0, 0⟩ := by
  unfold Spring.force_spring
  rw [hrest, sub_self]
  simp

theorem Spring.Solve_at_rest (sqrt : α → α) (s : Spring α) (ps : List (Particle α))
    (p0 p1 : Particle α) (h0 : ps[s.P0]? = some p0) (h1 : ps[s.P1]? = some p1)
    (hrest : (p1.Position - p0.Position).Magnitude sqrt = s.RestLength) :
    Spring.Solve sqrt s ps = some ps := by
  rw [Spring.Solve_eq_some sqrt s ps p0 p1 h0 h1, Spring.force_spring_at_rest sqrt s p0 p1 hrest,
    modify_eq_self_of_fix _ (by intro b; simp), modify_eq_self_of_fix _ (by intro b; simp)]

/-- C4. A spring of positive rest length whose end particles are exactly
`RestLength` apart computes the zero `force_spring`, whatever its stiffness `K`,
and `Spring::Solve` returns the particle vector as it was: the `Forces` of both
end particles (and of every other particle) are unchanged. -/
theorem spring_at_rest_adds_no_force (sqrt : α → α) (s : Spring α)
    (ps : List (Particle α)) (p0 p1 : Particle α) (h0 : ps[s.P0]? = some p0)
    (h1 : ps[s.P1]? = some p1) (hL : 0 < s.RestLength)
    (hrest : (p1.Position - p0.Position).Magnitude sqrt = s.RestLength) :
    s.force_spring sqrt p0 p1 * (0.5 : α) = ⟨0, 0, 0⟩ ∧
      Spring.Solve sqrt s ps = some ps ∧
      ∃ ps1 q0 q1, Spring.Solve sqrt s ps = some ps1 ∧ ps1[s.P0]? = some q0 ∧
        ps1[s.P1]? = some q1 ∧ q0.Forces = p0.Forces ∧ q1.Forces = p1.Forces := by
  have hsolve := Spring.Solve_at_rest sqrt s ps p0 p1 h0 h1 hrest
  refine ⟨?_, hsolve, ps, p0, p1, hsolve, h0, h1, rfl, rfl⟩
  rw [Spring.force_spring_at_rest sqrt s p0 p1 hrest]
  simp

/-- C4, over the reals: two particles 5 apart joined by a spring of rest length 5. -/
theorem spring_at_rest_adds_no_force_witness :
    Spring.force_spring Real.sqrt (⟨0, 1, 650, 0.045, 5⟩ : Spring ℝ)
        (Particle.ctor ⟨0, 0, 0⟩ 1 false) (Particle.ctor ⟨3, 4, 0⟩ 1 false) * (0.5 : ℝ)
        = ⟨0, 0, 0⟩ ∧
      Spring.Solve Real.sqrt (⟨0, 1, 650, 0.045, 5⟩ : Spring ℝ)
        [Particle.ctor ⟨0, 0, 0⟩ 1 false, Particle.ctor ⟨3, 4, 0⟩ 1 false]
        = some [Particle.ctor ⟨0, 0, 0⟩ 1 false, Particle.ctor ⟨3, 4, 0⟩ 1 false] ∧
      ∃ ps1 q0 q1,
        Spring.Solve Real.sqrt (⟨0, 1, 650, 0.045, 5⟩ : Spring ℝ)
          [Particle.ctor ⟨0, 0, 0⟩ 1 false, Particle.ctor ⟨3, 4, 0⟩ 1 false] = some ps1 ∧
        ps1[(⟨0, 1, 650, 0.045, 5⟩ : Spring ℝ).P0]? = some q0 ∧
        ps1[(⟨0, 1, 650, 0.045, 5⟩ : Spring ℝ).P1]? = some q1 ∧
        q0.Forces = (Particle.ctor (⟨0, 0, 0⟩ : Vec3 ℝ) 1 false).Forces ∧
        q1.Forces = (Particle.ctor (⟨3, 4, 0⟩ : Vec3 ℝ) 1 false).Forces :=
  spring_at_rest_adds_no_force Real.sqrt ⟨0, 1, 650, 0.045, 5⟩
    [Particle.ctor ⟨0, 0, 0⟩ 1 false, Particle.ctor ⟨3, 4, 0⟩ 1 false]
    (Particle.ctor ⟨0, 0, 0⟩ 1 false) (Particle.ctor ⟨3, 4, 0⟩ 1 false) rfl rfl
    (by norm_num) (by
      show Real.sqrt _ = 5
      simp only [Particle.ctor, Vec3.sub_def]
      rw [show ((3 : ℝ) - 0) * (3 - 0) + (4 - 0) * (4 - 0) + (0 - 0) * (0 - 0) = 5 * 5
        by norm_num]
      exact Real.sqrt_mul_self (by norm_num))

theorem RopeSimulator.ResetForces_congr (r t : RopeSimulator α) (hS : r.Springs = t.Springs)
    (hlen : r.Particles.length = t.Particles.length)
    (hP : ∀ (i : Nat) (p q : Particle α), r.Particles[i]? = some p → t.Particles[i]? = some q →
      p.Position = q.Position ∧ p.OldPosition = q.OldPosition ∧ p.Velocity = q.Velocity ∧
        p.Mass = q.Mass ∧ p.Anchored = q.Anchored) :
    r.ResetForces = t.ResetForces := by
  unfold RopeSimulator.ResetForces
  rw [hS]
  congr 1
  apply List.ext_getElem?
  intro i
  rw [List.getElem?_map, List.getElem?_map]
  rcases hp : r.Particles[i]? with _ | p <;> rcases hq : t.Particles[i]? with _ | q
  · rfl
  · rw [List.getElem?_eq_none_iff] at hp
    have := (List.getElem?_eq_some_iff.mp hq).1
    omega
  · rw [List.getElem?_eq_none_iff] at hq
    have := (List.getElem?_eq_some_iff.mp hp).1
    omega
  · obtain ⟨h1, h2, h3, h4, h5⟩ := hP i p q hp hq
    simp only [Option.map_some', h1, h2, h3, h4, h5]

/-- C5. Two simulators with the same springs whose particles agree, one by one, on
`Position`, `OldPosition`, `Velocity`, `Mass` and `Anchored` (their `Forces` being
arbitrary) leave `ResetForces` as the same simulator, so `Integrate` gives the same
result on both; and when the springs point into the particle vector that result
exists. -/
theorem integrate_ignores_incoming_forces (sqrt : α → α) (c : Settings α)
    (r t : RopeSimulator α) (hS : r.Springs = t.Springs)
    (hlen : r.Particles.length = t.Particles.length)
    (hP : ∀ (i : Nat) (p q : Particle α), r.Particles[i]? = some p → t.Particles[i]? = some q →
      p.Position = q.Position ∧ p.OldPosition = q.OldPosition ∧ p.Velocity = q.Velocity ∧
        p.Mass = q.Mass ∧ p.Anchored = q.Anchored) :
    r.ResetForces = t.ResetForces ∧
      RopeSimulator.Integrate sqrt c r = RopeSimulator.Integrate sqrt c t ∧
      (r.PointersValid → ∃ r1, RopeSimulator.Integrate sqrt c r = some r1 ∧
        RopeSimulator.Integrate sqrt c t = some r1) := by
  have hreset := RopeSimulator.ResetForces_congr r t hS hlen hP
  have heq : RopeSimulator.Integrate sqrt c r = RopeSimulator.Integrate sqrt c t := by
    unfold RopeSimulator.Integrate
    rw [hreset]
  refine ⟨hreset, heq, fun hv => ?_⟩
  obtain ⟨r1, hI, -⟩ := RopeSimulator.Integrate_spec sqrt c r hv
  exact ⟨r1, hI, heq ▸ hI⟩

/-- C5, at the program's settings over the reals: the simulator built by the
constructor and the same simulator with every force accumulator set to (1, 2, 3). -/
theorem integrate_ignores_incoming_forces_witness :
    RopeSimulator.Integrate Real.sqrt (Settings.program ℝ)
        (RopeSimulator.ctor (Settings.program ℝ))
      = RopeSimulator.Integrate Real.sqrt (Settings.program ℝ)
        { Particles := (RopeSimulator.ctor (Settings.program ℝ)).Particles.map
            fun p => { p with Forces := ⟨1, 2, 3⟩ }
          Springs := (RopeSimulator.ctor (Settings.program ℝ)).Springs } ∧
    ∃ r1, RopeSimulator.Integrate Real.sqrt (Settings.program ℝ)
        (RopeSimulator.ctor (Settings.program ℝ)) = some r1 ∧
      RopeSimulator.Integrate Real.sqrt (Settings.program ℝ)
        { Particles := (RopeSimulator.ctor (Settings.program ℝ)).Particles.map
            fun p => { p with Forces := ⟨1, 2, 3⟩ }
          Springs := (RopeSimulator.ctor (Settings.program ℝ)).Springs } = some r1 :=
  have h := integrate_ignores_incoming_forces Real.sqrt (Settings.program ℝ)
    (RopeSimulator.ctor (Settings.program ℝ))
    { Particles := (RopeSimulator.ctor (Settings.program ℝ)).Particles.map
        fun p => { p with Forces := ⟨1, 2, 3⟩ }
      Springs := (RopeSimulator.ctor (Settings.program ℝ)).Springs }
    rfl (by simp) (by
      intro i p q hp hq
      rw [List.getElem?_map, hp] at hq
      cases hq
      exact ⟨rfl, rfl, rfl, rfl, rfl⟩)
  ⟨h.2.1, h.2.2 (RopeSimulator.ResetRope_PointersValid (Settings.program ℝ) ⟨[], []⟩)⟩

/-- C6. `ResetRope` does not read the simulator it is called on: it gives the same
simulator from any two states, in particular from one that is itself a reset state
and from one reached by `n` calls of `Integrate`, so calling it twice gives what
calling it once gives. -/
theorem reset_rope_idempotent (sqrt : α → α) (c : Settings α) (r t : RopeSimulator α)
    (n : Nat) :
    RopeSimulator.ResetRope c (RopeSimulator.ResetRope c r) = RopeSimulator.ResetRope c r ∧
      RopeSimulator.ResetRope c r = RopeSimulator.ResetRope c t ∧
      ∃ rn, RopeSimulator.IntegrateN sqrt c n (RopeSimulator.ResetRope c r) = some rn ∧
        RopeSimulator.ResetRope c rn = RopeSimulator.ResetRope c r := by
  obtain ⟨rn, hI, -⟩ := RopeSimulator.IntegrateN_keeps sqrt c n (RopeSimulator.ResetRope c r)
    (RopeSimulator.ResetRope_PointersValid c r)
  exact ⟨rfl, rfl, rn, hI, rfl⟩

/-- C8. After `ResetRope` and any number `n` of `Integrate` calls (which all
return) there are `NUM_PARTICLES` particles and `NUM_PARTICLES - 1` springs, spring
`i` points to particles `i` and `i + 1`, both in the particle vector, and has the
rest length, `K` and `D` that `ResetRope` gave it, and the first and the last
particle are anchored; and on every simulator whose springs point into its
particle vector `Integrate` returns a simulator with the same springs, as many
particles, and the same `Anchored` and `Mass` for each particle. -/
theorem structure_is_invariant (sqrt : α → α) (c : Settings α) (r0 : RopeSimulator α)
    (n : Nat) (hN : 1 ≤ c.NUM_PARTICLES) (r : RopeSimulator α) (hv : r.PointersValid) :
    (∃ rn, RopeSimulator.IntegrateN sqrt c n (RopeSimulator.ResetRope c r0) = some rn ∧
      rn.Particles.length = c.NUM_PARTICLES ∧
      rn.Springs.length = rn.Particles.length - 1 ∧
      (∀ i, i < c.NUM_PARTICLES - 1 →
        ∃ s, rn.Springs[i]? = some s ∧ s.P0 = i ∧ s.P1 = i + 1 ∧
          s.P0 < rn.Particles.length ∧ s.P1 < rn.Particles.length ∧
          s.RestLength = c.ROPE_WORLDSPACE_LENGTH / ((c.NUM_PARTICLES : α) - 1) ∧
          s.K = c.SPRING_K ∧ s.D = c.SPRING_D) ∧
      (∃ a b, rn.Particles[0]? = some a ∧ rn.Particles[c.NUM_PARTICLES - 1]? = some b ∧
        a.Anchored = true ∧ b.Anchored = true)) ∧
    (∃ r1, RopeSimulator.Integrate sqrt c r = some r1 ∧ r1.Springs = r.Springs ∧
      r1.Particles.length = r.Particles.length ∧
      ∀ (i : Nat) (p : Particle α), r.Particles[i]? = some p →
        ∃ p1, r1.Particles[i]? = some p1 ∧ p1.Anchored = p.Anchored ∧ p1.Mass = p.Mass) := by
  constructor
  · obtain ⟨rn, hI, -, hS, hL, hP⟩ := RopeSimulator.IntegrateN_keeps sqrt c n
      (RopeSimulator.ResetRope c r0) (RopeSimulator.ResetRope_PointersValid c r0)
    rw [RopeSimulator.ResetRope_length] at hL
    refine ⟨rn, hI, hL, ?_, ?_, ?_⟩
    · rw [hS, hL, RopeSimulator.ResetRope_Springs, List.length_map, List.length_range]
    · intro i hi
      refine ⟨(⟨i, i + 1, c.SPRING_K, c.SPRING_D,
        c.ROPE_WORLDSPACE_LENGTH / ((c.NUM_PARTICLES : α) - 1)⟩ : Spring α),
        ?_, rfl, rfl, ?_, ?_, rfl, rfl, rfl⟩
      · rw [hS, RopeSimulator.ResetRope_Springs, List.getElem?_map, List.getElem?_range hi]
        rfl
      · show i < rn.Particles.length
        omega
      · show i + 1 < rn.Particles.length
        omega
    · obtain ⟨a, ha, -, haa, -⟩ := hP 0 _ (RopeSimulator.ResetRope_getElem? c r0 0 (by omega))
      obtain ⟨b, hb, -, hba, -⟩ := hP (c.NUM_PARTICLES - 1) _
        (RopeSimulator.ResetRope_getElem? c r0 (c.NUM_PARTICLES - 1) (by omega))
      refine ⟨a, b, ha, hb, haa.trans ?_, hba.trans ?_⟩
      · simp
      · simp
  · obtain ⟨r1, hI, -, hS, hL, hP⟩ := RopeSimulator.Integrate_keeps sqrt c r hv
    refine ⟨r1, hI, hS, hL, fun i p hp => ?_⟩
    obtain ⟨p1, hp1, hm, ha, -⟩ := hP i p hp
    exact ⟨p1, hp1, ha, hm⟩

/-- C8, at the program's settings over the reals: seven steps after a reset, and one
step of the simulator built by the constructor. -/
theorem structure_is_invariant_witness :
    (∃ rn, RopeSimulator.IntegrateN Real.sqrt (Settings.program ℝ) 7
        (RopeSimulator.ResetRope (Settings.program ℝ) ⟨[], []⟩) = some rn ∧
      rn.Particles.length = (Settings.program ℝ).NUM_PARTICLES ∧
      rn.Springs.length = rn.Particles.length - 1 ∧
      (∀ i, i < (Settings.program ℝ).NUM_PARTICLES - 1 →
        ∃ s, rn.Springs[i]? = some s ∧ s.P0 = i ∧ s.P1 = i + 1 ∧
          s.P0 < rn.Particles.length ∧ s.P1 < rn.Particles.length ∧
          s.RestLength = (Settings.program ℝ).ROPE_WORLDSPACE_LENGTH
            / (((Settings.program ℝ).NUM_PARTICLES : ℝ) - 1) ∧
          s.K = (Settings.program ℝ).SPRING_K ∧ s.D = (Settings.program ℝ).SPRING_D) ∧
      (∃ a b, rn.Particles[0]? = some a ∧
        rn.Particles[(Settings.program ℝ).NUM_PARTICLES - 1]? = some b ∧
        a.Anchored = true ∧ b.Anchored = true)) ∧
    (∃ r1, RopeSimulator.Integrate Real.sqrt (Settings.program ℝ)
        (RopeSimulator.ctor (Settings.program ℝ)) = some r1 ∧
      r1.Springs = (RopeSimulator.ctor (Settings.program ℝ)).Springs ∧
      r1.Particles.length = (RopeSimulator.ctor (Settings.program ℝ)).Particles.length ∧
      ∀ (i : Nat) (p : Particle ℝ),
        (RopeSimulator.ctor (Settings.program ℝ)).Particles[i]? = some p →
        ∃ p1, r1.Particles[i]? = some p1 ∧ p1.Anchored = p.Anchored ∧ p1.Mass = p.Mass) :=
  structure_is_invariant Real.sqrt (Settings.program ℝ) ⟨[], []⟩ 7 (by decide)
    (RopeSimulator.ctor (Settings.program ℝ))
    (RopeSimulator.ResetRope_PointersValid (Settings.program ℝ) ⟨[], []⟩)

/-- C9. For a non-anchored particle let `T = Position + Velocity` be the tentative
position, with `Velocity` as `Particle::Solve` computes it, and `d` the distance
from `T` to `Ball_Position`. If `d ≤ 1.05 * BALL_RADIUS` the call leaves
`Velocity = (Velocity.x, 0, Velocity.z)` and
`Position = (T.x, T.y + (BALL_RADIUS - d), T.z)`; if `d > 1.05 * BALL_RADIUS` it
leaves `Position = T` and `Velocity` as computed. -/
theorem collision_response (sqrt : α → α) (c : Settings α) (p : Particle α)
    (ha : p.Anchored = false) :
    p.tentativeVelocity c = (p.Position - p.OldPosition) * (1 - c.SPRING_D)
        + (p.Forces + FORCE_GRAVITY c) / p.Mass * c.TIME_STEPSIZE * c.TIME_STEPSIZE ∧
    p.tentativePosition c = p.Position + p.tentativeVelocity c ∧
    ((p.tentativePosition c).Distance sqrt (Ball_Position c) ≤ 1.05 * c.BALL_RADIUS →
      (Particle.Solve sqrt c p).Velocity.y = 0 ∧
      (Particle.Solve sqrt c p).Velocity.x = (p.tentativeVelocity c).x ∧
      (Particle.Solve sqrt c p).Velocity.z = (p.tentativeVelocity c).z ∧
      (Particle.Solve sqrt c p).Position = ⟨(p.tentativePosition c).x,
        (p.tentativePosition c).y
          + (c.BALL_RADIUS - (p.tentativePosition c).Distance sqrt (Ball_Position c)),
        (p.tentativePosition c).z⟩) ∧
    (1.05 * c.BALL_RADIUS < (p.tentativePosition c).Distance sqrt (Ball_Position c) →
      (Particle.Solve sqrt c p).Position = p.tentativePosition c ∧
      (Particle.Solve sqrt c p).Velocity = p.tentativeVelocity c) := by
  refine ⟨rfl, rfl, fun hd => ?_, fun hd => ?_⟩
  · rw [Particle.Solve_collide sqrt c p ha (by rw [mul_comm]; exact hd)]
    exact ⟨rfl, rfl, rfl, rfl⟩
  · rw [Particle.Solve_free sqrt c p ha (by rw [mul_comm]; exact not_le.mpr hd)]
    exact ⟨rfl, rfl⟩

theorem aboveBall_distance {sqrt : α → α} (hs : IsSqrt sqrt) :
    ((Particle.aboveBall α).tentativePosition (Settings.program α)).Distance sqrt
      (Ball_Position (Settings.program α)) = 51 / 50 := by
  rw [Particle.aboveBall_tentativePosition]
  apply Vec3.Distance_eq_of_sq hs
  · norm_num
  · simp only [Ball_Position, Settings.program]
    norm_num

theorem resetParticle_free {sqrt : α → α} (hs : IsSqrt sqrt) :
    1.05 * (Settings.program α).BALL_RADIUS <
      ((Particle.ctor (⟨0, 4, 0⟩ : Vec3 α) 1 false).tentativePosition
        (Settings.program α)).Distance sqrt (Ball_Position (Settings.program α)) := by
  apply Vec3.lt_Distance_of_sq hs
  · norm_num [Settings.program]
  · simp only [Particle.tentativePosition, Particle.tentativeVelocity, Particle.ctor,
      Settings.program, FORCE_GRAVITY, Ball_Position, Vec3.add_def, Vec3.sub_def, Vec3.mul_def,
      Vec3.div_def, lit_zero]
    norm_num

/-- C9, at the program's settings over the reals: `Particle.aboveBall`, which
collides, and a particle at rest at (0, 4, 0), which does not. -/
theorem collision_response_witness :
    ((Particle.Solve Real.sqrt (Settings.program ℝ) (Particle.aboveBall ℝ)).Velocity.y = 0 ∧
      (Particle.Solve Real.sqrt (Settings.program ℝ) (Particle.aboveBall ℝ)).Velocity.x
        = ((Particle.aboveBall ℝ).tentativeVelocity (Settings.program ℝ)).x ∧
      (Particle.Solve Real.sqrt (Settings.program ℝ) (Particle.aboveBall ℝ)).Velocity.z
        = ((Particle.aboveBall ℝ).tentativeVelocity (Settings.program ℝ)).z ∧
      (Particle.Solve Real.sqrt (Settings.program ℝ) (Particle.aboveBall ℝ)).Position
        = ⟨((Particle.aboveBall ℝ).tentativePosition (Settings.program ℝ)).x,
          ((Particle.aboveBall ℝ).tentativePosition (Settings.program ℝ)).y
            + ((Settings.program ℝ).BALL_RADIUS
              - ((Particle.aboveBall ℝ).tentativePosition (Settings.program ℝ)).Distance
                  Real.sqrt (Ball_Position (Settings.program ℝ))),
          ((Particle.aboveBall ℝ).tentativePosition (Settings.program ℝ)).z⟩) ∧
    ((Particle.Solve Real.sqrt (Settings.program ℝ)
        (Particle.ctor (⟨0, 4, 0⟩ : Vec3 ℝ) 1 false)).Position
        = (Particle.ctor (⟨0, 4, 0⟩ : Vec3 ℝ) 1 false).tentativePosition (Settings.program ℝ) ∧
      (Particle.Solve Real.sqrt (Settings.program ℝ)
        (Particle.ctor (⟨0, 4, 0⟩ : Vec3 ℝ) 1 false)).Velocity
        = (Particle.ctor (⟨0, 4, 0⟩ : Vec3 ℝ) 1 false).tentativeVelocity (Settings.program ℝ)) :=
  ⟨(collision_response Real.sqrt (Settings.program ℝ) (Particle.aboveBall ℝ) rfl).2.2.1 (by
      rw [aboveBall_distance Real_isSqrt]
      norm_num [Settings.program]),
    (collision_response Real.sqrt (Settings.program ℝ)
      (Particle.ctor (⟨0, 4, 0⟩ : Vec3 ℝ) 1 false) rfl).2.2.2 (resetParticle_free Real_isSqrt)⟩

/-- C10. With `N = NUM_PARTICLES ≥ 2` and `L = ROPE_WORLDSPACE_LENGTH`, `ResetRope`
leaves `N` particles; particle `i` has
`Position = OldPosition = (i * L / (N - 1) - L / 2, ROPE_HEIGHT, 0)`, zero
`Velocity`, zero `Forces`, `Mass = PARTICLE_MASS`, and is anchored exactly when it
is the first or the last; the first is at `x = -L/2`, the last at `x = L/2`, and
neighbours are `L / (N - 1)` apart in `x`. -/
theorem reset_layout (c : Settings α) (r0 : RopeSimulator α) (hN : 2 ≤ c.NUM_PARTICLES) :
    (RopeSimulator.ResetRope c r0).Particles.length = c.NUM_PARTICLES ∧
    (∀ i, i < c.NUM_PARTICLES → ∃ p, (RopeSimulator.ResetRope c r0).Particles[i]? = some p ∧
      p.Position = ⟨(i : α) * c.ROPE_WORLDSPACE_LENGTH / ((c.NUM_PARTICLES : α) - 1)
        - c.ROPE_WORLDSPACE_LENGTH / 2, c.ROPE_HEIGHT, 0⟩ ∧
      p.OldPosition = p.Position ∧ p.Velocity = ⟨0, 0, 0⟩ ∧ p.Forces = ⟨0, 0, 0⟩ ∧
      p.Mass = c.PARTICLE_MASS ∧
      (p.Anchored = true ↔ (i = 0 ∨ i = c.NUM_PARTICLES - 1))) ∧
    (∃ first last, (RopeSimulator.ResetRope c r0).Particles[0]? = some first ∧
      (RopeSimulator.ResetRope c r0).Particles[c.NUM_PARTICLES - 1]? = some last ∧
      first.Position.x = -(c.ROPE_WORLDSPACE_LENGTH / 2) ∧
      last.Position.x = c.ROPE_WORLDSPACE_LENGTH / 2) ∧
    (∀ i, i + 1 < c.NUM_PARTICLES → ∃ p q,
      (RopeSimulator.ResetRope c r0).Particles[i]? = some p ∧
      (RopeSimulator.ResetRope c r0).Particles[i + 1]? = some q ∧
      q.Position.x - p.Position.x
        = c.ROPE_WORLDSPACE_LENGTH / ((c.NUM_PARTICLES : α) - 1)) := by
  have hne : (c.NUM_PARTICLES : α) - 1 ≠ 0 := by
    have h2 : (2 : α) ≤ (c.NUM_PARTICLES : α) := by exact_mod_cast hN
    intro h
    linarith
  refine ⟨RopeSimulator.ResetRope_length c r0, fun i hi => ?_, ?_, fun i hi => ?_⟩
  · refine ⟨_, RopeSimulator.ResetRope_getElem? c r0 i hi, ?_, rfl, rfl, rfl, rfl, ?_⟩
    · rw [mul_div_assoc]
    · simp
  · refine ⟨_, _, RopeSimulator.ResetRope_getElem? c r0 0 (by omega),
      RopeSimulator.ResetRope_getElem? c r0 (c.NUM_PARTICLES - 1) (by omega), ?_, ?_⟩
    · simp
    · show ((c.NUM_PARTICLES - 1 : ℕ) : α) * (c.ROPE_WORLDSPACE_LENGTH
        / ((c.NUM_PARTICLES : α) - 1)) - c.ROPE_WORLDSPACE_LENGTH / 2 = _
      rw [Nat.cast_sub (by omega), Nat.cast_one]
      field_simp
      ring
  · refine ⟨_, _, RopeSimulator.ResetRope_getElem? c r0 i (by omega),
      RopeSimulator.ResetRope_getElem? c r0 (i + 1) hi, ?_⟩
    show ((i + 1 : ℕ) : α) * (c.ROPE_WORLDSPACE_LENGTH / ((c.NUM_PARTICLES : α) - 1))
      - c.ROPE_WORLDSPACE_LENGTH / 2 - ((i : α) * (c.ROPE_WORLDSPACE_LENGTH
        / ((c.NUM_PARTICLES : α) - 1)) - c.ROPE_WORLDSPACE_LENGTH / 2) = _
    push_cast
    ring

/-- C10, at the program's settings over the reals. -/
theorem reset_layout_witness :
    (RopeSimulator.ResetRope (Settings.program ℝ) ⟨[], []⟩).Particles.length
      = (Settings.program ℝ).NUM_PARTICLES ∧
    (∀ i, i < (Settings.program ℝ).NUM_PARTICLES →
      ∃ p, (RopeSimulator.ResetRope (Settings.program ℝ) ⟨[], []⟩).Particles[i]? = some p ∧
      p.Position = ⟨(i : ℝ) * (Settings.program ℝ).ROPE_WORLDSPACE_LENGTH
          / (((Settings.program ℝ).NUM_PARTICLES : ℝ) - 1)
        - (Settings.program ℝ).ROPE_WORLDSPACE_LENGTH / 2, (Settings.program ℝ).ROPE_HEIGHT, 0⟩ ∧
      p.OldPosition = p.Position ∧ p.Velocity = ⟨0, 0, 0⟩ ∧ p.Forces = ⟨0, 0, 0⟩ ∧
      p.Mass = (Settings.program ℝ).PARTICLE_MASS ∧
      (p.Anchored = true ↔ (i = 0 ∨ i = (Settings.program ℝ).NUM_PARTICLES - 1))) ∧
    (∃ first last,
      (RopeSimulator.ResetRope (Settings.program ℝ) ⟨[], []⟩).Particles[0]? = some first ∧
      (RopeSimulator.ResetRope (Settings.program ℝ) ⟨[], []⟩).Particles[
        (Settings.program ℝ).NUM_PARTICLES - 1]? = some last ∧
      first.Position.x = -((Settings.program ℝ).ROPE_WORLDSPACE_LENGTH / 2) ∧
      last.Position.x = (Settings.program ℝ).ROPE_WORLDSPACE_LENGTH / 2) ∧
    (∀ i, i + 1 < (Settings.program ℝ).NUM_PARTICLES → ∃ p q,
      (RopeSimulator.ResetRope (Settings.program ℝ) ⟨[], []⟩).Particles[i]? = some p ∧
      (RopeSimulator.ResetRope (Settings.program ℝ) ⟨[], []⟩).Particles[i + 1]? = some q ∧
      q.Position.x - p.Position.x = (Settings.program ℝ).ROPE_WORLDSPACE_LENGTH
        / (((Settings.program ℝ).NUM_PARTICLES : ℝ) - 1)) :=
  reset_layout (Settings.program ℝ) ⟨[], []⟩ (by decide)

/-! ### The first step after a reset -/

theorem springs_fixed (sqrt : α → α) (ss : List (Spring α)) (ps : List (Particle α))
    (h : ∀ s ∈ ss, Spring.Solve sqrt s ps = some ps) :
    ss.foldlM (fun ps s => Spring.Solve sqrt s ps) ps = some ps := by
  induction ss with
  | nil => rfl
  | cons s ss ih =>
    rw [List.foldlM_cons, h s (List.mem_cons_self _ _)]
    exact ih fun t ht => h t (List.mem_cons_of_mem _ ht)

theorem RopeSimulator.ResetForces_ResetRope (c : Settings α) (r0 : RopeSimulator α) :
    (RopeSimulator.ResetRope c r0).ResetForces = RopeSimulator.ResetRope c r0 := by
  unfold RopeSimulator.ResetForces
  have hmap : (RopeSimulator.ResetRope c r0).Particles.map
      (fun p => { p with Forces := (⟨0.0, 0.0, 0.0⟩ : Vec3 α) })
      = (RopeSimulator.ResetRope c r0).Particles := by
    apply List.ext_getElem?
    intro i
    rw [List.getElem?_map]
    by_cases hi : i < c.NUM_PARTICLES
    · rw [RopeSimulator.ResetRope_getElem? c r0 i hi]
      simp
    · have hnone : (RopeSimulator.ResetRope c r0).Particles[i]? = none := by
        rw [List.getElem?_eq_none_iff, RopeSimulator.ResetRope_length]
        omega
      rw [hnone]
      rfl
  rw [hmap]

theorem RopeSimulator.ResetRope_springs_at_rest {sqrt : α → α} (hs : IsSqrt sqrt)
    (c : Settings α) (r0 : RopeSimulator α) (hN : 1 ≤ c.NUM_PARTICLES)
    (hL : 0 ≤ c.ROPE_WORLDSPACE_LENGTH) :
    ∀ s ∈ (RopeSimulator.ResetRope c r0).Springs,
      Spring.Solve sqrt s (RopeSimulator.ResetRope c r0).Particles
        = some (RopeSimulator.ResetRope c r0).Particles := by
  intro s hmem
  rw [RopeSimulator.ResetRope_Springs, List.mem_map] at hmem
  obtain ⟨i, hi, rfl⟩ := hmem
  rw [List.mem_range] at hi
  have hinc : 0 ≤ c.ROPE_WORLDSPACE_LENGTH / ((c.NUM_PARTICLES : α) - 1) := by
    apply div_nonneg hL
    have h1 : (1 : α) ≤ (c.NUM_PARTICLES : α) := by exact_mod_cast hN
    linarith
  refine Spring.Solve_at_rest sqrt _ _ _ _
    (RopeSimulator.ResetRope_getElem? c r0 i (by omega))
    (RopeSimulator.ResetRope_getElem? c r0 (i + 1) (by omega)) ?_
  show sqrt _ = c.ROPE_WORLDSPACE_LENGTH / ((c.NUM_PARTICLES : α) - 1)
  convert hs.sqrt_mul_self hinc using 2
  simp only [Vec3.sub_def]
  push_cast
  ring

theorem RopeSimulator.Integrate_ResetRope {sqrt : α → α} (hs : IsSqrt sqrt) (c : Settings α)
    (r0 : RopeSimulator α) (hN : 1 ≤ c.NUM_PARTICLES) (hL : 0 ≤ c.ROPE_WORLDSPACE_LENGTH) :
    RopeSimulator.Integrate sqrt c (RopeSimulator.ResetRope c r0) = some
      { Particles := (RopeSimulator.ResetRope c r0).Particles.map (Particle.Solve sqrt c)
        Springs := (RopeSimulator.ResetRope c r0).Springs } := by
  unfold RopeSimulator.Integrate RopeSimulator.Solve
  rw [RopeSimulator.ResetForces_ResetRope,
    springs_fixed sqrt _ _ (RopeSimulator.ResetRope_springs_at_rest hs c r0 hN hL)]
  rfl

theorem Particle.tentativePosition_reset (c : Settings α) (x : α) (a : Bool) :
    Particle.tentativePosition c
      { Position := ⟨x, c.ROPE_HEIGHT, 0⟩, OldPosition := ⟨x, c.ROPE_HEIGHT, 0⟩,
        Velocity := ⟨0, 0, 0⟩, Forces := ⟨0, 0, 0⟩, Mass := c.PARTICLE_MASS, Anchored := a }
      = ⟨x, c.ROPE_HEIGHT + 0 * (1 - c.SPRING_D)
          + c.GRAVITY / c.PARTICLE_MASS * c.TIME_STEPSIZE ^ 2, 0⟩ := by
  simp only [Particle.tentativePosition, Particle.tentativeVelocity, FORCE_GRAVITY,
    Vec3.add_def, Vec3.sub_def, Vec3.mul_def, Vec3.div_def, lit_zero]
  ext
  · simp
  · show c.ROPE_HEIGHT + ((c.ROPE_HEIGHT - c.ROPE_HEIGHT) * (1 - c.SPRING_D)
      + (0 + c.GRAVITY) / c.PARTICLE_MASS * c.TIME_STEPSIZE * c.TIME_STEPSIZE) = _
    ring
  · simp

/-- C7 (amended), in exact arithmetic (the scalars form an ordered field and
`sqrt` is an exact square root, so the spacing `L / (N - 1)`, the positions
`i * L / (N - 1) - L / 2` and the rest length are exact values, not rounded
ones). Let `ResetRope` build `N ≥ 3` particles over a length `L > 0` at height
`H`, of mass `m > 0`, and let no interior particle have its tentative position
`(x, H + (GRAVITY / m) * TIME_STEPSIZE ^ 2, 0)` within `1.05 * BALL_RADIUS` of
`Ball_Position`. Then `Integrate` returns; every spring leaves the particle
vector as it is (its force is zero); every interior particle ends at
`y = H + 0 * (1 - SPRING_D) + (GRAVITY / m) * TIME_STEPSIZE ^ 2` with `x` and `z`
unchanged; and both end particles stay at `y = H`. -/
theorem first_step_after_reset {sqrt : α → α} (hs : IsSqrt sqrt) (c : Settings α)
    (r0 : RopeSimulator α) (hN : 3 ≤ c.NUM_PARTICLES) (hL : 0 < c.ROPE_WORLDSPACE_LENGTH)
    (hm : 0 < c.PARTICLE_MASS)
    (hfree : ∀ i : Nat, 0 < i → i < c.NUM_PARTICLES - 1 →
      1.05 * c.BALL_RADIUS < Vec3.Distance sqrt
        ⟨(i : α) * c.ROPE_WORLDSPACE_LENGTH / ((c.NUM_PARTICLES : α) - 1)
            - c.ROPE_WORLDSPACE_LENGTH / 2,
          c.ROPE_HEIGHT + 0 * (1 - c.SPRING_D)
            + c.GRAVITY / c.PARTICLE_MASS * c.TIME_STEPSIZE ^ 2, 0⟩
        (Ball_Position c)) :
    ∃ r1, RopeSimulator.Integrate sqrt c (RopeSimulator.ResetRope c r0) = some r1 ∧
      (∀ s ∈ (RopeSimulator.ResetRope c r0).Springs,
        Spring.Solve sqrt s (RopeSimulator.ResetRope c r0).Particles
          = some (RopeSimulator.ResetRope c r0).Particles) ∧
      (∀ i : Nat, 0 < i → i < c.NUM_PARTICLES - 1 →
        ∃ p p1, (RopeSimulator.ResetRope c r0).Particles[i]? = some p ∧
          r1.Particles[i]? = some p1 ∧
          p1.Position.y = c.ROPE_HEIGHT + 0 * (1 - c.SPRING_D)
            + c.GRAVITY / c.PARTICLE_MASS * c.TIME_STEPSIZE ^ 2 ∧
          p1.Position.x = p.Position.x ∧ p1.Position.z = p.Position.z) ∧
      (∀ i : Nat, i = 0 ∨ i = c.NUM_PARTICLES - 1 →
        ∃ p1, r1.Particles[i]? = some p1 ∧ p1.Position.y = c.ROPE_HEIGHT) := by
  refine ⟨_, RopeSimulator.Integrate_ResetRope hs c r0 (by omega) hL.le,
    RopeSimulator.ResetRope_springs_at_rest hs c r0 (by omega) hL.le, fun i h0 hi => ?_,
    fun i hi => ?_⟩
  · have hp := RopeSimulator.ResetRope_getElem? c r0 i (by omega)
    have hanch : decide (i = 0 ∨ i = c.NUM_PARTICLES - 1) = false := by
      apply decide_eq_false
      omega
    rw [hanch] at hp
    have hT := Particle.tentativePosition_reset c
      ((i : α) * (c.ROPE_WORLDSPACE_LENGTH / ((c.NUM_PARTICLES : α) - 1))
        - c.ROPE_WORLDSPACE_LENGTH / 2) false
    have hd := hfree i h0 hi
    rw [mul_div_assoc, ← hT] at hd
    obtain ⟨p, hpe, hp⟩ : ∃ p, p = ({
        Position := ⟨(i : α) * (c.ROPE_WORLDSPACE_LENGTH / ((c.NUM_PARTICLES : α) - 1))
          - c.ROPE_WORLDSPACE_LENGTH / 2, c.ROPE_HEIGHT, 0⟩
        OldPosition := ⟨(i : α) * (c.ROPE_WORLDSPACE_LENGTH / ((c.NUM_PARTICLES : α) - 1))
          - c.ROPE_WORLDSPACE_LENGTH / 2, c.ROPE_HEIGHT, 0⟩
        Velocity := ⟨0, 0, 0⟩
        Forces := ⟨0, 0, 0⟩
        Mass := c.PARTICLE_MASS
        Anchored := false } : Particle α) ∧
        (RopeSimulator.ResetRope c r0).Particles[i]? = some p := ⟨_, rfl, hp⟩
    rw [← hpe] at hd hT
    refine ⟨p, Particle.Solve sqrt c p, hp, ?_, ?_⟩
    · show (List.map (Particle.Solve sqrt c) _)[i]? = _
      rw [List.getElem?_map, hp]
      rfl
    · rw [Particle.Solve_free sqrt c p (by rw [hpe])
        (by rw [mul_comm]; exact not_le.mpr hd)]
      show (Particle.tentativePosition c p).y = _ ∧ (Particle.tentativePosition c p).x = _
        ∧ (Particle.tentativePosition c p).z = _
      rw [hT, hpe]
      exact ⟨rfl, rfl, rfl⟩
  · have hp := RopeSimulator.ResetRope_getElem? c r0 i (by omega)
    have hanch : decide (i = 0 ∨ i = c.NUM_PARTICLES - 1) = true := decide_eq_true hi
    rw [hanch] at hp
    obtain ⟨p, hpa, hpy, hp⟩ : ∃ p : Particle α, p.Anchored = true ∧
        p.Position.y = c.ROPE_HEIGHT ∧ (RopeSimulator.ResetRope c r0).Particles[i]? = some p :=
      ⟨_, rfl, rfl, hp⟩
    refine ⟨Particle.Solve sqrt c p, ?_, ?_⟩
    · show (List.map (Particle.Solve sqrt c) _)[i]? = _
      rw [List.getElem?_map, hp]
      rfl
    · rw [Particle.Solve_of_anchored sqrt c p hpa, hpy]

theorem scenario_free {sqrt : α → α} (hs : IsSqrt sqrt) (i : Nat) (h0 : 0 < i)
    (hi : i < (Settings.scenario α).NUM_PARTICLES - 1) :
    1.05 * (Settings.scenario α).BALL_RADIUS < Vec3.Distance sqrt
      ⟨(i : α) * (Settings.scenario α).ROPE_WORLDSPACE_LENGTH
          / (((Settings.scenario α).NUM_PARTICLES : α) - 1)
          - (Settings.scenario α).ROPE_WORLDSPACE_LENGTH / 2,
        (Settings.scenario α).ROPE_HEIGHT + 0 * (1 - (Settings.scenario α).SPRING_D)
          + (Settings.scenario α).GRAVITY / (Settings.scenario α).PARTICLE_MASS
            * (Settings.scenario α).TIME_STEPSIZE ^ 2, 0⟩
      (Ball_Position (Settings.scenario α)) := by
  have hi1 : i = 1 := by
    have : (Settings.scenario α).NUM_PARTICLES = 3 := rfl
    omega
  subst hi1
  apply Vec3.lt_Distance_of_sq hs
  · norm_num [Settings.scenario, Settings.program]
  · simp only [Settings.scenario, Settings.program, Ball_Position, lit_zero, lit_one, lit_two]
    norm_num

theorem lightRope_second_particle {sqrt : α → α} (hs : IsSqrt sqrt) :
    ∃ r1 p1, RopeSimulator.Integrate sqrt (Settings.lightRope α)
        (RopeSimulator.ResetRope (Settings.lightRope α) ⟨[], []⟩) = some r1 ∧
      r1.Particles[1]? = some p1 ∧ p1.Position.y = 1 := by
  have hI := RopeSimulator.Integrate_ResetRope hs (Settings.lightRope α) ⟨[], []⟩
    (by show 1 ≤ 5; omega) (by norm_num [Settings.lightRope, Settings.program])
  have hp := RopeSimulator.ResetRope_getElem? (Settings.lightRope α) ⟨[], []⟩ 1
    (by show 1 < 5; omega)
  have hanch : decide ((1 : ℕ) = 0 ∨ 1 = (Settings.lightRope α).NUM_PARTICLES - 1) = false := by
    apply decide_eq_false
    show ¬ ((1 : ℕ) = 0 ∨ 1 = 5 - 1)
    omega
  rw [hanch] at hp
  have hT := Particle.tentativePosition_reset (Settings.lightRope α)
    (((1 : ℕ) : α) * ((Settings.lightRope α).ROPE_WORLDSPACE_LENGTH
      / (((Settings.lightRope α).NUM_PARTICLES : α) - 1))
      - (Settings.lightRope α).ROPE_WORLDSPACE_LENGTH / 2) false
  obtain ⟨p, hpe, hp⟩ : ∃ p, p = ({
      Position := ⟨((1 : ℕ) : α) * ((Settings.lightRope α).ROPE_WORLDSPACE_LENGTH
          / (((Settings.lightRope α).NUM_PARTICLES : α) - 1))
        - (Settings.lightRope α).ROPE_WORLDSPACE_LENGTH / 2, (Settings.lightRope α).ROPE_HEIGHT, 0⟩
      OldPosition := ⟨((1 : ℕ) : α) * ((Settings.lightRope α).ROPE_WORLDSPACE_LENGTH
          / (((Settings.lightRope α).NUM_PARTICLES : α) - 1))
        - (Settings.lightRope α).ROPE_WORLDSPACE_LENGTH / 2, (Settings.lightRope α).ROPE_HEIGHT, 0⟩
      Velocity := ⟨0, 0, 0⟩
      Forces := ⟨0, 0, 0⟩
      Mass := (Settings.lightRope α).PARTICLE_MASS
      Anchored := false } : Particle α) ∧
      (RopeSimulator.ResetRope (Settings.lightRope α) ⟨[], []⟩).Particles[1]? = some p :=
    ⟨_, rfl, hp⟩
  rw [← hpe] at hT
  have hT2 : p.tentativePosition (Settings.lightRope α) = ⟨-2, 0.5475, 0⟩ := by
    rw [hT]
    simp only [Settings.lightRope, Settings.program]
    ext <;> norm_num
  have hd : (p.tentativePosition (Settings.lightRope α)).Distance sqrt
      (Ball_Position (Settings.lightRope α)) = 0.5475 := by
    rw [hT2]
    apply Vec3.Distance_eq_of_sq hs
    · norm_num
    · simp only [Settings.lightRope, Settings.program, Ball_Position]
      norm_num
  refine ⟨_, Particle.Solve sqrt (Settings.lightRope α) p, hI, ?_, ?_⟩
  · show (List.map (Particle.Solve sqrt (Settings.lightRope α)) _)[1]? = _
    rw [List.getElem?_map, hp]
    rfl
  · rw [Particle.Solve_collide sqrt (Settings.lightRope α) p (by rw [hpe]) (by
      rw [hd]
      norm_num [Settings.lightRope, Settings.program])]
    show (p.tentativePosition (Settings.lightRope α)).y + ((Settings.lightRope α).BALL_RADIUS
      - (p.tentativePosition (Settings.lightRope α)).Distance sqrt
        (Ball_Position (Settings.lightRope α))) = 1
    rw [hd, hT2]
    norm_num [Settings.lightRope, Settings.program]

theorem lightRope_starts_clear {sqrt : α → α} (hs : IsSqrt sqrt) (i : Nat) (p : Particle α)
    (hp : (RopeSimulator.ResetRope (Settings.lightRope α) ⟨[], []⟩).Particles[i]? = some p) :
    p.Velocity = ⟨0, 0, 0⟩ ∧
      (Settings.lightRope α).BALL_RADIUS + 1.05 * (Settings.lightRope α).BALL_RADIUS
        < p.Position.Distance sqrt (Ball_Position (Settings.lightRope α)) := by
  by_cases hi : i < (Settings.lightRope α).NUM_PARTICLES
  · rw [RopeSimulator.ResetRope_getElem? (Settings.lightRope α) ⟨[], []⟩ i hi] at hp
    cases hp
    refine ⟨rfl, ?_⟩
    apply Vec3.lt_Distance_of_sq hs
    · norm_num [Settings.lightRope, Settings.program]
    · simp only [Settings.lightRope, Settings.program, Ball_Position, lit_zero, lit_one, lit_two]
      have h := mul_self_nonneg ((-2 : α) - ((i : α) * (8 / (((5 : ℕ) : α) - 1)) - 8 / 2))
      norm_num at h ⊢
      nlinarith
  · have hnone : (RopeSimulator.ResetRope (Settings.lightRope α) ⟨[], []⟩).Particles[i]? = none := by
      rw [List.getElem?_eq_none_iff, RopeSimulator.ResetRope_length]
      omega
    rw [hnone] at hp
    cases hp

/-- C7, the claim as stated fails: with the settings `Settings.lightRope` over the
reals (five particles of mass 0.01 over a length of 8 at height 3) every particle
of the reset rope has zero velocity and is farther than `1.05 * BALL_RADIUS` from
every point of the ball (farther than `BALL_RADIUS + 1.05 * BALL_RADIUS` from
`Ball_Position`), yet after one `Integrate` the second particle is at `y = 1`, not
at `H + 0 * (1 - SPRING_D) + (GRAVITY / m) * TIME_STEPSIZE ^ 2`: its tentative
position is within `1.05 * BALL_RADIUS` of `Ball_Position`. -/
theorem first_step_after_reset_counterexample :
    3 ≤ (Settings.lightRope ℝ).NUM_PARTICLES ∧
    0 < (Settings.lightRope ℝ).ROPE_WORLDSPACE_LENGTH ∧
    0 < (Settings.lightRope ℝ).PARTICLE_MASS ∧
    (∀ (i : Nat) (p : Particle ℝ),
      (RopeSimulator.ResetRope (Settings.lightRope ℝ) ⟨[], []⟩).Particles[i]? = some p →
      p.Velocity = ⟨0, 0, 0⟩ ∧
        (Settings.lightRope ℝ).BALL_RADIUS + 1.05 * (Settings.lightRope ℝ).BALL_RADIUS
          < p.Position.Distance Real.sqrt (Ball_Position (Settings.lightRope ℝ))) ∧
    ∃ r1 p1, RopeSimulator.Integrate Real.sqrt (Settings.lightRope ℝ)
        (RopeSimulator.ResetRope (Settings.lightRope ℝ) ⟨[], []⟩) = some r1 ∧
      r1.Particles[1]? = some p1 ∧ p1.Position.y = 1 ∧
      p1.Position.y ≠ (Settings.lightRope ℝ).ROPE_HEIGHT + 0 * (1 - (Settings.lightRope ℝ).SPRING_D)
        + (Settings.lightRope ℝ).GRAVITY / (Settings.lightRope ℝ).PARTICLE_MASS
          * (Settings.lightRope ℝ).TIME_STEPSIZE ^ 2 := by
  refine ⟨by decide, by norm_num [Settings.lightRope, Settings.program],
    by norm_num [Settings.lightRope, Settings.program],
    fun i p hp => lightRope_starts_clear Real_isSqrt i p hp, ?_⟩
  obtain ⟨r1, p1, hI, hp1, hy⟩ := lightRope_second_particle Real_isSqrt
  refine ⟨r1, p1, hI, hp1, hy, ?_⟩
  rw [hy]
  norm_num [Settings.lightRope, Settings.program]

/-- C7 (amended), over the reals, on the scenario of the specification: three
particles of mass 1 over a length of 2 at height 0, where the spacing 1, the
positions -1, 0, 1 and the rest length 1 are whole numbers. The middle particle's
tentative position is farther than `1.05 * BALL_RADIUS` from `Ball_Position`, and
it ends at `y = -0.024525`. -/
theorem first_step_after_reset_witness :
    3 ≤ (Settings.scenario ℝ).NUM_PARTICLES ∧
    0 < (Settings.scenario ℝ).ROPE_WORLDSPACE_LENGTH ∧
    0 < (Settings.scenario ℝ).PARTICLE_MASS ∧
    (Settings.scenario ℝ).ROPE_HEIGHT + 0 * (1 - (Settings.scenario ℝ).SPRING_D)
        + (Settings.scenario ℝ).GRAVITY / (Settings.scenario ℝ).PARTICLE_MASS
          * (Settings.scenario ℝ).TIME_STEPSIZE ^ 2 = -0.024525 ∧
    ∃ r1, RopeSimulator.Integrate Real.sqrt (Settings.scenario ℝ)
        (RopeSimulator.ResetRope (Settings.scenario ℝ) ⟨[], []⟩) = some r1 ∧
      (∀ s ∈ (RopeSimulator.ResetRope (Settings.scenario ℝ) ⟨[], []⟩).Springs,
        Spring.Solve Real.sqrt s (RopeSimulator.ResetRope (Settings.scenario ℝ) ⟨[], []⟩).Particles
          = some (RopeSimulator.ResetRope (Settings.scenario ℝ) ⟨[], []⟩).Particles) ∧
      (∀ i : Nat, 0 < i → i < (Settings.scenario ℝ).NUM_PARTICLES - 1 →
        ∃ p p1, (RopeSimulator.ResetRope (Settings.scenario ℝ) ⟨[], []⟩).Particles[i]? = some p ∧
          r1.Particles[i]? = some p1 ∧
          p1.Position.y = (Settings.scenario ℝ).ROPE_HEIGHT
            + 0 * (1 - (Settings.scenario ℝ).SPRING_D)
            + (Settings.scenario ℝ).GRAVITY / (Settings.scenario ℝ).PARTICLE_MASS
              * (Settings.scenario ℝ).TIME_STEPSIZE ^ 2 ∧
          p1.Position.x = p.Position.x ∧ p1.Position.z = p.Position.z) ∧
      (∀ i : Nat, i = 0 ∨ i = (Settings.scenario ℝ).NUM_PARTICLES - 1 →
        ∃ p1, r1.Particles[i]? = some p1 ∧
          p1.Position.y = (Settings.scenario ℝ).ROPE_HEIGHT) :=
  ⟨by decide, by norm_num [Settings.scenario, Settings.program],
    by norm_num [Settings.scenario, Settings.program],
    by norm_num [Settings.scenario, Settings.program],
    first_step_after_reset Real_isSqrt (Settings.scenario ℝ) ⟨[], []⟩ (by decide)
      (by norm_num [Settings.scenario, Settings.program])
      (by norm_num [Settings.scenario, Settings.program])
      (fun i h0 hi => scenario_free Real_isSqrt i h0 hi)⟩

/-! ### What the spring loop adds to each particle -/

@[simp] theorem Vec3.zero_x : (0 : Vec3 α).x = 0 := lit_zero

@[simp] theorem Vec3.zero_y : (0 : Vec3 α).y = 0 := lit_zero

@[simp] theorem Vec3.zero_z : (0 : Vec3 α).z = 0 := lit_zero

theorem Spring.Solve_getElem? (sqrt : α → α) (s : Spring α) (ps ps1 : List (Particle α))
    (h : Spring.Solve sqrt s ps = some ps1) (i : Nat) :
    ps1[i]? = (ps[i]?).map fun p =>
      { p with Forces := p.Forces + s.contribution sqrt ps i } := by
  obtain ⟨p0, p1, h0, h1, rfl⟩ := Spring.Solve_some_inv sqrt s ps ps1 h
  rw [List.getElem?_modify, List.getElem?_modify]
  unfold Spring.contribution
  rw [h0, h1]
  cases ps[i]? with
  | none => rfl
  | some p =>
    by_cases hi0 : s.P0 = i <;> by_cases hi1 : s.P1 = i <;>
      simp only [hi0, hi1, if_true, if_false, Option.map_some', Option.map_eq_map,
        reduceCtorEq, not_false_eq_true, sub_zero, zero_sub, add_zero] <;>
      congr 2 <;> abel

theorem Spring.force_spring_congr (sqrt : α → α) (s t : Spring α) (p0 p1 q0 q1 : Particle α)
    (hK : s.K = t.K) (hL : s.RestLength = t.RestLength) (h0 : p0.Position = q0.Position)
    (h1 : p1.Position = q1.Position) :
    s.force_spring sqrt p0 p1 = t.force_spring sqrt q0 q1 := by
  unfold Spring.force_spring
  rw [hK, hL, h0, h1]

theorem getElem?_of_map_Position_eq (ps qs : List (Particle α))
    (hpos : ps.map Particle.Position = qs.map Particle.Position) (j : Nat) :
    (ps[j]? = none ∧ qs[j]? = none) ∨
      ∃ p q, ps[j]? = some p ∧ qs[j]? = some q ∧ p.Position = q.Position := by
  have h : (ps[j]?).map Particle.Position = (qs[j]?).map Particle.Position := by
    rw [← List.getElem?_map, ← List.getElem?_map, hpos]
  rcases hp : ps[j]? with _ | p <;> rcases hq : qs[j]? with _ | q <;> rw [hp, hq] at h
  · exact Or.inl ⟨rfl, rfl⟩
  · cases h
  · cases h
  · exact Or.inr ⟨p, q, rfl, rfl, Option.some.inj h⟩

theorem Spring.contribution_congr (sqrt : α → α) (s t : Spring α) (ps qs : List (Particle α))
    (hP0 : s.P0 = t.P0) (hP1 : s.P1 = t.P1) (hK : s.K = t.K)
    (hL : s.RestLength = t.RestLength)
    (hpos : ps.map Particle.Position = qs.map Particle.Position) (i : Nat) :
    s.contribution sqrt ps i = t.contribution sqrt qs i := by
  unfold Spring.contribution
  rw [← hP0, ← hP1]
  rcases getElem?_of_map_Position_eq ps qs hpos s.P0 with ⟨hp0, hq0⟩ | ⟨p0, q0, hp0, hq0, g0⟩
  · rw [hp0, hq0]
  · rcases getElem?_of_map_Position_eq ps qs hpos s.P1 with ⟨hp1, hq1⟩ | ⟨p1, q1, hp1, hq1, g1⟩
    · rw [hp0, hq0, hp1, hq1]
    · rw [hp0, hq0, hp1, hq1]
      simp only [Spring.force_spring_congr sqrt s t p0 p1 q0 q1 hK hL g0 g1]

theorem positions_of_frame (ps ps1 : List (Particle α))
    (h : ps1.map Particle.frame = ps.map Particle.frame) :
    ps1.map Particle.Position = ps.map Particle.Position := by
  have h1 := congrArg (List.map Prod.fst) h
  simpa [List.map_map, Function.comp_def, Particle.frame] using h1

theorem springs_getElem? (sqrt : α → α) (ss : List (Spring α)) :
    ∀ (ps ps1 : List (Particle α)),
      ss.foldlM (fun ps s => Spring.Solve sqrt s ps) ps = some ps1 →
      ∀ i : Nat, ps1[i]? = (ps[i]?).map fun p =>
        { p with Forces := p.Forces + (ss.map fun s => s.contribution sqrt ps i).sum } := by
  induction ss with
  | nil =>
    intro ps ps1 h i
    simp only [List.foldlM_nil] at h
    cases h
    cases ps[i]? with
    | none => rfl
    | some p => simp
  | cons s ss ih =>
    intro ps ps1 h i
    rw [List.foldlM_cons] at h
    rcases hs : Spring.Solve sqrt s ps with _ | ps2
    · rw [hs] at h
      cases h
    · rw [hs] at h
      rw [ih ps2 ps1 h i, Spring.Solve_getElem? sqrt s ps ps2 hs i]
      have hpos := positions_of_frame ps ps2 (Spring.Solve_frame sqrt s ps ps2 hs)
      have hc : (ss.map fun t => t.contribution sqrt ps2 i)
          = ss.map fun t => t.contribution sqrt ps i :=
        List.map_congr_left fun t _ =>
          Spring.contribution_congr sqrt t t ps2 ps rfl rfl rfl rfl hpos i
      rw [hc]
      cases ps[i]? with
      | none => rfl
      | some p =>
        simp only [Option.map_some', List.map_cons, List.sum_cons, add_assoc]

/-! ### Rest lengths after a reset -/

theorem RopeSimulator.ResetRope_spacing {sqrt : α → α} (hs : IsSqrt sqrt) (c : Settings α)
    (i : Nat) (hinc : 0 ≤ c.ROPE_WORLDSPACE_LENGTH / ((c.NUM_PARTICLES : α) - 1)) :
    Vec3.Magnitude sqrt
      ((⟨((i + 1 : ℕ) : α) * (c.ROPE_WORLDSPACE_LENGTH / ((c.NUM_PARTICLES : α) - 1))
          - c.ROPE_WORLDSPACE_LENGTH / 2, c.ROPE_HEIGHT, 0⟩ : Vec3 α)
        - ⟨(i : α) * (c.ROPE_WORLDSPACE_LENGTH / ((c.NUM_PARTICLES : α) - 1))
          - c.ROPE_WORLDSPACE_LENGTH / 2, c.ROPE_HEIGHT, 0⟩)
      = c.ROPE_WORLDSPACE_LENGTH / ((c.NUM_PARTICLES : α) - 1) := by
  show sqrt _ = c.ROPE_WORLDSPACE_LENGTH / ((c.NUM_PARTICLES : α) - 1)
  convert hs.sqrt_mul_self hinc using 2
  simp only [Vec3.sub_def]
  push_cast
  ring

/-- C11. With `N = NUM_PARTICLES ≥ 2` and `L = ROPE_WORLDSPACE_LENGTH > 0`, after
`ResetRope` every spring `i` has `RestLength = L / (N - 1) > 0`, which is the
distance `Magnitude (Particles[i+1].Position - Particles[i].Position)` between the
reset positions of the two particles it points to, and has `K = SPRING_K` and
`D = SPRING_D`. -/
theorem reset_rest_length {sqrt : α → α} (hs : IsSqrt sqrt) (c : Settings α)
    (r0 : RopeSimulator α) (hN : 2 ≤ c.NUM_PARTICLES) (hL : 0 < c.ROPE_WORLDSPACE_LENGTH)
    (i : Nat) (hi : i < c.NUM_PARTICLES - 1) :
    ∃ s p0 p1, (RopeSimulator.ResetRope c r0).Springs[i]? = some s ∧
      (RopeSimulator.ResetRope c r0).Particles[s.P0]? = some p0 ∧
      (RopeSimulator.ResetRope c r0).Particles[s.P1]? = some p1 ∧
      s.P0 = i ∧ s.P1 = i + 1 ∧ 0 < s.RestLength ∧
      s.RestLength = (p1.Position - p0.Position).Magnitude sqrt ∧
      (p1.Position - p0.Position).Magnitude sqrt
        = c.ROPE_WORLDSPACE_LENGTH / ((c.NUM_PARTICLES : α) - 1) ∧
      s.K = c.SPRING_K ∧ s.D = c.SPRING_D := by
  have hpos : 0 < c.ROPE_WORLDSPACE_LENGTH / ((c.NUM_PARTICLES : α) - 1) := by
    apply div_pos hL
    have h2 : (2 : α) ≤ (c.NUM_PARTICLES : α) := by exact_mod_cast hN
    linarith
  have hmag := RopeSimulator.ResetRope_spacing hs c i hpos.le
  refine ⟨(⟨i, i + 1, c.SPRING_K, c.SPRING_D,
      c.ROPE_WORLDSPACE_LENGTH / ((c.NUM_PARTICLES : α) - 1)⟩ : Spring α), _, _, ?_,
    RopeSimulator.ResetRope_getElem? c r0 i (by omega),
    RopeSimulator.ResetRope_getElem? c r0 (i + 1) (by omega), rfl, rfl, hpos, hmag.symm,
    hmag, rfl, rfl⟩
  rw [RopeSimulator.ResetRope_Springs, List.getElem?_map, List.getElem?_range hi]
  rfl

/-- C11, at the program's settings over the reals, for the spring in the middle of
the rope. -/
theorem reset_rest_length_witness :
    ∃ s p0 p1, (RopeSimulator.ResetRope (Settings.program ℝ) ⟨[], []⟩).Springs[24]? = some s ∧
      (RopeSimulator.ResetRope (Settings.program ℝ) ⟨[], []⟩).Particles[s.P0]? = some p0 ∧
      (RopeSimulator.ResetRope (Settings.program ℝ) ⟨[], []⟩).Particles[s.P1]? = some p1 ∧
      s.P0 = 24 ∧ s.P1 = 24 + 1 ∧ 0 < s.RestLength ∧
      s.RestLength = (p1.Position - p0.Position).Magnitude Real.sqrt ∧
      (p1.Position - p0.Position).Magnitude Real.sqrt
        = (Settings.program ℝ).ROPE_WORLDSPACE_LENGTH
          / (((Settings.program ℝ).NUM_PARTICLES : ℝ) - 1) ∧
      s.K = (Settings.program ℝ).SPRING_K ∧ s.D = (Settings.program ℝ).SPRING_D :=
  reset_rest_length Real_isSqrt (Settings.program ℝ) ⟨[], []⟩ (by decide)
    (by norm_num [Settings.program]) 24 (by decide)

/-- C12. For a non-anchored particle of non-zero mass with `Position = p`,
`OldPosition = q` and `Forces = F`, `Particle::Solve` leaves
`Forces = F + FORCE_GRAVITY` and `OldPosition = p` whether or not the particle
collides; the velocity it computes before the collision test is
`(p - q) * (1 - SPRING_D) + ((F + FORCE_GRAVITY) / m) * TIME_STEPSIZE ^ 2`, of which
a collision only replaces the `y` component; and when the tentative position
`p + Velocity` is farther than `1.05 * BALL_RADIUS` from `Ball_Position`, the call
leaves that velocity in `Velocity` and `Position = p + Velocity`, so that
`Position - OldPosition = Velocity`. -/
theorem integration_rule (sqrt : α → α) (c : Settings α) (p : Particle α)
    (ha : p.Anchored = false) (hm : p.Mass ≠ 0) :
    (Particle.Solve sqrt c p).Forces = p.Forces + FORCE_GRAVITY c ∧
    (Particle.Solve sqrt c p).OldPosition = p.Position ∧
    p.tentativeVelocity c = (p.Position - p.OldPosition) * (1 - c.SPRING_D)
      + ((p.Forces + FORCE_GRAVITY c) / p.Mass) * (c.TIME_STEPSIZE ^ 2) ∧
    (Particle.Solve sqrt c p).Velocity.x = (p.tentativeVelocity c).x ∧
    (Particle.Solve sqrt c p).Velocity.z = (p.tentativeVelocity c).z ∧
    (1.05 * c.BALL_RADIUS < (p.Position + p.tentativeVelocity c).Distance sqrt (Ball_Position c) →
      (Particle.Solve sqrt c p).Velocity = p.tentativeVelocity c ∧
      (Particle.Solve sqrt c p).Position = p.Position + (Particle.Solve sqrt c p).Velocity ∧
      (Particle.Solve sqrt c p).Position - (Particle.Solve sqrt c p).OldPosition
        = (Particle.Solve sqrt c p).Velocity) := by
  have hV : p.tentativeVelocity c = (p.Position - p.OldPosition) * (1 - c.SPRING_D)
      + ((p.Forces + FORCE_GRAVITY c) / p.Mass) * (c.TIME_STEPSIZE ^ 2) := by
    unfold Particle.tentativeVelocity
    ext <;> simp <;> ring
  by_cases hd : (p.tentativePosition c).Distance sqrt (Ball_Position c) ≤ c.BALL_RADIUS * 1.05
  · rw [Particle.Solve_collide sqrt c p ha hd]
    refine ⟨rfl, rfl, hV, rfl, rfl, fun hfree => ?_⟩
    rw [mul_comm] at hd
    exact absurd hd (not_le.mpr hfree)
  · rw [Particle.Solve_free sqrt c p ha hd]
    refine ⟨rfl, rfl, hV, rfl, rfl, fun _ => ⟨rfl, rfl, ?_⟩⟩
    show p.Position + p.tentativeVelocity c - p.Position = p.tentativeVelocity c
    abel

/-- C12, at the program's settings over the reals, for a particle at rest at
(0, 4, 0). -/
theorem integration_rule_witness :
    (Particle.Solve Real.sqrt (Settings.program ℝ)
        (Particle.ctor (⟨0, 4, 0⟩ : Vec3 ℝ) 1 false)).Forces
      = (Particle.ctor (⟨0, 4, 0⟩ : Vec3 ℝ) 1 false).Forces + FORCE_GRAVITY (Settings.program ℝ) ∧
    (Particle.Solve Real.sqrt (Settings.program ℝ)
        (Particle.ctor (⟨0, 4, 0⟩ : Vec3 ℝ) 1 false)).OldPosition = ⟨0, 4, 0⟩ ∧
    (Particle.Solve Real.sqrt (Settings.program ℝ)
        (Particle.ctor (⟨0, 4, 0⟩ : Vec3 ℝ) 1 false)).Velocity
      = (Particle.ctor (⟨0, 4, 0⟩ : Vec3 ℝ) 1 false).tentativeVelocity (Settings.program ℝ) ∧
    (Particle.Solve Real.sqrt (Settings.program ℝ)
        (Particle.ctor (⟨0, 4, 0⟩ : Vec3 ℝ) 1 false)).Position
      = ⟨0, 4, 0⟩ + (Particle.Solve Real.sqrt (Settings.program ℝ)
        (Particle.ctor (⟨0, 4, 0⟩ : Vec3 ℝ) 1 false)).Velocity ∧
    (Particle.Solve Real.sqrt (Settings.program ℝ)
        (Particle.ctor (⟨0, 4, 0⟩ : Vec3 ℝ) 1 false)).Position
      - (Particle.Solve Real.sqrt (Settings.program ℝ)
        (Particle.ctor (⟨0, 4, 0⟩ : Vec3 ℝ) 1 false)).OldPosition
      = (Particle.Solve Real.sqrt (Settings.program ℝ)
        (Particle.ctor (⟨0, 4, 0⟩ : Vec3 ℝ) 1 false)).Velocity :=
  have h := integration_rule Real.sqrt (Settings.program ℝ)
    (Particle.ctor (⟨0, 4, 0⟩ : Vec3 ℝ) 1 false) rfl (by simp [Particle.ctor])
  ⟨h.1, h.2.1, (h.2.2.2.2.2 (resetParticle_free Real_isSqrt)).1,
    (h.2.2.2.2.2 (resetParticle_free Real_isSqrt)).2.1,
    (h.2.2.2.2.2 (resetParticle_free Real_isSqrt)).2.2⟩

/-! ### The spring force -/

theorem Vec3.Magnitude_pos {sqrt : α → α} (hs : IsSqrt sqrt) (v : Vec3 α)
    (hv : v ≠ ⟨0, 0, 0⟩) : 0 < v.Magnitude sqrt := by
  have h0 := Vec3.Magnitude_nonneg hs v
  have h1 := Vec3.Magnitude_mul_self hs v
  rcases lt_or_eq_of_le h0 with h | h
  · exact h
  · exfalso
    rw [← h] at h1
    have hsum : v.x * v.x + v.y * v.y + v.z * v.z = 0 := by linarith
    have hx : v.x * v.x = 0 := by
      linarith [mul_self_nonneg v.x, mul_self_nonneg v.y, mul_self_nonneg v.z]
    have hy : v.y * v.y = 0 := by
      linarith [mul_self_nonneg v.x, mul_self_nonneg v.y, mul_self_nonneg v.z]
    have hz : v.z * v.z = 0 := by
      linarith [mul_self_nonneg v.x, mul_self_nonneg v.y, mul_self_nonneg v.z]
    exact hv (Vec3.ext (mul_self_eq_zero.mp hx) (mul_self_eq_zero.mp hy)
      (mul_self_eq_zero.mp hz))

theorem Vec3.sub_ne_zero_of_ne (a b : Vec3 α) (h : a ≠ b) : b - a ≠ ⟨0, 0, 0⟩ := by
  intro h0
  apply h
  have hx : b.x - a.x = 0 := congrArg Vec3.x h0
  have hy : b.y - a.y = 0 := congrArg Vec3.y h0
  have hz : b.z - a.z = 0 := congrArg Vec3.z h0
  exact Vec3.ext (by linarith) (by linarith) (by linarith)

theorem Spring.force_spring_half_eq (sqrt : α → α) (s : Spring α) (p0 p1 : Particle α) :
    s.force_spring sqrt p0 p1 * (0.5 : α) = (p1.Position - p0.Position)
      * (s.K * ((p1.Position - p0.Position).Magnitude sqrt - s.RestLength)
        / (p1.Position - p0.Position).Magnitude sqrt * (0.5 : α)) := by
  unfold Spring.force_spring Vec3.Normalized
  ext <;> simp only [Vec3.mul_def, Vec3.sub_def] <;> ring

/-- C14. For a spring whose two pointers refer to particles at different
positions, with `delta = P1.Position - P0.Position`: `Magnitude delta > 0`, the
pointers are different, `Spring::Solve` returns, adds
`normalize(delta) * K * (Magnitude delta - RestLength) * 0.5` to `P0.Forces` and
subtracts the same vector from `P1.Forces`; it keeps `Position`, `OldPosition`,
`Velocity`, `Mass` and `Anchored` of both particles, every other particle and the
length of the vector. With `K > 0` the vector added to `P0.Forces` is a positive
multiple of `delta` when the spring is stretched and the opposite of one when it
is compressed. -/
theorem spring_force_law {sqrt : α → α} (hs : IsSqrt sqrt) (s : Spring α)
    (ps : List (Particle α)) (p0 p1 : Particle α) (h0 : ps[s.P0]? = some p0)
    (h1 : ps[s.P1]? = some p1) (hne : p0.Position ≠ p1.Position) :
    0 < (p1.Position - p0.Position).Magnitude sqrt ∧ s.P0 ≠ s.P1 ∧
    (∃ ps1 q0 q1, Spring.Solve sqrt s ps = some ps1 ∧ ps1[s.P0]? = some q0 ∧
      ps1[s.P1]? = some q1 ∧
      q0.Forces = p0.Forces + (p1.Position - p0.Position).Normalized sqrt * s.K
        * ((p1.Position - p0.Position).Magnitude sqrt - s.RestLength) * (0.5 : α) ∧
      q1.Forces = p1.Forces - (p1.Position - p0.Position).Normalized sqrt * s.K
        * ((p1.Position - p0.Position).Magnitude sqrt - s.RestLength) * (0.5 : α) ∧
      (q0.Position = p0.Position ∧ q0.OldPosition = p0.OldPosition ∧
        q0.Velocity = p0.Velocity ∧ q0.Mass = p0.Mass ∧ q0.Anchored = p0.Anchored) ∧
      (q1.Position = p1.Position ∧ q1.OldPosition = p1.OldPosition ∧
        q1.Velocity = p1.Velocity ∧ q1.Mass = p1.Mass ∧ q1.Anchored = p1.Anchored) ∧
      (∀ i : Nat, i ≠ s.P0 → i ≠ s.P1 → ps1[i]? = ps[i]?) ∧ ps1.length = ps.length) ∧
    (0 < s.K → s.RestLength < (p1.Position - p0.Position).Magnitude sqrt →
      ∃ k : α, 0 < k ∧ s.force_spring sqrt p0 p1 * (0.5 : α)
        = (p1.Position - p0.Position) * k) ∧
    (0 < s.K → (p1.Position - p0.Position).Magnitude sqrt < s.RestLength →
      ∃ k : α, 0 < k ∧ s.force_spring sqrt p0 p1 * (0.5 : α)
        = -((p1.Position - p0.Position) * k)) := by
  have hmag := Vec3.Magnitude_pos hs _ (Vec3.sub_ne_zero_of_ne _ _ hne)
  have hidx : s.P0 ≠ s.P1 := by
    intro h
    rw [h, h1] at h0
    exact hne (congrArg Particle.Position (Option.some.inj h0)).symm
  refine ⟨hmag, hidx, ⟨_,
    { p0 with Forces := p0.Forces + s.force_spring sqrt p0 p1 * (0.5 : α) },
    { p1 with Forces := p1.Forces - s.force_spring sqrt p0 p1 * (0.5 : α) },
    Spring.Solve_eq_some sqrt s ps p0 p1 h0 h1, ?_, ?_, rfl, rfl,
    ⟨rfl, rfl, rfl, rfl, rfl⟩, ⟨rfl, rfl, rfl, rfl, rfl⟩, ?_, ?_⟩, ?_, ?_⟩
  · rw [List.getElem?_modify_ne _ _ (Ne.symm hidx), List.getElem?_modify_eq, h0]
    rfl
  · rw [List.getElem?_modify_eq, List.getElem?_modify_ne _ _ hidx, h1]
    rfl
  · intro i hi0 hi1
    rw [List.getElem?_modify_ne _ _ (Ne.symm hi1), List.getElem?_modify_ne _ _ (Ne.symm hi0)]
  · rw [List.length_modify, List.length_modify]
  · intro hK hX
    refine ⟨_, ?_, Spring.force_spring_half_eq sqrt s p0 p1⟩
    have hX0 : 0 < (p1.Position - p0.Position).Magnitude sqrt - s.RestLength := by linarith
    have h5 : (0 : α) < 0.5 := by norm_num
    positivity
  · intro hK hX
    refine ⟨s.K * (s.RestLength - (p1.Position - p0.Position).Magnitude sqrt)
      / (p1.Position - p0.Position).Magnitude sqrt * (0.5 : α), ?_, ?_⟩
    · have hX0 : 0 < s.RestLength - (p1.Position - p0.Position).Magnitude sqrt := by linarith
      have h5 : (0 : α) < 0.5 := by norm_num
      positivity
    · rw [Spring.force_spring_half_eq sqrt s p0 p1]
      ext <;> simp only [Vec3.mul_def, Vec3.sub_def, Vec3.neg_def] <;> ring

theorem magnitude_3_4_0 {sqrt : α → α} (hs : IsSqrt sqrt) :
    ((Particle.ctor (⟨3, 4, 0⟩ : Vec3 α) 1 false).Position
      - (Particle.ctor (⟨0, 0, 0⟩ : Vec3 α) 1 false).Position).Magnitude sqrt = 5 := by
  show sqrt _ = 5
  simp only [Particle.ctor, Vec3.sub_def]
  rw [show ((3 : α) - 0) * (3 - 0) + (4 - 0) * (4 - 0) + (0 - 0) * (0 - 0) = 5 * 5
    by norm_num]
  exact hs.sqrt_mul_self (by norm_num)

/-- C14, over the reals: a spring of rest length 2 and stiffness 650 between
particles at (0, 0, 0) and (3, 4, 0), which is stretched. -/
theorem spring_force_law_witness :
    0 < ((Particle.ctor (⟨3, 4, 0⟩ : Vec3 ℝ) 1 false).Position
      - (Particle.ctor (⟨0, 0, 0⟩ : Vec3 ℝ) 1 false).Position).Magnitude Real.sqrt ∧
    (∃ ps1, Spring.Solve Real.sqrt (⟨0, 1, 650, 0.045, 2⟩ : Spring ℝ)
      [Particle.ctor ⟨0, 0, 0⟩ 1 false, Particle.ctor ⟨3, 4, 0⟩ 1 false] = some ps1 ∧
      ps1.length = 2) ∧
    ∃ k : ℝ, 0 < k ∧
      Spring.force_spring Real.sqrt (⟨0, 1, 650, 0.045, 2⟩ : Spring ℝ)
        (Particle.ctor ⟨0, 0, 0⟩ 1 false) (Particle.ctor ⟨3, 4, 0⟩ 1 false) * (0.5 : ℝ)
      = ((Particle.ctor (⟨3, 4, 0⟩ : Vec3 ℝ) 1 false).Position
        - (Particle.ctor (⟨0, 0, 0⟩ : Vec3 ℝ) 1 false).Position) * k :=
  have h := spring_force_law Real_isSqrt (⟨0, 1, 650, 0.045, 2⟩ : Spring ℝ)
    [Particle.ctor ⟨0, 0, 0⟩ 1 false, Particle.ctor ⟨3, 4, 0⟩ 1 false]
    (Particle.ctor ⟨0, 0, 0⟩ 1 false) (Particle.ctor ⟨3, 4, 0⟩ 1 false) rfl rfl (by
      intro h
      have hx := congrArg Vec3.x h
      simp [Particle.ctor] at hx)
  ⟨h.1, (let ⟨ps1, _, _, hsolve, _, _, _, _, _, _, _, hlen⟩ := h.2.2.1; ⟨ps1, hsolve, hlen⟩),
    h.2.2.2.1 (by norm_num) (by
      rw [magnitude_3_4_0 Real_isSqrt]
      norm_num)⟩

/-! ### Normalisation -/

/-- C19. For a vector `v` of non-zero magnitude: `v.Normalized()` has magnitude 1,
the factor `1 / Magnitude v` is positive, `v.Normalized()` is `v` scaled by that
factor, and the in-place `v.Normalize()` leaves `v` equal to what
`v.Normalized()` returns. -/
theorem normalized_is_unit {sqrt : α → α} (hs : IsSqrt sqrt) (v : Vec3 α)
    (hv : v.Magnitude sqrt ≠ 0) :
    (v.Normalized sqrt).Magnitude sqrt = 1 ∧ 0 < 1 / v.Magnitude sqrt ∧
      v.Normalized sqrt = v * (1 / v.Magnitude sqrt) ∧
      v.Normalize sqrt = v.Normalized sqrt := by
  have h0 := Vec3.Magnitude_nonneg hs v
  have h1 := Vec3.Magnitude_mul_self hs v
  have hpos : 0 < v.Magnitude sqrt := lt_of_le_of_ne h0 (Ne.symm hv)
  refine ⟨?_, by positivity, ?_, rfl⟩
  · show sqrt _ = 1
    have hsum : (v.Normalized sqrt).x * (v.Normalized sqrt).x
        + (v.Normalized sqrt).y * (v.Normalized sqrt).y
        + (v.Normalized sqrt).z * (v.Normalized sqrt).z = 1 * 1 := by
      show v.x / v.Magnitude sqrt * (v.x / v.Magnitude sqrt)
        + v.y / v.Magnitude sqrt * (v.y / v.Magnitude sqrt)
        + v.z / v.Magnitude sqrt * (v.z / v.Magnitude sqrt) = 1 * 1
      field_simp
      linarith
    rw [hsum]
    exact hs.sqrt_mul_self (by norm_num)
  · unfold Vec3.Normalized
    ext <;> simp only [Vec3.mul_def] <;> ring

/-- C19, over the reals, for the vector (3, 4, 0) of magnitude 5. -/
theorem normalized_is_unit_witness :
    ((⟨3, 4, 0⟩ : Vec3 ℝ).Normalized Real.sqrt).Magnitude Real.sqrt = 1 ∧
      0 < 1 / (⟨3, 4, 0⟩ : Vec3 ℝ).Magnitude Real.sqrt ∧
      (⟨3, 4, 0⟩ : Vec3 ℝ).Normalized Real.sqrt
        = (⟨3, 4, 0⟩ : Vec3 ℝ) * (1 / (⟨3, 4, 0⟩ : Vec3 ℝ).Magnitude Real.sqrt) ∧
      (⟨3, 4, 0⟩ : Vec3 ℝ).Normalize Real.sqrt = (⟨3, 4, 0⟩ : Vec3 ℝ).Normalized Real.sqrt :=
  normalized_is_unit Real_isSqrt ⟨3, 4, 0⟩ (by
    have h : (⟨3, 4, 0⟩ : Vec3 ℝ).Magnitude Real.sqrt = 5 := by
      show Real.sqrt _ = 5
      rw [show ((3 : ℝ) * 3 + 4 * 4 + 0 * 0) = 5 * 5 by norm_num]
      exact Real.sqrt_mul_self (by norm_num)
    rw [h]
    norm_num)

/-! ### Who is anchored -/

/-- C20. `Particle(pos, mass, anchored)` has `Position = OldPosition = pos`, zero
`Velocity` and `Forces`, `Mass = mass` and `Anchored = false` whatever `anchored`
is; neither `Spring::Solve` nor `Particle::Solve` changes an `Anchored` flag; and
after `ResetRope` a particle is anchored exactly when it is the first or the last,
the two that `ResetRope` assigns `Anchored = true`. -/
theorem ctor_ignores_anchored (sqrt : α → α) (c : Settings α) (pos : Vec3 α) (mass : α)
    (anchored : Bool) (r0 : RopeSimulator α) (i : Nat) (p : Particle α)
    (hp : (RopeSimulator.ResetRope c r0).Particles[i]? = some p) :
    (Particle.ctor pos mass anchored).Position = pos ∧
    (Particle.ctor pos mass anchored).OldPosition = pos ∧
    (Particle.ctor pos mass anchored).Velocity = ⟨0, 0, 0⟩ ∧
    (Particle.ctor pos mass anchored).Forces = ⟨0, 0, 0⟩ ∧
    (Particle.ctor pos mass anchored).Mass = mass ∧
    (Particle.ctor pos mass anchored).Anchored = false ∧
    (∀ q : Particle α, (Particle.Solve sqrt c q).Anchored = q.Anchored) ∧
    (∀ (s : Spring α) (ps ps1 : List (Particle α)), Spring.Solve sqrt s ps = some ps1 →
      ps1.map Particle.Anchored = ps.map Particle.Anchored) ∧
    (p.Anchored = true ↔ (i = 0 ∨ i = c.NUM_PARTICLES - 1)) := by
  refine ⟨rfl, rfl, ?_, ?_, rfl, rfl, Particle.Solve_Anchored sqrt c, ?_, ?_⟩
  · simp [Particle.ctor]
  · simp [Particle.ctor]
  · intro s ps ps1 h
    have hf := congrArg (List.map fun f => f.2.2.2.2) (Spring.Solve_frame sqrt s ps ps1 h)
    simpa [List.map_map, Function.comp_def, Particle.frame] using hf
  · have hi : i < c.NUM_PARTICLES := by
      rw [← RopeSimulator.ResetRope_length c r0]
      exact (List.getElem?_eq_some_iff.mp hp).1
    rw [RopeSimulator.ResetRope_getElem? c r0 i hi] at hp
    cases hp
    simp

/-- C20, at the program's settings over the reals: a particle constructed with
`anchored = true`, and the last particle of the reset rope. -/
theorem ctor_ignores_anchored_witness :
    (Particle.ctor (⟨1, 2, 3⟩ : Vec3 ℝ) 1 true).Anchored = false ∧
    ∃ p, (RopeSimulator.ResetRope (Settings.program ℝ) ⟨[], []⟩).Particles[49]? = some p ∧
      (p.Anchored = true ↔ (49 = 0 ∨ 49 = (Settings.program ℝ).NUM_PARTICLES - 1)) :=
  ⟨rfl, _, RopeSimulator.ResetRope_getElem? (Settings.program ℝ) ⟨[], []⟩ 49 (by decide),
    (ctor_ignores_anchored Real.sqrt (Settings.program ℝ) ⟨1, 2, 3⟩ 1 true ⟨[], []⟩ 49 _
      (RopeSimulator.ResetRope_getElem? (Settings.program ℝ) ⟨[], []⟩ 49 (by decide))).2.2.2.2.2.2.2.2⟩

/-! ### The total force -/

theorem Spring.Solve_eq_none_iff (sqrt : α → α) (s : Spring α) (ps : List (Particle α)) :
    Spring.Solve sqrt s ps = none ↔ ¬ (s.P0 < ps.length ∧ s.P1 < ps.length) := by
  constructor
  · intro h hlt
    obtain ⟨ps1, h1⟩ := Spring.Solve_isSome sqrt s ps hlt.1 hlt.2
    rw [h] at h1
    cases h1
  · intro h
    rcases hs : Spring.Solve sqrt s ps with _ | ps1
    · rfl
    · exfalso
      obtain ⟨p0, p1, h0, h1, -⟩ := Spring.Solve_some_inv sqrt s ps ps1 hs
      exact h ⟨(List.getElem?_eq_some_iff.mp h0).1, (List.getElem?_eq_some_iff.mp h1).1⟩

theorem Spring.Solve_length (sqrt : α → α) (s : Spring α) (ps ps1 : List (Particle α))
    (h : Spring.Solve sqrt s ps = some ps1) : ps1.length = ps.length := by
  simpa using congrArg List.length (Spring.Solve_frame sqrt s ps ps1 h)

theorem Spring.Solve_comm (sqrt : α → α) (s t : Spring α) (ps : List (Particle α)) :
    (Spring.Solve sqrt s ps).bind (Spring.Solve sqrt t)
      = (Spring.Solve sqrt t ps).bind (Spring.Solve sqrt s) := by
  rcases hs : Spring.Solve sqrt s ps with _ | ps1 <;>
    rcases ht : Spring.Solve sqrt t ps with _ | ps2
  · rfl
  · simp only [Option.none_bind, Option.some_bind]
    symm
    rw [Spring.Solve_eq_none_iff, Spring.Solve_length sqrt t ps ps2 ht,
      ← Spring.Solve_eq_none_iff sqrt s ps]
    exact hs
  · simp only [Option.none_bind, Option.some_bind]
    rw [Spring.Solve_eq_none_iff, Spring.Solve_length sqrt s ps ps1 hs,
      ← Spring.Solve_eq_none_iff sqrt t ps]
    exact ht
  · simp only [Option.some_bind]
    have hpos1 := positions_of_frame ps ps1 (Spring.Solve_frame sqrt s ps ps1 hs)
    have hpos2 := positions_of_frame ps ps2 (Spring.Solve_frame sqrt t ps ps2 ht)
    rcases h3 : Spring.Solve sqrt t ps1 with _ | ps3
    · exfalso
      rw [Spring.Solve_eq_none_iff, Spring.Solve_length sqrt s ps ps1 hs,
        ← Spring.Solve_eq_none_iff sqrt t ps, ht] at h3
      cases h3
    rcases h4 : Spring.Solve sqrt s ps2 with _ | ps4
    · exfalso
      rw [Spring.Solve_eq_none_iff, Spring.Solve_length sqrt t ps ps2 ht,
        ← Spring.Solve_eq_none_iff sqrt s ps, hs] at h4
      cases h4
    congr 1
    apply List.ext_getElem?
    intro i
    rw [Spring.Solve_getElem? sqrt t ps1 ps3 h3 i, Spring.Solve_getElem? sqrt s ps ps1 hs i,
      Spring.Solve_getElem? sqrt s ps2 ps4 h4 i, Spring.Solve_getElem? sqrt t ps ps2 ht i,
      Spring.contribution_congr sqrt t t ps1 ps rfl rfl rfl rfl hpos1 i,
      Spring.contribution_congr sqrt s s ps2 ps rfl rfl rfl rfl hpos2 i]
    cases ps[i]? with
    | none => rfl
    | some p =>
      simp only [Option.map_some', add_right_comm]

theorem foldlM_eq_foldl_bind {β γ : Type} (f : β → γ → Option β) (l : List γ) :
    ∀ o : Option β, o.bind (fun b => l.foldlM f b)
      = l.foldl (fun acc x => acc.bind fun b => f b x) o := by
  induction l with
  | nil =>
    intro o
    cases o <;> rfl
  | cons x l ih =>
    intro o
    rw [List.foldl_cons, ← ih]
    cases o with
    | none => rfl
    | some b =>
      simp only [Option.some_bind, List.foldlM_cons]
      rfl

theorem springs_perm (sqrt : α → α) (ss tt : List (Spring α)) (hperm : ss.Perm tt)
    (ps : List (Particle α)) :
    ss.foldlM (fun ps s => Spring.Solve sqrt s ps) ps
      = tt.foldlM (fun ps s => Spring.Solve sqrt s ps) ps := by
  have h1 := foldlM_eq_foldl_bind (fun ps s => Spring.Solve sqrt s ps) ss (some ps)
  have h2 := foldlM_eq_foldl_bind (fun ps s => Spring.Solve sqrt s ps) tt (some ps)
  simp only [Option.some_bind] at h1 h2
  rw [h1, h2]
  apply List.Perm.foldl_eq' hperm
  intro s _ t _ o
  cases o with
  | none => rfl
  | some qs => exact Spring.Solve_comm sqrt s t qs

theorem particles_in_order {β : Type} (f : β → β) (ps : List β) :
    ∀ n : Nat, ∀ i : Nat,
      ((List.range n).foldl (fun ps i => ps.modify f i) ps)[i]?
        = (ps[i]?).map fun b => if i < n then f b else b := by
  intro n
  induction n with
  | zero =>
    intro i
    simp only [List.range_zero, List.foldl_nil, Nat.not_lt_zero, if_false]
    cases ps[i]? <;> rfl
  | succ n ih =>
    intro i
    rw [List.range_succ, List.foldl_append, List.foldl_cons, List.foldl_nil,
      List.getElem?_modify, ih i]
    cases ps[i]? with
    | none => rfl
    | some b =>
      by_cases hni : n = i
      · subst hni
        simp
      · have hlt : i < n + 1 ↔ i < n := by omega
        simp [hni, hlt]

theorem particles_any_order {β : Type} (f : β → β) (ps : List β) (order : List Nat)
    (hperm : order.Perm (List.range ps.length)) :
    order.foldl (fun ps i => ps.modify f i) ps = ps.map f := by
  rw [List.Perm.foldl_eq' hperm (fun i _ j _ qs => by
    by_cases hij : i = j
    · rw [hij]
    · exact List.modify_modify_ne f f qs hij) ps]
  apply List.ext_getElem?
  intro i
  rw [particles_in_order f ps ps.length i, List.getElem?_map]
  rcases hp : ps[i]? with _ | b
  · rfl
  · have hi : i < ps.length := (List.getElem?_eq_some_iff.mp hp).1
    simp [hi]

theorem RopeSimulator.SolveInOrder_eq (sqrt : α → α) (c : Settings α) (r : RopeSimulator α)
    (ss : List (Spring α)) (order : List Nat) (hss : ss.Perm r.Springs)
    (hord : order.Perm (List.range r.Particles.length)) :
    RopeSimulator.SolveInOrder sqrt c ss order r = RopeSimulator.Solve sqrt c r := by
  unfold RopeSimulator.SolveInOrder RopeSimulator.Solve
  rw [springs_perm sqrt ss r.Springs hss]
  rcases h : r.Springs.foldlM (fun ps s => Spring.Solve sqrt s ps) r.Particles with _ | ps1
  · rfl
  · have hlen : ps1.length = r.Particles.length := by
      simpa using congrArg List.length (springs_frame sqrt _ _ _ h)
    rw [← hlen] at hord
    simp only [Option.map_some', particles_any_order (Particle.Solve sqrt c) ps1 order hord]

/-- C16. In exact arithmetic `Spring::Solve` on two springs, whatever particles
they point to, gives the same result in either order (also when one of the calls
fails); `Particle::Solve` run in place on two different particles gives the same
vector in either order; and `Integrate` gives the same simulator when its spring
loop runs through any permutation `ss` of the springs and its particle loop
through any permutation `order` of the indices. -/
theorem order_within_phase_is_irrelevant (sqrt : α → α) (c : Settings α)
    (r : RopeSimulator α) (s t : Spring α) (ps : List (Particle α)) (i j : Nat)
    (hij : i ≠ j) (ss : List (Spring α)) (order : List Nat) (hss : ss.Perm r.Springs)
    (hord : order.Perm (List.range r.Particles.length)) :
    (Spring.Solve sqrt s ps).bind (Spring.Solve sqrt t)
      = (Spring.Solve sqrt t ps).bind (Spring.Solve sqrt s) ∧
    (ps.modify (Particle.Solve sqrt c) i).modify (Particle.Solve sqrt c) j
      = (ps.modify (Particle.Solve sqrt c) j).modify (Particle.Solve sqrt c) i ∧
    RopeSimulator.SolveInOrder sqrt c ss order r.ResetForces
      = RopeSimulator.Integrate sqrt c r ∧
    RopeSimulator.SolveInOrder sqrt c r.Springs (List.range r.Particles.length) r.ResetForces
      = RopeSimulator.Integrate sqrt c r := by
  have hlen : r.ResetForces.Particles.length = r.Particles.length := by
    simp [RopeSimulator.ResetForces]
  refine ⟨Spring.Solve_comm sqrt s t ps, List.modify_modify_ne _ _ ps hij, ?_, ?_⟩
  · exact RopeSimulator.SolveInOrder_eq sqrt c r.ResetForces ss order hss (by rw [hlen]; exact hord)
  · exact RopeSimulator.SolveInOrder_eq sqrt c r.ResetForces r.Springs _ (List.Perm.refl _)
      (by rw [hlen])

/-- C16, at the program's settings over the reals: the first two springs of the
rope, which share particle 1, on the reset particles; particles 0 and 1; and both
loops of `Integrate` run backwards. -/
theorem order_within_phase_is_irrelevant_witness :
    (Spring.Solve Real.sqrt (⟨0, 1, 650, 0.045, 15 / 49⟩ : Spring ℝ)
        (RopeSimulator.ctor (Settings.program ℝ)).Particles).bind
        (Spring.Solve Real.sqrt (⟨1, 2, 650, 0.045, 15 / 49⟩ : Spring ℝ))
      = (Spring.Solve Real.sqrt (⟨1, 2, 650, 0.045, 15 / 49⟩ : Spring ℝ)
        (RopeSimulator.ctor (Settings.program ℝ)).Particles).bind
        (Spring.Solve Real.sqrt (⟨0, 1, 650, 0.045, 15 / 49⟩ : Spring ℝ)) ∧
    ((RopeSimulator.ctor (Settings.program ℝ)).Particles.modify
        (Particle.Solve Real.sqrt (Settings.program ℝ)) 0).modify
        (Particle.Solve Real.sqrt (Settings.program ℝ)) 1
      = ((RopeSimulator.ctor (Settings.program ℝ)).Particles.modify
        (Particle.Solve Real.sqrt (Settings.program ℝ)) 1).modify
        (Particle.Solve Real.sqrt (Settings.program ℝ)) 0 ∧
    RopeSimulator.SolveInOrder Real.sqrt (Settings.program ℝ)
        (RopeSimulator.ctor (Settings.program ℝ)).Springs.reverse
        (List.range (RopeSimulator.ctor (Settings.program ℝ)).Particles.length).reverse
        (RopeSimulator.ctor (Settings.program ℝ)).ResetForces
      = RopeSimulator.Integrate Real.sqrt (Settings.program ℝ)
        (RopeSimulator.ctor (Settings.program ℝ)) ∧
    RopeSimulator.SolveInOrder Real.sqrt (Settings.program ℝ)
        (RopeSimulator.ctor (Settings.program ℝ)).Springs
        (List.range (RopeSimulator.ctor (Settings.program ℝ)).Particles.length)
        (RopeSimulator.ctor (Settings.program ℝ)).ResetForces
      = RopeSimulator.Integrate Real.sqrt (Settings.program ℝ)
        (RopeSimulator.ctor (Settings.program ℝ)) :=
  order_within_phase_is_irrelevant Real.sqrt (Settings.program ℝ)
    (RopeSimulator.ctor (Settings.program ℝ)) ⟨0, 1, 650, 0.045, 15 / 49⟩
    ⟨1, 2, 650, 0.045, 15 / 49⟩ (RopeSimulator.ctor (Settings.program ℝ)).Particles 0 1
    (by decide) _ _ (List.reverse_perm _) (List.reverse_perm _)

/-! ### The stored velocity and the damping of a spring are not read -/

theorem Particle.Solve_congr (sqrt : α → α) (c : Settings α) (p q : Particle α)
    (h1 : p.Position = q.Position) (h2 : p.OldPosition = q.OldPosition)
    (h3 : p.Forces = q.Forces) (h4 : p.Mass = q.Mass) (h5 : p.Anchored = q.Anchored) :
    (Particle.Solve sqrt c p).Position = (Particle.Solve sqrt c q).Position ∧
      (Particle.Solve sqrt c p).OldPosition = (Particle.Solve sqrt c q).OldPosition ∧
      (Particle.Solve sqrt c p).Forces = (Particle.Solve sqrt c q).Forces ∧
      (Particle.Solve sqrt c p).Mass = (Particle.Solve sqrt c q).Mass ∧
      (Particle.Solve sqrt c p).Anchored = (Particle.Solve sqrt c q).Anchored := by
  obtain ⟨pP, pO, pV, pF, pM, pA⟩ := p
  obtain ⟨qP, qO, qV, qF, qM, qA⟩ := q
  simp only at h1 h2 h3 h4 h5
  subst h1 h2 h3 h4 h5
  cases pA with
  | true =>
    rw [Particle.Solve_of_anchored sqrt c _ rfl, Particle.Solve_of_anchored sqrt c _ rfl]
    exact ⟨rfl, rfl, rfl, rfl, rfl⟩
  | false =>
    unfold Particle.Solve
    dsimp only
    simp only [Bool.not_false, if_true]
    exact ⟨trivial, trivial, trivial, trivial, trivial⟩

theorem map_contribution_congr (sqrt : α → α) (ss tt : List (Spring α))
    (ps qs : List (Particle α)) (hlen : ss.length = tt.length)
    (hS : ∀ (j : Nat) (s s1 : Spring α), ss[j]? = some s → tt[j]? = some s1 →
      s.P0 = s1.P0 ∧ s.P1 = s1.P1 ∧ s.K = s1.K ∧ s.RestLength = s1.RestLength)
    (hpos : ps.map Particle.Position = qs.map Particle.Position) (i : Nat) :
    (ss.map fun s => s.contribution sqrt ps i) = tt.map fun s => s.contribution sqrt qs i := by
  apply List.ext_getElem?
  intro j
  rw [List.getElem?_map, List.getElem?_map]
  rcases hs : ss[j]? with _ | s <;> rcases ht : tt[j]? with _ | s1
  · rfl
  · rw [List.getElem?_eq_none_iff] at hs
    have := (List.getElem?_eq_some_iff.mp ht).1
    omega
  · rw [List.getElem?_eq_none_iff] at ht
    have := (List.getElem?_eq_some_iff.mp hs).1
    omega
  · obtain ⟨h0, h1, hK, hL⟩ := hS j s s1 hs ht
    simp only [Option.map_some', Spring.contribution_congr sqrt s s1 ps qs h0 h1 hK hL hpos i]

theorem map_Position_congr (ps qs : List (Particle α)) (hlen : ps.length = qs.length)
    (hP : ∀ (i : Nat) (p q : Particle α), ps[i]? = some p → qs[i]? = some q →
      p.Position = q.Position) :
    ps.map Particle.Position = qs.map Particle.Position := by
  apply List.ext_getElem?
  intro i
  rw [List.getElem?_map, List.getElem?_map]
  rcases hp : ps[i]? with _ | p <;> rcases hq : qs[i]? with _ | q
  · rfl
  · rw [List.getElem?_eq_none_iff] at hp
    have := (List.getElem?_eq_some_iff.mp hq).1
    omega
  · rw [List.getElem?_eq_none_iff] at hq
    have := (List.getElem?_eq_some_iff.mp hp).1
    omega
  · simp only [Option.map_some', hP i p q hp hq]

theorem RopeSimulator.Integrate_getElem? (sqrt : α → α) (c : Settings α)
    (r : RopeSimulator α) (hv : r.PointersValid) :
    ∃ r1, RopeSimulator.Integrate sqrt c r = some r1 ∧ r1.Springs = r.Springs ∧
      r1.Particles.length = r.Particles.length ∧
      ∀ i : Nat, r1.Particles[i]? = (r.Particles[i]?).map fun p =>
        Particle.Solve sqrt c { p with Forces := 0
          + (r.Springs.map fun s => s.contribution sqrt r.Particles i).sum } := by
  obtain ⟨ps1, h1, hf, hI⟩ := RopeSimulator.Integrate_eq sqrt c r hv
  refine ⟨_, hI, rfl, ?_, fun i => ?_⟩
  · simpa using congrArg List.length hf
  · have hpos : r.ResetForces.Particles.map Particle.Position
        = r.Particles.map Particle.Position := positions_of_frame _ _ r.ResetForces_frame
    have hc : (r.Springs.map fun s => s.contribution sqrt r.ResetForces.Particles i)
        = r.Springs.map fun s => s.contribution sqrt r.Particles i :=
      List.map_congr_left fun s _ =>
        Spring.contribution_congr sqrt s s _ _ rfl rfl rfl rfl hpos i
    show (List.map (Particle.Solve sqrt c) ps1)[i]? = _
    rw [List.getElem?_map, springs_getElem? sqrt _ _ _ h1 i, hc]
    simp only [RopeSimulator.ResetForces, List.getElem?_map]
    cases r.Particles[i]? with
    | none => rfl
    | some p => rfl

/-- C15. Take two simulators with as many springs and particles, whose springs
agree one by one on both pointers, `K` and `RestLength` (not necessarily on `D`)
and whose particles agree one by one on `Position`, `OldPosition`, `Mass` and
`Anchored` (not necessarily on `Velocity`), the springs of the first pointing into
its particle vector. Then `Integrate` returns on both, and the results agree
particle by particle on `Position`, `OldPosition` and `Forces`. And the vector
`force_spring` of `Spring::Solve` is the same for two springs that agree on `K`
and `RestLength` and end particles that agree on `Position`. -/
theorem per_link_damping_is_inert (sqrt : α → α) (c : Settings α) (r t : RopeSimulator α)
    (hSlen : r.Springs.length = t.Springs.length)
    (hS : ∀ (j : Nat) (s s1 : Spring α), r.Springs[j]? = some s → t.Springs[j]? = some s1 →
      s.P0 = s1.P0 ∧ s.P1 = s1.P1 ∧ s.K = s1.K ∧ s.RestLength = s1.RestLength)
    (hPlen : r.Particles.length = t.Particles.length)
    (hP : ∀ (i : Nat) (p q : Particle α), r.Particles[i]? = some p → t.Particles[i]? = some q →
      p.Position = q.Position ∧ p.OldPosition = q.OldPosition ∧ p.Mass = q.Mass ∧
        p.Anchored = q.Anchored)
    (hv : r.PointersValid) :
    (∃ r1 t1, RopeSimulator.Integrate sqrt c r = some r1 ∧
      RopeSimulator.Integrate sqrt c t = some t1 ∧
      r1.Particles.length = t1.Particles.length ∧
      ∀ (i : Nat) (p1 q1 : Particle α), r1.Particles[i]? = some p1 →
        t1.Particles[i]? = some q1 →
        p1.Position = q1.Position ∧ p1.OldPosition = q1.OldPosition ∧
          p1.Forces = q1.Forces) ∧
    (∀ (s s1 : Spring α) (p0 p1 q0 q1 : Particle α), s.K = s1.K →
      s.RestLength = s1.RestLength → p0.Position = q0.Position →
      p1.Position = q1.Position → s.force_spring sqrt p0 p1 = s1.force_spring sqrt q0 q1) := by
  refine ⟨?_, fun s s1 p0 p1 q0 q1 hK hL h0 h1 =>
    Spring.force_spring_congr sqrt s s1 p0 p1 q0 q1 hK hL h0 h1⟩
  have hvt : t.PointersValid := by
    intro s1 hs1
    obtain ⟨j, hj, hget⟩ := List.getElem_of_mem hs1
    have hjr : j < r.Springs.length := by omega
    have hs : r.Springs[j]? = some r.Springs[j] := List.getElem?_eq_getElem hjr
    have ht : t.Springs[j]? = some s1 := by
      rw [List.getElem?_eq_getElem hj, hget]
    obtain ⟨e0, e1, -, -⟩ := hS j _ s1 hs ht
    have hvr := hv _ (List.getElem_mem hjr)
    rw [← e0, ← e1, ← hPlen]
    exact hvr
  obtain ⟨r1, hIr, -, hLr, hGr⟩ := RopeSimulator.Integrate_getElem? sqrt c r hv
  obtain ⟨t1, hIt, -, hLt, hGt⟩ := RopeSimulator.Integrate_getElem? sqrt c t hvt
  refine ⟨r1, t1, hIr, hIt, by omega, fun i p1 q1 hp1 hq1 => ?_⟩
  have hpos : r.Particles.map Particle.Position = t.Particles.map Particle.Position :=
    map_Position_congr _ _ hPlen fun i p q hp hq => (hP i p q hp hq).1
  have hc := map_contribution_congr sqrt r.Springs t.Springs r.Particles t.Particles hSlen hS
    hpos i
  rw [hGr i] at hp1
  rw [hGt i, ← hc] at hq1
  rcases hp : r.Particles[i]? with _ | p
  · rw [hp] at hp1
    cases hp1
  rcases hq : t.Particles[i]? with _ | q
  · rw [hq] at hq1
    cases hq1
  rw [hp] at hp1
  rw [hq] at hq1
  simp only [Option.map_some', Option.some.injEq] at hp1 hq1
  obtain ⟨e1, e2, e4, e5⟩ := hP i p q hp hq
  rw [← hp1, ← hq1]
  obtain ⟨g1, g2, g3, -, -⟩ := Particle.Solve_congr sqrt c
    { p with Forces := 0 + (r.Springs.map fun s => s.contribution sqrt r.Particles i).sum }
    { q with Forces := 0 + (r.Springs.map fun s => s.contribution sqrt r.Particles i).sum }
    e1 e2 rfl e4 e5
  exact ⟨g1, g2, g3⟩

/-- C15, at the program's settings over the reals: the simulator built by the
constructor, and the same simulator with every spring given `D = 7` and every
particle the stored velocity (1, 2, 3). -/
theorem per_link_damping_is_inert_witness :
    ∃ r1 t1, RopeSimulator.Integrate Real.sqrt (Settings.program ℝ)
        (RopeSimulator.ctor (Settings.program ℝ)) = some r1 ∧
      RopeSimulator.Integrate Real.sqrt (Settings.program ℝ)
        { Particles := (RopeSimulator.ctor (Settings.program ℝ)).Particles.map
            fun p => { p with Velocity := ⟨1, 2, 3⟩ }
          Springs := (RopeSimulator.ctor (Settings.program ℝ)).Springs.map
            fun s => { s with D := 7 } } = some t1 ∧
      r1.Particles.length = t1.Particles.length ∧
      ∀ (i : Nat) (p1 q1 : Particle ℝ), r1.Particles[i]? = some p1 →
        t1.Particles[i]? = some q1 →
        p1.Position = q1.Position ∧ p1.OldPosition = q1.OldPosition ∧
          p1.Forces = q1.Forces :=
  (per_link_damping_is_inert Real.sqrt (Settings.program ℝ)
    (RopeSimulator.ctor (Settings.program ℝ))
    { Particles := (RopeSimulator.ctor (Settings.program ℝ)).Particles.map
        fun p => { p with Velocity := ⟨1, 2, 3⟩ }
      Springs := (RopeSimulator.ctor (Settings.program ℝ)).Springs.map
        fun s => { s with D := 7 } }
    (by simp)
    (by
      intro j s s1 hs hs1
      rw [List.getElem?_map, hs] at hs1
      cases hs1
      exact ⟨rfl, rfl, rfl, rfl⟩)
    (by simp)
    (by
      intro i p q hp hq
      rw [List.getElem?_map, hp] at hq
      cases hq
      exact ⟨rfl, rfl, rfl, rfl⟩)
    (RopeSimulator.ResetRope_PointersValid (Settings.program ℝ) ⟨[], []⟩)).1

/-! ### The rope stays in its plane -/

theorem sum_z_eq_zero (l : List (Vec3 α)) (h : ∀ v ∈ l, v.z = 0) : l.sum.z = 0 := by
  induction l with
  | nil => exact Vec3.zero_z
  | cons a l ih =>
    rw [List.sum_cons]
    show a.z + l.sum.z = 0
    rw [h a (List.mem_cons_self _ _), ih fun v hv => h v (List.mem_cons_of_mem _ hv)]
    simp

theorem Spring.contribution_z (sqrt : α → α) (s : Spring α) (ps : List (Particle α))
    (hz : ∀ p ∈ ps, p.Position.z = 0) (i : Nat) : (s.contribution sqrt ps i).z = 0 := by
  unfold Spring.contribution
  rcases h0 : ps[s.P0]? with _ | p0
  · exact Vec3.zero_z
  rcases h1 : ps[s.P1]? with _ | p1
  · exact Vec3.zero_z
  have hz0 : p0.Position.z = 0 := hz p0 (List.getElem?_mem h0)
  have hz1 : p1.Position.z = 0 := hz p1 (List.getElem?_mem h1)
  have hf : (s.force_spring sqrt p0 p1 * (0.5 : α)).z = 0 := by
    show (p1.Position.z - p0.Position.z) / _ * s.K * _ * (0.5 : α) = 0
    rw [hz0, hz1]
    simp
  show (if s.P0 = i then s.force_spring sqrt p0 p1 * (0.5 : α) else 0).z
    - (if s.P1 = i then s.force_spring sqrt p0 p1 * (0.5 : α) else 0).z = 0
  split_ifs
  · rw [hf, sub_zero]
  · rw [hf, Vec3.zero_z, sub_zero]
  · rw [hf, Vec3.zero_z, sub_zero]
  · rw [Vec3.zero_z, sub_zero]

theorem Particle.Solve_z (sqrt : α → α) (c : Settings α) (p : Particle α)
    (h1 : p.Position.z = 0) (h2 : p.OldPosition.z = 0) (h3 : p.Forces.z = 0) :
    (Particle.Solve sqrt c p).Position.z = 0 ∧ (Particle.Solve sqrt c p).OldPosition.z = 0 := by
  have hT : (p.tentativePosition c).z = 0 := by
    show p.Position.z + ((p.Position.z - p.OldPosition.z) * (1 - c.SPRING_D)
      + (p.Forces.z + (0.0 : α)) / p.Mass * c.TIME_STEPSIZE * c.TIME_STEPSIZE) = 0
    rw [h1, h2, h3]
    simp
  rcases ha : p.Anchored with _ | _
  · by_cases hd : (p.tentativePosition c).Distance sqrt (Ball_Position c) ≤ c.BALL_RADIUS * 1.05
    · rw [Particle.Solve_collide sqrt c p ha hd]
      exact ⟨hT, h1⟩
    · rw [Particle.Solve_free sqrt c p ha hd]
      exact ⟨hT, h1⟩
  · rw [Particle.Solve_of_anchored sqrt c p ha]
    exact ⟨h1, h2⟩

theorem RopeSimulator.Integrate_plane (sqrt : α → α) (c : Settings α) (r r1 : RopeSimulator α)
    (hv : r.PointersValid)
    (hz : ∀ p ∈ r.Particles, p.Position.z = 0 ∧ p.OldPosition.z = 0)
    (hI : RopeSimulator.Integrate sqrt c r = some r1) :
    ∀ p ∈ r1.Particles, p.Position.z = 0 ∧ p.OldPosition.z = 0 := by
  obtain ⟨r2, hI2, -, -, hG⟩ := RopeSimulator.Integrate_getElem? sqrt c r hv
  rw [hI] at hI2
  cases hI2
  intro p1 hp1
  obtain ⟨i, hi, hget⟩ := List.getElem_of_mem hp1
  have hsome : r1.Particles[i]? = some p1 := by
    rw [List.getElem?_eq_getElem hi, hget]
  rw [hG i] at hsome
  rcases hp : r.Particles[i]? with _ | p
  · rw [hp] at hsome
    cases hsome
  rw [hp] at hsome
  simp only [Option.map_some', Option.some.injEq] at hsome
  rw [← hsome]
  obtain ⟨hz1, hz2⟩ := hz p (List.getElem?_mem hp)
  refine Particle.Solve_z sqrt c { p with Forces := 0
    + (r.Springs.map fun s => s.contribution sqrt r.Particles i).sum } hz1 hz2 ?_
  show ((0 : Vec3 α) + (r.Springs.map fun s => s.contribution sqrt r.Particles i).sum).z = 0
  rw [zero_add]
  apply sum_z_eq_zero
  intro v hv1
  rw [List.mem_map] at hv1
  obtain ⟨s, -, rfl⟩ := hv1
  exact Spring.contribution_z sqrt s r.Particles (fun p hp => (hz p hp).1) i

theorem RopeSimulator.IntegrateN_invariant (sqrt : α → α) (c : Settings α)
    (P : RopeSimulator α → Prop)
    (hstep : ∀ r r1 : RopeSimulator α, r.PointersValid → P r →
      RopeSimulator.Integrate sqrt c r = some r1 → P r1) (n : Nat) :
    ∀ r : RopeSimulator α, r.PointersValid → P r →
      ∃ rn, RopeSimulator.IntegrateN sqrt c n r = some rn ∧ rn.PointersValid ∧ P rn := by
  induction n with
  | zero => exact fun r hv hP => ⟨r, rfl, hv, hP⟩
  | succ n ih =>
    intro r hv hP
    obtain ⟨r1, hI, hv1, -⟩ := RopeSimulator.Integrate_keeps sqrt c r hv
    obtain ⟨rn, hIn, hvn, hPn⟩ := ih r1 hv1 (hstep r r1 hv hP hI)
    refine ⟨rn, ?_, hvn, hPn⟩
    simp only [RopeSimulator.IntegrateN, hI, Option.some_bind]
    exact hIn

/-- C18. After `ResetRope` and any number `n` of `Integrate` calls (which all
return) every particle has `Position.z = 0` and `OldPosition.z = 0`. -/
theorem rope_stays_in_plane (sqrt : α → α) (c : Settings α) (r0 : RopeSimulator α)
    (n : Nat) :
    ∃ rn, RopeSimulator.IntegrateN sqrt c n (RopeSimulator.ResetRope c r0) = some rn ∧
      ∀ p ∈ rn.Particles, p.Position.z = 0 ∧ p.OldPosition.z = 0 := by
  obtain ⟨rn, hI, -, hz⟩ := RopeSimulator.IntegrateN_invariant sqrt c
    (fun r => ∀ p ∈ r.Particles, p.Position.z = 0 ∧ p.OldPosition.z = 0)
    (fun r r1 hv hz hI => RopeSimulator.Integrate_plane sqrt c r r1 hv hz hI) n
    (RopeSimulator.ResetRope c r0) (RopeSimulator.ResetRope_PointersValid c r0) (by
      intro p hp
      obtain ⟨i, hi, hget⟩ := List.getElem_of_mem hp
      have hsome : (RopeSimulator.ResetRope c r0).Particles[i]? = some p := by
        rw [List.getElem?_eq_getElem hi, hget]
      rw [RopeSimulator.ResetRope_length] at hi
      rw [RopeSimulator.ResetRope_getElem? c r0 i hi] at hsome
      cases hsome
      exact ⟨rfl, rfl⟩)
  exact ⟨rn, hI, hz⟩

/-! ### The forces on a chain -/

theorem chain_sum {M : Type} [AddCommGroup M] (a : Nat → M) (i : Nat) :
    ∀ m : Nat, ((List.range m).map fun j =>
        (if j = i then a j else 0) - (if j + 1 = i then a j else 0)).sum
      = (if i < m then a i else 0) - (if 0 < i ∧ i ≤ m then a (i - 1) else 0) := by
  intro m
  induction m with
  | zero =>
    have h1 : ¬ (0 < i ∧ i ≤ 0) := by omega
    rw [if_neg (Nat.not_lt_zero i), if_neg h1]
    simp
  | succ m ih =>
    rw [List.range_succ, List.map_append, List.sum_append, ih, List.map_singleton,
      List.sum_singleton]
    by_cases h1 : i = m
    · subst h1
      split_ifs <;> first | (exfalso; omega) | abel
    · by_cases h2 : i = m + 1
      · subst h2
        rw [Nat.add_sub_cancel]
        split_ifs <;> first | (exfalso; omega) | abel
      · split_ifs <;> first | (exfalso; omega) | abel

theorem RopeSimulator.chain_contributions (sqrt : α → α) (r : RopeSimulator α)
    (hlen : r.Springs.length < r.Particles.length)
    (hchain : ∀ (j : Nat) (s : Spring α), r.Springs[j]? = some s → s.P0 = j ∧ s.P1 = j + 1)
    (i : Nat) :
    (r.Springs.map fun s => s.contribution sqrt r.Particles i).sum = r.chainForce sqrt i := by
  have hmap : (r.Springs.map fun s => s.contribution sqrt r.Particles i)
      = (List.range r.Springs.length).map fun j =>
        (if j = i then r.linkForce sqrt j * (0.5 : α) else 0)
          - (if j + 1 = i then r.linkForce sqrt j * (0.5 : α) else 0) := by
    apply List.ext_getElem?
    intro j
    rw [List.getElem?_map, List.getElem?_map]
    by_cases hj : j < r.Springs.length
    · have hs : r.Springs[j]? = some r.Springs[j] := List.getElem?_eq_getElem hj
      obtain ⟨e0, e1⟩ := hchain j _ hs
      have h0 : r.Particles[j]? = some r.Particles[j] := List.getElem?_eq_getElem (by omega)
      have h1 : r.Particles[j + 1]? = some r.Particles[j + 1] :=
        List.getElem?_eq_getElem (by omega)
      rw [hs, List.getElem?_range hj]
      simp only [Option.map_some', Option.some.injEq]
      unfold Spring.contribution RopeSimulator.linkForce
      rw [e0, e1, hs, h0, h1]
    · have hs : r.Springs[j]? = none := by
        rw [List.getElem?_eq_none_iff]
        omega
      have hr : (List.range r.Springs.length)[j]? = none := by
        rw [List.getElem?_eq_none_iff, List.length_range]
        omega
      rw [hs, hr]
      rfl
  rw [hmap, chain_sum (fun j => r.linkForce sqrt j * (0.5 : α)) i r.Springs.length]
  rfl

theorem RopeSimulator.chain_PointersValid (r : RopeSimulator α)
    (hlen : r.Springs.length < r.Particles.length)
    (hchain : ∀ (j : Nat) (s : Spring α), r.Springs[j]? = some s → s.P0 = j ∧ s.P1 = j + 1) :
    r.PointersValid := by
  intro s hs
  obtain ⟨j, hj, hget⟩ := List.getElem_of_mem hs
  have hsome : r.Springs[j]? = some s := by
    rw [List.getElem?_eq_getElem hj, hget]
  obtain ⟨e0, e1⟩ := hchain j s hsome
  rw [e0, e1]
  omega

theorem Particle.tentativePosition_eq (c : Settings α) (p : Particle α) :
    p.tentativePosition c = p.Position + (p.Position - p.OldPosition) * (1 - c.SPRING_D)
      + ((p.Forces + FORCE_GRAVITY c) / p.Mass) * (c.TIME_STEPSIZE ^ 2) := by
  unfold Particle.tentativePosition Particle.tentativeVelocity
  ext <;> simp <;> ring

/-- C13. On a chain (spring `j` points to particles `j` and `j + 1`, all of them in
the particle vector) `Integrate` returns, and a non-anchored particle `i` with
pre-step `Position = p`, `OldPosition = q` and `Mass = m` whose tentative position
is farther than `1.05 * BALL_RADIUS` from `Ball_Position` ends with
`Position = p + (p - q) * (1 - SPRING_D) + ((S_i + FORCE_GRAVITY) / m) * TIME_STEPSIZE ^ 2`,
`Forces = S_i + FORCE_GRAVITY` and `OldPosition = p`, where
`S_i = f_i * 0.5 - f_(i-1) * 0.5` (`chainForce`, a missing spring's term left out)
and `f_j = normalize(p_(j+1) - p_j) * K_j * (Magnitude (p_(j+1) - p_j) - RestLength_j)`
(`linkForce`) is computed from the pre-step positions. -/
theorem phase_ordering_on_chain (sqrt : α → α) (c : Settings α) (r : RopeSimulator α)
    (hlen : r.Springs.length < r.Particles.length)
    (hchain : ∀ (j : Nat) (s : Spring α), r.Springs[j]? = some s → s.P0 = j ∧ s.P1 = j + 1)
    (i : Nat) (p : Particle α) (hp : r.Particles[i]? = some p) (ha : p.Anchored = false)
    (hfree : 1.05 * c.BALL_RADIUS < (p.Position + (p.Position - p.OldPosition) * (1 - c.SPRING_D)
      + ((r.chainForce sqrt i + FORCE_GRAVITY c) / p.Mass) * (c.TIME_STEPSIZE ^ 2)).Distance sqrt
        (Ball_Position c)) :
    (∃ r1 p1, RopeSimulator.Integrate sqrt c r = some r1 ∧ r1.Particles[i]? = some p1 ∧
      p1.Position = p.Position + (p.Position - p.OldPosition) * (1 - c.SPRING_D)
        + ((r.chainForce sqrt i + FORCE_GRAVITY c) / p.Mass) * (c.TIME_STEPSIZE ^ 2) ∧
      p1.Forces = r.chainForce sqrt i + FORCE_GRAVITY c ∧ p1.OldPosition = p.Position) ∧
    r.chainForce sqrt i
      = (if i < r.Springs.length then r.linkForce sqrt i * (0.5 : α) else 0)
        - (if 0 < i ∧ i ≤ r.Springs.length then r.linkForce sqrt (i - 1) * (0.5 : α) else 0) ∧
    (∀ (j : Nat) (s : Spring α) (p0 p1 : Particle α), r.Springs[j]? = some s →
      r.Particles[j]? = some p0 → r.Particles[j + 1]? = some p1 →
      r.linkForce sqrt j = (p1.Position - p0.Position).Normalized sqrt * s.K
        * ((p1.Position - p0.Position).Magnitude sqrt - s.RestLength)) := by
  refine ⟨?_, rfl, fun j s p0 p1 hs h0 h1 => ?_⟩
  · obtain ⟨r1, hI, -, -, hG⟩ := RopeSimulator.Integrate_getElem? sqrt c r
      (RopeSimulator.chain_PointersValid r hlen hchain)
    have hq := hG i
    rw [hp, RopeSimulator.chain_contributions sqrt r hlen hchain i, zero_add] at hq
    simp only [Option.map_some'] at hq
    have hT := Particle.tentativePosition_eq c { p with Forces := r.chainForce sqrt i }
    have hd : ¬ (Particle.tentativePosition c { p with Forces := r.chainForce sqrt i }).Distance
        sqrt (Ball_Position c) ≤ c.BALL_RADIUS * 1.05 := by
      rw [hT, mul_comm]
      exact not_le.mpr hfree
    have hS := Particle.Solve_free sqrt c { p with Forces := r.chainForce sqrt i } ha hd
    rw [hS] at hq
    exact ⟨r1, _, hI, hq, hT, rfl, rfl⟩
  · unfold RopeSimulator.linkForce
    rw [hs, h0, h1]
    rfl

theorem magnitude_3_4_0_vec {sqrt : α → α} (hs : IsSqrt sqrt) (a b : Vec3 α)
    (hx : b.x - a.x = 3) (hy : b.y - a.y = 4) (hz : b.z - a.z = 0) :
    (b - a).Magnitude sqrt = 5 := by
  show sqrt _ = 5
  simp only [Vec3.sub_def, hx, hy, hz]
  rw [show ((3 : α)) * 3 + 4 * 4 + 0 * 0 = 5 * 5 by norm_num]
  exact hs.sqrt_mul_self (by norm_num)

theorem RopeSimulator.threeParticles_linkForce_zero {sqrt : α → α} (hs : IsSqrt sqrt) :
    (RopeSimulator.threeParticles α).linkForce sqrt 0 = ⟨1170, 1560, 0⟩ := by
  have hlink : (RopeSimulator.threeParticles α).linkForce sqrt 0
      = Spring.force_spring sqrt ⟨0, 1, 650, 0.045, 2⟩ (Particle.ctor ⟨0, 4, 0⟩ 1 false)
          ⟨⟨3, 8, 0⟩, ⟨3, 9, 0⟩, ⟨0, -1, 0⟩, ⟨100, 100, 100⟩, 1, false⟩ := rfl
  have hmag : ((⟨⟨3, 8, 0⟩, ⟨3, 9, 0⟩, ⟨0, -1, 0⟩, ⟨100, 100, 100⟩, 1, false⟩ : Particle α).Position
      - (Particle.ctor (⟨0, 4, 0⟩ : Vec3 α) 1 false).Position).Magnitude sqrt = 5 :=
    magnitude_3_4_0_vec hs _ _ (by norm_num [Particle.ctor]) (by norm_num [Particle.ctor])
      (by norm_num [Particle.ctor])
  rw [hlink]
  unfold Spring.force_spring Vec3.Normalized
  simp only [hmag]
  simp only [Particle.ctor, Vec3.sub_def, Vec3.mul_def]
  ext <;> norm_num

theorem RopeSimulator.threeParticles_linkForce_one {sqrt : α → α} (hs : IsSqrt sqrt) :
    (RopeSimulator.threeParticles α).linkForce sqrt 1 = ⟨780, 1040, 0⟩ := by
  have hlink : (RopeSimulator.threeParticles α).linkForce sqrt 1
      = Spring.force_spring sqrt ⟨1, 2, 650, 0.045, 3⟩
          ⟨⟨3, 8, 0⟩, ⟨3, 9, 0⟩, ⟨0, -1, 0⟩, ⟨100, 100, 100⟩, 1, false⟩
          (Particle.ctor ⟨6, 12, 0⟩ 1 false) := rfl
  have hmag : ((Particle.ctor (⟨6, 12, 0⟩ : Vec3 α) 1 false).Position
      - (⟨⟨3, 8, 0⟩, ⟨3, 9, 0⟩, ⟨0, -1, 0⟩, ⟨100, 100, 100⟩, 1, false⟩ : Particle α).Position).Magnitude
        sqrt = 5 :=
    magnitude_3_4_0_vec hs _ _ (by norm_num [Particle.ctor]) (by norm_num [Particle.ctor])
      (by norm_num [Particle.ctor])
  rw [hlink]
  unfold Spring.force_spring Vec3.Normalized
  simp only [hmag]
  simp only [Particle.ctor, Vec3.sub_def, Vec3.mul_def]
  ext <;> norm_num

theorem RopeSimulator.threeParticles_chainForce {sqrt : α → α} (hs : IsSqrt sqrt) :
    (RopeSimulator.threeParticles α).chainForce sqrt 1 = ⟨-195, -260, 0⟩ := by
  unfold RopeSimulator.chainForce
  have h1 : (1 : ℕ) < (RopeSimulator.threeParticles α).Springs.length := by
    show 1 < 2
    omega
  have h2 : (0 : ℕ) < 1 ∧ 1 ≤ (RopeSimulator.threeParticles α).Springs.length := by
    show 0 < 1 ∧ 1 ≤ 2
    omega
  rw [if_pos h1, if_pos h2, RopeSimulator.threeParticles_linkForce_one hs,
    RopeSimulator.threeParticles_linkForce_zero hs]
  simp only [Vec3.sub_def, Vec3.mul_def]
  ext <;> norm_num

/-- C13, at the program's settings over the reals, for the middle particle of
`RopeSimulator.threeParticles`, a chain of three free particles whose two springs
are both stretched: on the pre-step positions `f_0 = (1170, 1560, 0)`,
`f_1 = (780, 1040, 0)` and `S_1 = f_1 * 0.5 - f_0 * 0.5 = (-195, -260, 0)`. The
particle starts at (3, 8, 0) with `OldPosition` (3, 9, 0) and a stale force
(100, 100, 100); after `Integrate` it holds `Forces = (-195, -269.81, 0)`, is at
`(3, 8, 0) + (0, -1, 0) * 0.955 + (-195, -269.81, 0) * 0.0025
  = (2.5125, 6.370475, 0)`, and `OldPosition` is (3, 8, 0). -/
theorem phase_ordering_on_chain_witness :
    (RopeSimulator.threeParticles ℝ).Springs.length
      < (RopeSimulator.threeParticles ℝ).Particles.length ∧
    (RopeSimulator.threeParticles ℝ).Particles[1]?
      = some ⟨⟨3, 8, 0⟩, ⟨3, 9, 0⟩, ⟨0, -1, 0⟩, ⟨100, 100, 100⟩, 1, false⟩ ∧
    (RopeSimulator.threeParticles ℝ).linkForce Real.sqrt 0 = ⟨1170, 1560, 0⟩ ∧
    (RopeSimulator.threeParticles ℝ).linkForce Real.sqrt 1 = ⟨780, 1040, 0⟩ ∧
    (RopeSimulator.threeParticles ℝ).chainForce Real.sqrt 1 = ⟨-195, -260, 0⟩ ∧
    ∃ r1 p1, RopeSimulator.Integrate Real.sqrt (Settings.program ℝ)
        (RopeSimulator.threeParticles ℝ) = some r1 ∧ r1.Particles[1]? = some p1 ∧
      p1.Position = ⟨2.5125, 6.370475, 0⟩ ∧
      p1.Forces = ⟨-195, -269.81, 0⟩ ∧
      p1.OldPosition = ⟨3, 8, 0⟩ := by
  have hS := RopeSimulator.threeParticles_chainForce Real_isSqrt
  have hpos : (⟨3, 8, 0⟩ : Vec3 ℝ) + ((⟨3, 8, 0⟩ : Vec3 ℝ) - ⟨3, 9, 0⟩)
        * (1 - (Settings.program ℝ).SPRING_D)
      + (((⟨-195, -260, 0⟩ : Vec3 ℝ) + FORCE_GRAVITY (Settings.program ℝ)) / (1 : ℝ))
        * ((Settings.program ℝ).TIME_STEPSIZE ^ 2) = ⟨2.5125, 6.370475, 0⟩ := by
    simp only [Settings.program, FORCE_GRAVITY, Vec3.add_def, Vec3.sub_def, Vec3.mul_def,
      Vec3.div_def, lit_zero]
    ext <;> norm_num
  have hfor : (⟨-195, -260, 0⟩ : Vec3 ℝ) + FORCE_GRAVITY (Settings.program ℝ)
      = ⟨-195, -269.81, 0⟩ := by
    simp only [Settings.program, FORCE_GRAVITY, Vec3.add_def, lit_zero]
    ext <;> norm_num
  obtain ⟨⟨r1, p1, hI, hp1, hP, hF, hO⟩, -, -⟩ :=
    phase_ordering_on_chain Real.sqrt (Settings.program ℝ) (RopeSimulator.threeParticles ℝ)
      (by decide)
      (by
        intro j s hs
        have hj : j < 2 := (List.getElem?_eq_some_iff.mp hs).1
        have hj01 : j = 0 ∨ j = 1 := by omega
        rcases hj01 with hj0 | hj1
        · subst hj0
          cases hs
          exact ⟨rfl, rfl⟩
        · subst hj1
          cases hs
          exact ⟨rfl, rfl⟩)
      1 ⟨⟨3, 8, 0⟩, ⟨3, 9, 0⟩, ⟨0, -1, 0⟩, ⟨100, 100, 100⟩, 1, false⟩ rfl rfl
      (by
        rw [hS, hpos]
        apply Vec3.lt_Distance_of_sq Real_isSqrt
        · norm_num [Settings.program]
        · simp only [Settings.program, Ball_Position]
          norm_num)
  rw [hS] at hP hF
  rw [hpos] at hP
  rw [hfor] at hF
  exact ⟨by decide, rfl, RopeSimulator.threeParticles_linkForce_zero Real_isSqrt,
    RopeSimulator.threeParticles_linkForce_one Real_isSqrt, hS, r1, p1, hI, hp1, hP, hF, hO⟩

/-! ### The two increments of one spring -/

theorem Vec3.NormalizedChecked_of_ne (sqrt : α → α) (v : Vec3 α)
    (h : v.Magnitude sqrt ≠ 0) : v.NormalizedChecked sqrt = some (v.Normalized sqrt) := by
  unfold Vec3.NormalizedChecked Vec3.Normalized
  simp only [h, if_false]

theorem Vec3.NormalizedChecked_of_eq (sqrt : α → α) (v : Vec3 α)
    (h : v.Magnitude sqrt = 0) : v.NormalizedChecked sqrt = none := by
  unfold Vec3.NormalizedChecked
  simp only [h, if_true]

theorem Spring.SolveChecked_eq_Solve (sqrt : α → α) (s : Spring α) (ps : List (Particle α))
    (p0 p1 : Particle α) (h0 : ps[s.P0]? = some p0) (h1 : ps[s.P1]? = some p1)
    (h : (p1.Position - p0.Position).Magnitude sqrt ≠ 0) :
    Spring.SolveChecked sqrt s ps = Spring.Solve sqrt s ps := by
  unfold Spring.SolveChecked Spring.Solve
  rw [h0, h1]
  simp only [Vec3.NormalizedChecked_of_ne sqrt _ h]

theorem Spring.SolveChecked_eq_none (sqrt : α → α) (s : Spring α) (ps : List (Particle α))
    (p0 p1 : Particle α) (h0 : ps[s.P0]? = some p0) (h1 : ps[s.P1]? = some p1)
    (h : (p1.Position - p0.Position).Magnitude sqrt = 0) :
    Spring.SolveChecked sqrt s ps = none := by
  unfold Spring.SolveChecked
  rw [h0, h1]
  simp only [Vec3.NormalizedChecked_of_eq sqrt _ h]

/-- C3 (amended), in exact arithmetic (the scalars form an ordered field and
`sqrt` is an exact square root). When the two pointers of a spring refer to
particles of the vector that are at different positions, the two particles are
distinct, the spring vector is not divided by zero, `Spring::Solve` returns, the
increment of `P0->Forces` is `force_spring * 0.5`, the increment of `P1->Forces`
is the negation of that vector, and the two increments add up to the zero
vector. -/
theorem spring_increments_are_opposite (sqrt : α → α) (hs : IsSqrt sqrt) (s : Spring α)
    (ps : List (Particle α)) (p0 p1 : Particle α) (h0 : ps[s.P0]? = some p0)
    (h1 : ps[s.P1]? = some p1) (hpos : p0.Position ≠ p1.Position) :
    s.P0 ≠ s.P1 ∧
    ∃ ps1 q0 q1, Spring.SolveChecked sqrt s ps = some ps1 ∧
      Spring.Solve sqrt s ps = some ps1 ∧ ps1[s.P0]? = some q0 ∧
      ps1[s.P1]? = some q1 ∧
      q0.Forces - p0.Forces = s.force_spring sqrt p0 p1 * (0.5 : α) ∧
      q1.Forces - p1.Forces = -(s.force_spring sqrt p0 p1 * (0.5 : α)) ∧
      q1.Forces - p1.Forces = -(q0.Forces - p0.Forces) ∧
      (q0.Forces - p0.Forces) + (q1.Forces - p1.Forces) = ⟨0, 0, 0⟩ := by
  have hne : s.P0 ≠ s.P1 := by
    intro h
    rw [h, h1] at h0
    exact hpos (congrArg Particle.Position (Option.some.inj h0)).symm
  have hmag : (p1.Position - p0.Position).Magnitude sqrt ≠ 0 :=
    ne_of_gt (Vec3.Magnitude_pos hs _ (Vec3.sub_ne_zero_of_ne _ _ hpos))
  refine ⟨hne, _, { p0 with Forces := p0.Forces + s.force_spring sqrt p0 p1 * (0.5 : α) },
    { p1 with Forces := p1.Forces - s.force_spring sqrt p0 p1 * (0.5 : α) },
    (Spring.SolveChecked_eq_Solve sqrt s ps p0 p1 h0 h1 hmag).trans
      (Spring.Solve_eq_some sqrt s ps p0 p1 h0 h1),
    Spring.Solve_eq_some sqrt s ps p0 p1 h0 h1, ?_, ?_, ?_, ?_, ?_, ?_⟩
  · rw [List.getElem?_modify_ne _ _ (Ne.symm hne), List.getElem?_modify_eq, h0]
    rfl
  · rw [List.getElem?_modify_eq, List.getElem?_modify_ne _ _ hne, h1]
    rfl
  · ext <;> simp
  · ext <;> simp
  · ext <;> simp
  · ext <;> simp

/-- C3, the claim as stated fails: a spring joins the two distinct particles 0 and
1 of a vector, both at the position (1, 4, 0). The spring vector is the zero
vector, its magnitude is zero, `Normalized` divides zero by zero, and
`Spring::Solve` with that division checked has no vector to add to `P0->Forces`
and to subtract from `P1->Forces`. -/
theorem spring_increments_are_opposite_counterexample :
    (⟨0, 1, 650, 0.045, 2⟩ : Spring ℝ).P0 ≠ (⟨0, 1, 650, 0.045, 2⟩ : Spring ℝ).P1 ∧
    [Particle.ctor (⟨1, 4, 0⟩ : Vec3 ℝ) 1 false, Particle.ctor ⟨1, 4, 0⟩ 1 false][
        (⟨0, 1, 650, 0.045, 2⟩ : Spring ℝ).P0]?
      = some (Particle.ctor ⟨1, 4, 0⟩ 1 false) ∧
    [Particle.ctor (⟨1, 4, 0⟩ : Vec3 ℝ) 1 false, Particle.ctor ⟨1, 4, 0⟩ 1 false][
        (⟨0, 1, 650, 0.045, 2⟩ : Spring ℝ).P1]?
      = some (Particle.ctor ⟨1, 4, 0⟩ 1 false) ∧
    ((Particle.ctor (⟨1, 4, 0⟩ : Vec3 ℝ) 1 false).Position
      - (Particle.ctor (⟨1, 4, 0⟩ : Vec3 ℝ) 1 false).Position).Magnitude Real.sqrt = 0 ∧
    ((Particle.ctor (⟨1, 4, 0⟩ : Vec3 ℝ) 1 false).Position
      - (Particle.ctor (⟨1, 4, 0⟩ : Vec3 ℝ) 1 false).Position).NormalizedChecked Real.sqrt
      = none ∧
    ¬ ∃ ps1, Spring.SolveChecked Real.sqrt (⟨0, 1, 650, 0.045, 2⟩ : Spring ℝ)
      [Particle.ctor ⟨1, 4, 0⟩ 1 false, Particle.ctor ⟨1, 4, 0⟩ 1 false] = some ps1 := by
  have hmag : ((Particle.ctor (⟨1, 4, 0⟩ : Vec3 ℝ) 1 false).Position
      - (Particle.ctor (⟨1, 4, 0⟩ : Vec3 ℝ) 1 false).Position).Magnitude Real.sqrt = 0 := by
    show Real.sqrt _ = 0
    simp [Particle.ctor]
  refine ⟨by decide, rfl, rfl, hmag, Vec3.NormalizedChecked_of_eq _ _ hmag, ?_⟩
  rintro ⟨ps1, h⟩
  rw [Spring.SolveChecked_eq_none Real.sqrt _ _ _ _ rfl rfl hmag] at h
  exact Option.noConfusion h

/-- C3 (amended), on two particles over the reals at (0, 0, 0) and (3, 4, 0) joined
by one stretched spring. -/
theorem spring_increments_are_opposite_witness :
    (Particle.ctor (⟨0, 0, 0⟩ : Vec3 ℝ) 1 false).Position
      ≠ (Particle.ctor (⟨3, 4, 0⟩ : Vec3 ℝ) 1 false).Position ∧
    (⟨0, 1, 650, 0.045, 2⟩ : Spring ℝ).P0 ≠ (⟨0, 1, 650, 0.045, 2⟩ : Spring ℝ).P1 ∧
    ∃ ps1 q0 q1,
      Spring.SolveChecked Real.sqrt (⟨0, 1, 650, 0.045, 2⟩ : Spring ℝ)
        [Particle.ctor ⟨0, 0, 0⟩ 1 false, Particle.ctor ⟨3, 4, 0⟩ 1 false] = some ps1 ∧
      Spring.Solve Real.sqrt (⟨0, 1, 650, 0.045, 2⟩ : Spring ℝ)
        [Particle.ctor ⟨0, 0, 0⟩ 1 false, Particle.ctor ⟨3, 4, 0⟩ 1 false] = some ps1 ∧
      ps1[(⟨0, 1, 650, 0.045, 2⟩ : Spring ℝ).P0]? = some q0 ∧
      ps1[(⟨0, 1, 650, 0.045, 2⟩ : Spring ℝ).P1]? = some q1 ∧
      q0.Forces - (Particle.ctor (⟨0, 0, 0⟩ : Vec3 ℝ) 1 false).Forces
        = Spring.force_spring Real.sqrt (⟨0, 1, 650, 0.045, 2⟩ : Spring ℝ)
            (Particle.ctor ⟨0, 0, 0⟩ 1 false) (Particle.ctor ⟨3, 4, 0⟩ 1 false) * (0.5 : ℝ) ∧
      q1.Forces - (Particle.ctor (⟨3, 4, 0⟩ : Vec3 ℝ) 1 false).Forces
        = -(Spring.force_spring Real.sqrt (⟨0, 1, 650, 0.045, 2⟩ : Spring ℝ)
            (Particle.ctor ⟨0, 0, 0⟩ 1 false) (Particle.ctor ⟨3, 4, 0⟩ 1 false) * (0.5 : ℝ)) ∧
      q1.Forces - (Particle.ctor (⟨3, 4, 0⟩ : Vec3 ℝ) 1 false).Forces
        = -(q0.Forces - (Particle.ctor (⟨0, 0, 0⟩ : Vec3 ℝ) 1 false).Forces) ∧
      (q0.Forces - (Particle.ctor (⟨0, 0, 0⟩ : Vec3 ℝ) 1 false).Forces)
        + (q1.Forces - (Particle.ctor (⟨3, 4, 0⟩ : Vec3 ℝ) 1 false).Forces) = ⟨0, 0, 0⟩ := by
  have hpos : (Particle.ctor (⟨0, 0, 0⟩ : Vec3 ℝ) 1 false).Position
      ≠ (Particle.ctor (⟨3, 4, 0⟩ : Vec3 ℝ) 1 false).Position := by
    intro h
    have hx : (0 : ℝ) = 3 := congrArg Vec3.x h
    norm_num at hx
  exact ⟨hpos, spring_increments_are_opposite Real.sqrt Real_isSqrt ⟨0, 1, 650, 0.045, 2⟩
    [Particle.ctor ⟨0, 0, 0⟩ 1 false, Particle.ctor ⟨3, 4, 0⟩ 1 false]
    (Particle.ctor ⟨0, 0, 0⟩ 1 false) (Particle.ctor ⟨3, 4, 0⟩ 1 false) rfl rfl hpos⟩

end Thms

end Rope
